import Mathlib

/-!
# dali-toolkit: visual registry of `Control::Impl` and the text controller state machine

Shallow embedding of
* `internal/controls/control/control-data-impl.cpp` (the visual registry of a control:
  `RegisterVisual`, `UnregisterVisual`, `EnableVisual`, `ResourceReady`,
  `EmitResourceReadySignal`, `OnIdleCallback`, ...), and
* `internal/text/text-controller-impl.cpp` (`Controller::Impl::ChangeState`, ...).

Stateful C++ is rendered as explicit state passing: every member function becomes a
function from the state before the call to the state after it.
-/

namespace Control

/-! ## Data model of the visual registry -/

/-- Identity of a visual object (`Internal::Visual::Base`).  A `Toolkit::Visual::Base`
handle is modelled by the identity of the object it points at.  `RegisterVisual`
dereferences its handle argument in its first statement (`visual.GetDepthIndex()`), so
only non-empty handles reach the containers and the guards `if( visual )` and
`if( currentRegisteredVisual )` are always taken. -/
abbrev VisualId := Nat

/-- Modelled from the spec: the part of `Internal::Visual::Base` the registry relies on
(section 6, visual base capability `SetOnScene`, `SetOffScene`, `GetDepthIndex`,
`SetDepthIndex`, `IsResourceReady`) together with the name, the observer registration
and the actions received through `DoAction`. -/
structure VisualBase where
  /-- Result of `GetName()`. -/
  name : String
  /-- Result of `GetDepthIndex()`. -/
  depthIndex : Int
  /-- True between `SetOnScene` and `SetOffScene`. -/
  onScene : Bool
  /-- Result of `IsResourceReady()`. -/
  resourceReady : Bool
  /-- True while the control is registered as event observer of the visual. -/
  observed : Bool
  /-- Action ids received through `DoAction`, oldest first. -/
  actions : List Int

/-- `struct RegisteredVisual`: `(index, visual, enabled, pending)`. -/
structure RegisteredVisual where
  index : Int
  visual : VisualId
  enabled : Bool
  pending : Bool
deriving DecidableEq, Repr

/-- `RegisteredVisualContainer` (an `OwnerContainer< RegisteredVisual* >`): entries in
insertion order. -/
abbrev RegisteredVisualContainer := List RegisteredVisual

/-- An iterator into a container that points at an entry: the position together with
the entry found there. -/
abbrev Iterator := Nat × RegisteredVisual

/-- The members of `Control::Impl` used by the registry, the visual objects the handles
point at, and the observable effects on collaborators (actor, adaptor, signal). -/
structure Impl where
  mVisuals : RegisteredVisualContainer
  mRemoveVisuals : RegisteredVisualContainer
  /-- The visual objects, by identity. -/
  visuals : VisualId → VisualBase
  /-- `Self().GetProperty< bool >( Actor::Property::CONNECTED_TO_SCENE )`. -/
  connectedToScene : Bool
  /-- `Self().GetPropertyName( index )`. -/
  propertyName : Int → String
  /-- Number of `mControlImpl.RelayoutRequest()` calls made. -/
  relayoutRequests : Nat
  /-- True when `mIdleCallback` is not `nullptr`. -/
  mIdleCallback : Bool
  /-- Number of `Adaptor::Get().AddIdle( mIdleCallback, false )` calls made. -/
  idleCallbacksAdded : Nat
  mIsEmittingResourceReadySignal : Bool
  mNeedToEmitResourceReady : Bool
  /-- Number of `mResourceReadySignal.Emit( handle )` calls made. -/
  resourceReadySignals : Nat
  /-- Number of `DALI_LOG_WARNING` reports made. -/
  warnings : Nat

/-- `std::numeric_limits< int >::min()`. -/
def INT_MIN : Int := -2147483648

/-- `std::numeric_limits< int >::max()`. -/
def INT_MAX : Int := 2147483647

/-- Value of an `int` expression whose mathematical value is `x` (two's complement); used
for `++maxDepthIndex`. -/
def wrapInt (x : Int) : Int := (x + 2147483648) % 4294967296 - 2147483648

/-! ## Operations on a visual object -/

/-- Apply `f` to the visual object `v`. -/
def updateVisual (v : VisualId) (f : VisualBase → VisualBase) (s : Impl) : Impl :=
  { s with visuals := fun k => if k = v then f (s.visuals k) else s.visuals k }

/-- Modelled from the spec: `Visual::Base::SetOnScene( self )`. -/
def SetOnScene (v : VisualId) (s : Impl) : Impl :=
  updateVisual v (fun o => { o with onScene := true }) s

/-- Modelled from the spec: `Visual::Base::SetOffScene( self )`. -/
def SetOffScene (v : VisualId) (s : Impl) : Impl :=
  updateVisual v (fun o => { o with onScene := false }) s

/-- Modelled from the spec: `Visual::Base::SetDepthIndex( index )`. -/
def SetDepthIndex (v : VisualId) (d : Int) (s : Impl) : Impl :=
  updateVisual v (fun o => { o with depthIndex := d }) s

/-- `Control::Impl::StopObservingVisual`: `visualImpl.RemoveEventObserver( *this )`. -/
def StopObservingVisual (v : VisualId) (s : Impl) : Impl :=
  updateVisual v (fun o => { o with observed := false }) s

/-- `Control::Impl::StartObservingVisual`: `visualImpl.AddEventObserver( *this )`. -/
def StartObservingVisual (v : VisualId) (s : Impl) : Impl :=
  updateVisual v (fun o => { o with observed := true }) s

/-- Lines 604-616 of `RegisterVisual`: a visual without a name takes the name of the
control property `index`, when that name is not empty. -/
def SetNameFromProperty (index : Int) (v : VisualId) (s : Impl) : Impl :=
  updateVisual v (fun o =>
    { o with name := if o.name.isEmpty ∧ ¬ (s.propertyName index).isEmpty
                     then s.propertyName index else o.name }) s

/-! ## Searching the containers -/

/-- `FindVisual( targetIndex, visuals, iter )`: the first entry whose index is
`targetIndex`; `none` stands for the result `false`. -/
def FindVisual (targetIndex : Int) : RegisteredVisualContainer → Option Iterator
  | [] => none
  | rv :: rest =>
    if rv.index = targetIndex then some (0, rv)
    else (FindVisual targetIndex rest).map (fun it => (it.1 + 1, it.2))

/-- The search loop of `ResourceReady` (lines 776-781): the first entry of the container
whose visual is `object`. -/
def FindObject (object : VisualId) : RegisteredVisualContainer → Option Iterator
  | [] => none
  | rv :: rest =>
    if rv.visual = object then some (0, rv)
    else (FindObject object rest).map (fun it => (it.1 + 1, it.2))

/-- `MoveVisual( sourceIter, source, destination )`: release the entry from `source` and
push it at the back of `destination`. -/
def MoveVisual (sourceIter : Iterator) (source destination : RegisteredVisualContainer) :
    RegisteredVisualContainer × RegisteredVisualContainer :=
  (source.eraseIdx sourceIter.1, destination ++ [sourceIter.2])

/-! ## The resource-ready signal -/

/-- `Control::Impl::IsResourceReady` on a list of entries: false as soon as an enabled
entry holds a visual that is not ready. -/
def allEnabledReady (visuals : VisualId → VisualBase) : RegisteredVisualContainer → Bool
  | [] => true
  | rv :: rest =>
    if !(visuals rv.visual).resourceReady && rv.enabled then false
    else allEnabledReady visuals rest

/-- `Control::Impl::IsResourceReady`. -/
def IsResourceReady (s : Impl) : Bool :=
  allEnabledReady s.visuals s.mVisuals

/-- `Control::Impl::EmitResourceReadySignal`.  `slots` is what the slots connected to
`mResourceReadySignal` do to the control while the signal is dispatched. -/
def EmitResourceReadySignal (slots : Impl → Impl) (s : Impl) : Impl :=
  if !s.mIsEmittingResourceReadySignal then
    let s1 := { s with mIsEmittingResourceReadySignal := true }
    let s2 := slots { s1 with resourceReadySignals := s1.resourceReadySignals + 1 }
    let s3 :=
      if s2.mNeedToEmitResourceReady then
        if !s2.mIdleCallback then
          { s2 with mIdleCallback := true, idleCallbacksAdded := s2.idleCallbacksAdded + 1 }
        else s2
      else s2
    { s3 with mIsEmittingResourceReadySignal := false }
  else
    { s with mNeedToEmitResourceReady := true }

/-- The statement shared by `ResourceReady` (lines 797-801) and `OnIdleCallback` (lines
1863-1867): `if( connected to scene ) mControlImpl.RelayoutRequest();`. -/
def RelayoutRequestIfConnected (s : Impl) : Impl :=
  if s.connectedToScene then { s with relayoutRequests := s.relayoutRequests + 1 } else s

/-- `Control::Impl::OnIdleCallback`. -/
def OnIdleCallback (slots : Impl → Impl) (s : Impl) : Impl :=
  let s1 :=
    if s.mNeedToEmitResourceReady then
      EmitResourceReadySignal slots
        (RelayoutRequestIfConnected { s with mNeedToEmitResourceReady := false })
    else s
  { s1 with mIdleCallback := false }

/-- Lines 776-795 of `ResourceReady`: when the visual is found in `mVisuals` and the
removal container holds an entry with the same index, clear the pending flag, set the
replaced visual off scene and erase it from the removal container. -/
def swapReadyVisual (object : VisualId) (s : Impl) : Impl :=
  match FindObject object s.mVisuals with
  | none => s
  | some registeredIter =>
    match FindVisual registeredIter.2.index s.mRemoveVisuals with
    | none => s
    | some visualToRemoveIter =>
      let ready : RegisteredVisual := { (registeredIter.2) with pending := false }
      let s1 := { s with mVisuals := s.mVisuals.set registeredIter.1 ready }
      let s2 := SetOffScene visualToRemoveIter.2.visual s1
      { s2 with mRemoveVisuals := s2.mRemoveVisuals.eraseIdx visualToRemoveIter.1 }

/-- `Control::Impl::ResourceReady( object )`. -/
def ResourceReady (slots : Impl → Impl) (object : VisualId) (s : Impl) : Impl :=
  let s1 := swapReadyVisual object s
  let s2 := RelayoutRequestIfConnected s1
  if IsResourceReady s2 then
    EmitResourceReadySignal slots { s2 with mNeedToEmitResourceReady := false }
  else s2

/-! ## Registration -/

/-- Lines 551-602 of `RegisterVisual`: what happens to the visual currently registered
at `index`, found at `registeredVisualsiter`. -/
def replaceCurrent (index : Int) (enabled : Bool) (registeredVisualsiter : Iterator)
    (s : Impl) : Impl :=
  let s1 := StopObservingVisual registeredVisualsiter.2.visual s
  if s1.connectedToScene && enabled then
    match FindVisual index s1.mRemoveVisuals with
    | some _ =>
      let s2 := SetOffScene registeredVisualsiter.2.visual s1
      { s2 with mVisuals := s2.mVisuals.eraseIdx registeredVisualsiter.1 }
    | none =>
      let moved := MoveVisual registeredVisualsiter s1.mVisuals s1.mRemoveVisuals
      { s1 with mVisuals := moved.1, mRemoveVisuals := moved.2 }
  else
    { s1 with mVisuals := s1.mVisuals.eraseIdx registeredVisualsiter.1 }

/-- The loop of lines 625-636: the largest depth index of the registered visuals,
starting from `INT_MIN`. -/
def maxDepthIndex (visuals : VisualId → VisualBase) (l : RegisteredVisualContainer) : Int :=
  l.foldl (fun m rv => if (visuals rv.visual).depthIndex > m then (visuals rv.visual).depthIndex else m)
    INT_MIN

/-- The value of the local `requiredDepthIndex` of `RegisterVisual` when it is given to
`visual.SetDepthIndex` (line 645), as a function of the state before the call. -/
def requiredDepthIndex (index : Int) (visual : VisualId) (depthIndexValueSet : Bool)
    (depthIndex : Int) (s : Impl) : Int :=
  let initial := if depthIndexValueSet then depthIndex else (s.visuals visual).depthIndex
  match FindVisual index s.mVisuals with
  | some registeredVisualsiter =>
    if !depthIndexValueSet && (s.visuals visual).depthIndex == 0 then
      (s.visuals registeredVisualsiter.2.visual).depthIndex
    else initial
  | none =>
    if !depthIndexValueSet && decide (s.mVisuals.length > 0) && (s.visuals visual).depthIndex == 0 then
      max 0 (wrapInt (maxDepthIndex s.visuals s.mVisuals + 1))
    else initial

/-- Lines 535-654 of `RegisterVisual`: the state once the new entry has been pushed at
the back of `mVisuals`.  `enabled` is true for `VisualState::ENABLED`,
`depthIndexValueSet` is true for `DepthIndexValue::SET`. -/
def pushNewVisual (index : Int) (visual : VisualId) (enabled : Bool)
    (depthIndexValueSet : Bool) (depthIndex : Int) (s : Impl) : Impl :=
  let required := requiredDepthIndex index visual depthIndexValueSet depthIndex s
  let visualReplaced := (FindVisual index s.mVisuals).isSome
  let s1 :=
    match FindVisual index s.mVisuals with
    | some registeredVisualsiter => replaceCurrent index enabled registeredVisualsiter s
    | none => s
  let s2 := SetNameFromProperty index visual s1
  let s3 := SetDepthIndex visual required s2
  let s4 := StartObservingVisual visual s3
  { s4 with mVisuals := s4.mVisuals ++ [⟨index, visual, enabled, visualReplaced && enabled⟩] }

/-- `Control::Impl::RegisterVisual( index, visual, enabled, depthIndexValueSet, depthIndex )`:
the new entry is pushed, then (lines 656-665) the visual is put on scene when it is
enabled and the control is on scene; when it is not, a visual that is already ready
reports so at once. -/
def RegisterVisual (slots : Impl → Impl) (index : Int) (visual : VisualId) (enabled : Bool)
    (depthIndexValueSet : Bool) (depthIndex : Int) (s : Impl) : Impl :=
  let s5 := pushNewVisual index visual enabled depthIndexValueSet depthIndex s
  if enabled && s5.connectedToScene then
    SetOnScene visual s5
  else if (s5.visuals visual).resourceReady then
    ResourceReady slots visual s5
  else s5

/-- `Control::Impl::UnregisterVisual( index )`. -/
def UnregisterVisual (index : Int) (s : Impl) : Impl :=
  let s1 :=
    match FindVisual index s.mVisuals with
    | some iter =>
      let a := StopObservingVisual iter.2.visual s
      let b := SetOffScene iter.2.visual a
      { b with mVisuals := b.mVisuals.eraseIdx iter.1 }
    | none => s
  match FindVisual index s1.mRemoveVisuals with
  | some iter =>
    let a := SetOffScene iter.2.visual s1
    { a with mRemoveVisuals := a.mRemoveVisuals.eraseIdx iter.1 }
  | none => s1

/-- `Control::Impl::GetVisual( index )`; `none` is the empty handle. -/
def GetVisual (index : Int) (s : Impl) : Option VisualId :=
  match FindVisual index s.mVisuals with
  | some iter => some iter.2.visual
  | none => none

/-- `Control::Impl::EnableVisual( index, enable )`. -/
def EnableVisual (index : Int) (enable : Bool) (s : Impl) : Impl :=
  match FindVisual index s.mVisuals with
  | some iter =>
    if iter.2.enabled = enable then s
    else
      let s1 := { s with mVisuals := s.mVisuals.set iter.1 { (iter.2) with enabled := enable } }
      if s1.connectedToScene then
        if enable then SetOnScene iter.2.visual s1 else SetOffScene iter.2.visual s1
      else s1
  | none => { s with warnings := s.warnings + 1 }

/-- `Control::Impl::IsVisualEnabled( index )`. -/
def IsVisualEnabled (index : Int) (s : Impl) : Bool :=
  match FindVisual index s.mVisuals with
  | some iter => iter.2.enabled
  | none => false

/-- `Control::Impl::DoAction( visualIndex, actionId, attributes )`: the action is
forwarded to the visual registered at `visualIndex`. -/
def DoAction (visualIndex : Int) (actionId : Int) (s : Impl) : Impl :=
  match FindVisual visualIndex s.mVisuals with
  | some iter => updateVisual iter.2.visual (fun o => { o with actions := o.actions ++ [actionId] }) s
  | none => s

/-! ## Sequences of registrations -/

/-- The arguments of one `RegisterVisual` call, with the scene connection of the control
at the time of the call. -/
structure RegisterArgs where
  index : Int
  visual : VisualId
  enabled : Bool
  depthIndexValueSet : Bool
  depthIndex : Int
  onScene : Bool

/-- One `RegisterVisual` call made while the control is on or off scene as the
arguments say. -/
def registerWith (slots : Impl → Impl) (a : RegisterArgs) (s : Impl) : Impl :=
  RegisterVisual slots a.index a.visual a.enabled a.depthIndexValueSet a.depthIndex
    { s with connectedToScene := a.onScene }

/-- Slots that answer the resource-ready signal with further `RegisterVisual` calls.
These calls run while `mIsEmittingResourceReadySignal` is set, so they dispatch no
signal themselves. -/
def reentrantSlots (nested : List RegisterArgs) (s : Impl) : Impl :=
  nested.foldl (fun t a => registerWith id a t) s

/-- A `RegisterVisual` call from the application, with the registrations made in turn by
the slots connected to the resource-ready signal when that call emits it. -/
structure RegisterCall where
  args : RegisterArgs
  nested : List RegisterArgs

/-- A sequence of `RegisterVisual` calls, oldest first. -/
def registerAll (calls : List RegisterCall) (s : Impl) : Impl :=
  calls.foldl (fun t c => registerWith (reentrantSlots c.nested) c.args t) s

/-- Number of entries of a container registered under `index`. -/
def countIndex (index : Int) (l : RegisteredVisualContainer) : Nat :=
  l.countP (fun rv => decide (rv.index = index))

/-- The entries of a container registered under `index`, in container order. -/
def entriesAt (index : Int) (l : RegisteredVisualContainer) : RegisteredVisualContainer :=
  l.filter (fun rv => decide (rv.index = index))

/-- The uniqueness invariant of the registry: no index has two entries in `mVisuals` or two
entries in `mRemoveVisuals`, and every index of `registered` has its entry in `mVisuals`. -/
def RegistryInv (registered : List Int) (s : Impl) : Prop :=
  (∀ j, countIndex j s.mVisuals ≤ 1) ∧ (∀ j, countIndex j s.mRemoveVisuals ≤ 1) ∧
    ∀ i ∈ registered, countIndex i s.mVisuals = 1

/-! ## Example states -/

/-- A visual object as created by the factory: no name, depth index 0, off scene. -/
def newVisual (ready : Bool) : VisualBase :=
  { name := "", depthIndex := 0, onScene := false, resourceReady := ready,
    observed := false, actions := [] }

/-- A control with nothing registered. -/
def emptyControl (connected : Bool) (visuals : VisualId → VisualBase) : Impl :=
  { mVisuals := [], mRemoveVisuals := [], visuals := visuals, connectedToScene := connected,
    propertyName := fun _ => "", relayoutRequests := 0, mIdleCallback := false,
    idleCallbacksAdded := 0, mIsEmittingResourceReadySignal := false,
    mNeedToEmitResourceReady := false, resourceReadySignals := 0, warnings := 0 }

/-- Visual 0 is ready (already loaded), every other visual is still loading. -/
def onlyFirstReady : VisualId → VisualBase :=
  fun v => newVisual (v == 0)

/-- Visual 0 on scene under index 1, nothing waiting for removal; the control is on
scene. -/
def oneOnScene : Impl :=
  registerWith id { index := 1, visual := 0, enabled := true, depthIndexValueSet := false,
                    depthIndex := 0, onScene := true } (emptyControl true onlyFirstReady)

/-- Visual 0 waits for removal under index 1 while its replacement, visual 1, is still
loading; the control is on scene. -/
def replacementPending : Impl :=
  registerWith id { index := 1, visual := 1, enabled := true, depthIndexValueSet := false,
                    depthIndex := 0, onScene := true } oneOnScene

/-- Visual 0 registered under index 1 with the explicit depth index -100 (a visual meant
to lie behind the content); the control is on scene. -/
def backgroundOnly : Impl :=
  registerWith id { index := 1, visual := 0, enabled := true, depthIndexValueSet := true,
                    depthIndex := -100, onScene := true } (emptyControl true onlyFirstReady)

/-- Visual 0 has been put on scene under index 1, then visual 1, still loading, has been
registered at the same index as a disabled visual; the control is on scene. -/
def disabledReplacement : Impl :=
  registerWith id { index := 1, visual := 1, enabled := false, depthIndexValueSet := false,
                    depthIndex := 0, onScene := true } oneOnScene

/-- One visual under two indices: visual 5 is registered under index 1, visual 6 under
index 2, then visual 5 again under index 2, all enabled on a control that is on scene.
Visual 5 is active at the indices 1 and 2, and visual 6 waits for removal at index 2. -/
def sharedVisual : Impl :=
  registerWith id { index := 2, visual := 5, enabled := true, depthIndexValueSet := false,
                    depthIndex := 0, onScene := true }
    (registerWith id { index := 2, visual := 6, enabled := true, depthIndexValueSet := false,
                       depthIndex := 0, onScene := true }
      (registerWith id { index := 1, visual := 5, enabled := true, depthIndexValueSet := false,
                         depthIndex := 0, onScene := true } (emptyControl true onlyFirstReady)))

/-- Slots that ask for the resource-ready signal again while it is being dispatched, as
a slot does when it changes a visual that becomes ready during the call. -/
def requestAgain : Impl → Impl :=
  EmitResourceReadySignal id

/-- An idle callback is scheduled: `ResourceReady` has emitted the signal on a control
with nothing registered and a slot has asked for the signal again meanwhile. -/
def idleScheduled : Impl :=
  ResourceReady requestAgain 0 (emptyControl true onlyFirstReady)

/-- The scenario of the specification: visual 0 (ready) is registered at index 1 on
scene, then visual 1 (still loading) is registered at the same index. -/
def replaceOnScene : List RegisterCall :=
  [ { args := { index := 1, visual := 0, enabled := true, depthIndexValueSet := false,
                depthIndex := 0, onScene := true }, nested := [] },
    { args := { index := 1, visual := 1, enabled := true, depthIndexValueSet := false,
                depthIndex := 0, onScene := true }, nested := [] } ]

end Control

namespace Text

/-! ## Data model of the text controller -/

/-- `EventData::State`. -/
inductive State where
  | INACTIVE
  | INTERRUPTED
  | SELECTING
  | EDITING
  | EDITING_WITH_POPUP
  | EDITING_WITH_GRAB_HANDLE
  | EDITING_WITH_PASTE_POPUP
  | GRAB_HANDLE_PANNING
  | SELECTION_HANDLE_PANNING
deriving DecidableEq, Repr

/-- `enum ActiveCursor` of the decorator. -/
inductive ActiveCursor where
  | ACTIVE_CURSOR_NONE
  | ACTIVE_CURSOR_PRIMARY
  | ACTIVE_CURSOR_BOTH
deriving DecidableEq, Repr

/-- `enum HandleType` of the decorator. -/
inductive HandleType where
  | GRAB_HANDLE
  | LEFT_SELECTION_HANDLE
  | RIGHT_SELECTION_HANDLE
deriving DecidableEq, Repr

/-- The enumerators of `TextSelectionPopup::Buttons`.  A value of that type is kept as the
list of the enumerators or-ed together, in the order the code combines them. -/
inductive Button where
  | NONE
  | CUT
  | COPY
  | PASTE
  | SELECT
  | SELECT_ALL
  | CLIPBOARD
deriving DecidableEq, Repr

/-- `enum Cursor` of the decorator. -/
inductive Cursor where
  | PRIMARY_CURSOR
  | SECONDARY_CURSOR
deriving DecidableEq, Repr

/-! ## The type `float` -/

/-- A value of the C++ type `float` (IEEE 754 binary32): a finite number, kept as the
rational it stands for, an infinity or a NaN.  The sign of a zero is not kept: the code
modelled here divides by converted unsigned counts only, so that no operation tells `-0`
from `+0`. -/
inductive float where
  | finite (value : ℚ)
  | infinity (negative : Bool)
  | NaN
deriving DecidableEq, Repr

/-- The number of halvings that take `n` below 2, at most `fuel` of them. -/
def halvings : Nat → Nat → Nat
  | 0, _ => 0
  | fuel + 1, n => if n ≥ 2 then halvings fuel (n / 2) + 1 else 0

/-- The exponent `e` with `2^e <= a / d < 2^(e + 1)`, for positive `a` and `d`. -/
def binaryExponent (a d : Nat) : Int :=
  let e0 : Int := (halvings a a : Int) - (halvings d d : Int)
  if a * 2 ^ (-e0).toNat ≥ d * 2 ^ e0.toNat then e0 else e0 - 1

/-- Rounding of the positive rational `a / d` to binary32, to nearest with ties to the even
significand: the significand has 24 bits, the least exponent of the unit in the last place
is -149 (subnormal numbers), and the result is `none` (an infinity) when it reaches
`2^128`. -/
def roundMagnitude (a d : Nat) : Option ℚ :=
  let e := binaryExponent a d
  let quantum : Int := (if e < -126 then -126 else e) - 23
  let numerator := a * 2 ^ (-quantum).toNat
  let denominator := d * 2 ^ quantum.toNat
  let quotient := numerator / denominator
  let remainder := numerator % denominator
  let significand :=
    if 2 * remainder > denominator ∨ (2 * remainder = denominator ∧ quotient % 2 = 1) then
      quotient + 1
    else quotient
  let scaled := significand * 2 ^ quantum.toNat
  if scaled ≥ 2 ^ 128 * 2 ^ (-quantum).toNat then none
  else some ((scaled : ℚ) / ((2 ^ (-quantum).toNat : Nat) : ℚ))

/-- The `float` a real result is rounded to. -/
def float.ofRat (q : ℚ) : float :=
  if q = 0 then .finite 0
  else
    match roundMagnitude q.num.natAbs q.den with
    | some r => .finite (if q < 0 then -r else r)
    | none => .infinity (decide (q < 0))

/-- Unary minus. -/
def float.neg : float → float
  | .finite x => .finite (-x)
  | .infinity negative => .infinity (!negative)
  | .NaN => .NaN

/-- Addition of two `float`s. -/
def float.add : float → float → float
  | .finite x, .finite y => float.ofRat (x + y)
  | .finite _, .infinity negative => .infinity negative
  | .infinity negative, .finite _ => .infinity negative
  | .infinity a, .infinity b => if a = b then .infinity a else .NaN
  | _, _ => .NaN

/-- Multiplication of two `float`s. -/
def float.mul : float → float → float
  | .finite x, .finite y => float.ofRat (x * y)
  | .finite x, .infinity negative =>
    if x = 0 then .NaN else .infinity (decide (x < 0) != negative)
  | .infinity negative, .finite y =>
    if y = 0 then .NaN else .infinity (negative != decide (y < 0))
  | .infinity a, .infinity b => .infinity (a != b)
  | _, _ => .NaN

/-- Division of two `float`s; a zero divisor is `+0`. -/
def float.div : float → float → float
  | .finite x, .finite y =>
    if y = 0 then (if x = 0 then .NaN else .infinity (decide (x < 0)))
    else float.ofRat (x / y)
  | .finite _, .infinity _ => .finite 0
  | .infinity negative, .finite y => .infinity (negative != decide (y < 0))
  | _, _ => .NaN

/-- The comparison `a < b`, false when an operand is a NaN. -/
def float.lt : float → float → Bool
  | .finite x, .finite y => decide (x < y)
  | .finite _, .infinity negative => !negative
  | .infinity negative, .finite _ => negative
  | .infinity a, .infinity b => a && !b
  | _, _ => false

/-- The comparison `a <= b`, false when an operand is a NaN. -/
def float.le : float → float → Bool
  | .finite x, .finite y => decide (x ≤ y)
  | .finite _, .infinity negative => !negative
  | .infinity negative, .finite _ => negative
  | .infinity a, .infinity b => a || !b
  | _, _ => false

/-- `floorf( x )`. -/
def float.floor : float → float
  | .finite x => .finite (Int.floor x)
  | a => a

/-- The whole part of a `float` that is finite and not negative, as a natural number; 0
for the other values. -/
def float.toNat : float → Nat
  | .finite x => (Int.floor x).toNat
  | _ => 0

/-- True of a NaN. -/
def float.isNaN : float → Bool
  | .NaN => true
  | _ => false

instance : Neg float := ⟨float.neg⟩
instance : Add float := ⟨float.add⟩
instance : Sub float := ⟨fun a b => float.add a (float.neg b)⟩
instance : Mul float := ⟨float.mul⟩
instance : Div float := ⟨float.div⟩
instance : LT float := ⟨fun a b => float.lt a b = true⟩
instance : LE float := ⟨fun a b => float.le a b = true⟩
instance (a b : float) : Decidable (a < b) := inferInstanceAs (Decidable (float.lt a b = true))
instance (a b : float) : Decidable (a ≤ b) := inferInstanceAs (Decidable (float.le a b = true))

/-- The literal `n.f`. -/
instance (n : Nat) : OfNat float n := ⟨float.ofRat n⟩

/-- `static_cast<float>( n )` of an unsigned integer. -/
instance : NatCast float := ⟨fun n => float.ofRat n⟩

/-- `static_cast<float>( n )` of an integer. -/
instance : IntCast float := ⟨fun n => float.ofRat n⟩

/-- `std::min( a, b )`. -/
instance : Min float := ⟨fun a b => if b < a then b else a⟩

/-- `std::max( a, b )`. -/
instance : Max float := ⟨fun a b => if a < b then b else a⟩

/-- `Dali::Vector2`. -/
structure Vector2 where
  x : float
  y : float
deriving DecidableEq, Repr

/-- `Dali::Size` (a `Vector2` read as width and height). -/
structure Size where
  width : float
  height : float
deriving DecidableEq, Repr

/-- A highlight quad handed to `Decorator::AddHighlight( x1, y1, x2, y2 )`. -/
structure Quad where
  x1 : float
  y1 : float
  x2 : float
  y2 : float
deriving DecidableEq, Repr

/-- The calls the controller makes on the decorator. -/
inductive DecoratorCommand where
  | SetActiveCursor (activeCursor : ActiveCursor)
  | StartCursorBlink
  | StopCursorBlink
  | SetHandleActive (handleType : HandleType) (active : Bool)
  | SetPopupActive (active : Bool)
  | SetEnabledPopupButtons (buttons : List Button)
  | DelayCursorBlink
  | SetPositionCursor (cursor : Cursor) (x y cursorHeight lineHeight : float)
  | SetPositionHandle (handleType : HandleType) (x y lineHeight : float)
  | ClearHighlights
  | AddHighlight (x1 y1 x2 y2 : float)
  | SetHighLightBox (position : Vector2) (size : Size)
  | SetSelectionHandleFlipState (indicesSwapped left right : Bool)
  | NotifyEndOfScroll
  | UpdatePositions (scrollOffset : Vector2)
deriving DecidableEq, Repr

/-- Modelled from the spec: the decorator as a command sink (section 6, position and
active-state setters per cursor and handle, blink control, popup, `AddHighlight` and
`ClearHighlights`).  It keeps the last value set by each setter, its own settings read by
the controller, and the commands it has received, oldest first. -/
structure Decorator where
  activeCursor : ActiveCursor
  cursorBlinking : Bool
  grabHandleActive : Bool
  leftSelectionHandleActive : Bool
  rightSelectionHandleActive : Bool
  popupActive : Bool
  enabledPopupButtons : List Button
  commands : List DecoratorCommand
  /-- Result of `GetPosition( PRIMARY_CURSOR )`. -/
  primaryCursorPosition : Vector2 := ⟨0, 0⟩
  /-- Result of `GetPosition( SECONDARY_CURSOR )`. -/
  secondaryCursorPosition : Vector2 := ⟨0, 0⟩
  /-- Result of `GetPosition( GRAB_HANDLE )`. -/
  grabHandlePosition : Vector2 := ⟨0, 0⟩
  /-- Result of `GetPosition( LEFT_SELECTION_HANDLE )`. -/
  leftSelectionHandlePosition : Vector2 := ⟨0, 0⟩
  /-- Result of `GetPosition( RIGHT_SELECTION_HANDLE )`. -/
  rightSelectionHandlePosition : Vector2 := ⟨0, 0⟩
  /-- The quads added since the last `ClearHighlights`, oldest first. -/
  highlights : List Quad := []
  highlightBoxPosition : Vector2 := ⟨0, 0⟩
  highlightBoxSize : Size := ⟨0, 0⟩
  /-- Result of `GetCursorWidth()`. -/
  cursorWidth : Int := 0
  /-- Result of `IsSmoothHandlePanEnabled()`. -/
  smoothHandlePanEnabled : Bool := false
  /-- Result of `IsHorizontalScrollEnabled()`. -/
  horizontalScrollEnabled : Bool := false
  /-- Result of `IsVerticalScrollEnabled()`. -/
  verticalScrollEnabled : Bool := false
deriving DecidableEq, Repr

/-- `Vector2::operator+`. -/
def Vector2.add (a b : Vector2) : Vector2 := ⟨a.x + b.x, a.y + b.y⟩

/-- Modelled from the spec: what a command does to the decorator; `UpdatePositions` moves
the cursors, the handles and the highlight box by the scroll offset. -/
def Decorator.receive (c : DecoratorCommand) (d : Decorator) : Decorator :=
  let d1 := { d with commands := d.commands ++ [c] }
  match c with
  | .SetActiveCursor a => { d1 with activeCursor := a }
  | .StartCursorBlink => { d1 with cursorBlinking := true }
  | .StopCursorBlink => { d1 with cursorBlinking := false }
  | .SetHandleActive .GRAB_HANDLE active => { d1 with grabHandleActive := active }
  | .SetHandleActive .LEFT_SELECTION_HANDLE active => { d1 with leftSelectionHandleActive := active }
  | .SetHandleActive .RIGHT_SELECTION_HANDLE active =>
    { d1 with rightSelectionHandleActive := active }
  | .SetPopupActive active => { d1 with popupActive := active }
  | .SetEnabledPopupButtons buttons => { d1 with enabledPopupButtons := buttons }
  | .DelayCursorBlink => d1
  | .SetPositionCursor .PRIMARY_CURSOR x y _ _ => { d1 with primaryCursorPosition := ⟨x, y⟩ }
  | .SetPositionCursor .SECONDARY_CURSOR x y _ _ => { d1 with secondaryCursorPosition := ⟨x, y⟩ }
  | .SetPositionHandle .GRAB_HANDLE x y _ => { d1 with grabHandlePosition := ⟨x, y⟩ }
  | .SetPositionHandle .LEFT_SELECTION_HANDLE x y _ =>
    { d1 with leftSelectionHandlePosition := ⟨x, y⟩ }
  | .SetPositionHandle .RIGHT_SELECTION_HANDLE x y _ =>
    { d1 with rightSelectionHandlePosition := ⟨x, y⟩ }
  | .ClearHighlights => { d1 with highlights := [] }
  | .AddHighlight x1 y1 x2 y2 => { d1 with highlights := d1.highlights ++ [⟨x1, y1, x2, y2⟩] }
  | .SetHighLightBox position size =>
    { d1 with highlightBoxPosition := position, highlightBoxSize := size }
  | .SetSelectionHandleFlipState _ _ _ => d1
  | .NotifyEndOfScroll => d1
  | .UpdatePositions o =>
    { d1 with primaryCursorPosition := d1.primaryCursorPosition.add o,
              secondaryCursorPosition := d1.secondaryCursorPosition.add o,
              grabHandlePosition := d1.grabHandlePosition.add o,
              leftSelectionHandlePosition := d1.leftSelectionHandlePosition.add o,
              rightSelectionHandlePosition := d1.rightSelectionHandlePosition.add o,
              highlightBoxPosition := d1.highlightBoxPosition.add o }

/-- `Event::Type`. -/
inductive EventType where
  | CURSOR_KEY_EVENT
  | TAP_EVENT
  | PAN_EVENT
  | LONG_PRESS_EVENT
  | GRAB_HANDLE_EVENT
  | LEFT_SELECTION_HANDLE_EVENT
  | RIGHT_SELECTION_HANDLE_EVENT
  | SELECT
  | SELECT_ALL
deriving DecidableEq, Repr

/-- `struct Event`: the type and the three parameters.  The first parameter is read as
`p1.mInt` or `p1.mUint`, the other two as `p2.mFloat` and `p3.mFloat`. -/
structure Event where
  type : EventType
  p1 : Int
  p2 : float
  p3 : float
deriving DecidableEq, Repr

/-- `struct EventData`: the members set by the constructor that the controller reads or
writes.  `mDecorator` is dereferenced without a test by `ChangeState` and most handlers and
is taken to be non-null, so the tests `if( mEventData->mDecorator )` succeed. -/
structure EventData where
  mDecorator : Decorator
  mState : State
  mPrimaryCursorPosition : Nat
  mLeftSelectionPosition : Nat
  mRightSelectionPosition : Nat
  mIsShowingPlaceholderText : Bool
  mDecoratorUpdated : Bool
  mCursorBlinkEnabled : Bool
  mGrabHandleEnabled : Bool
  mGrabHandlePopupEnabled : Bool
  mSelectionEnabled : Bool
  mUpdateCursorPosition : Bool
  mUpdateGrabHandlePosition : Bool
  mUpdateLeftSelectionPosition : Bool
  mUpdateRightSelectionPosition : Bool
  mUpdateHighlightBox : Bool
  mScrollAfterUpdatePosition : Bool
  mScrollAfterDelete : Bool
  mAllTextSelected : Bool
  mUpdateInputStyle : Bool
  /-- The queue of events waiting for `ProcessInputEvents`, oldest first. -/
  mEventQueue : List Event := []
  /-- True when the handle `mImfManager` is not empty. -/
  mImfManager : Bool := false
  mCursorHookPositionX : float := 0
  mUpdateCursorHookPosition : Bool := false
deriving DecidableEq, Repr

/-- The number of values of an `unsigned int` (`Length`, `CharacterIndex`, `GlyphIndex`,
`LineIndex`). -/
def UINT_RANGE : Nat := 4294967296

/-- Addition of two `unsigned int`s. -/
def uadd (a b : Nat) : Nat := (a + b) % UINT_RANGE

/-- Subtraction of two `unsigned int`s. -/
def usub (a b : Nat) : Nat := (a + (UINT_RANGE - b % UINT_RANGE)) % UINT_RANGE

/-- A `Dali::Vector` read through the raw pointer returned by `Begin()`: `items` holds the
elements, `beyond i` is what a read at a position `i` past the end yields, which the
program does not control. -/
structure Buffer (α : Type) where
  items : List α
  beyond : Nat → α

/-- `Vector::Count()`. -/
def Buffer.Count {α : Type} (b : Buffer α) : Nat := b.items.length

/-- The read `*( buffer + i )`. -/
def Buffer.read {α : Type} (b : Buffer α) (i : Nat) : α :=
  match b.items[i]? with
  | some a => a
  | none => b.beyond i

/-- The members of `GlyphInfo` used by the controller. -/
structure GlyphInfo where
  advance : float
  xBearing : float
deriving DecidableEq, Repr

/-- `struct GlyphRun`. -/
structure GlyphRun where
  glyphIndex : Nat
  numberOfGlyphs : Nat
deriving DecidableEq, Repr

/-- The members of `LineRun` used by the controller.  `direction` is a
`CharacterDirection`: false is left to right (the constant `LTR`), true is right to left. -/
structure LineRun where
  glyphRun : GlyphRun
  ascender : float
  descender : float
  alignmentOffset : float
  direction : Bool
deriving DecidableEq, Repr

/-- `struct CursorInfo`. -/
structure CursorInfo where
  primaryPosition : Vector2
  secondaryPosition : Vector2
  lineOffset : float
  lineHeight : float
  primaryCursorHeight : float
  secondaryCursorHeight : float
  isSecondaryCursor : Bool
deriving DecidableEq, Repr

/-- `struct SelectionBoxInfo`. -/
structure SelectionBoxInfo where
  lineOffset : float
  lineHeight : float
  minX : float
  maxX : float
deriving DecidableEq, Repr

/-- `LayoutEngine::HorizontalAlignment`. -/
inductive HorizontalAlignment where
  | HORIZONTAL_ALIGN_BEGIN
  | HORIZONTAL_ALIGN_CENTER
  | HORIZONTAL_ALIGN_END
deriving DecidableEq, Repr

/-- `struct CharacterRun`: the index of the first character of a run and its number of
characters. -/
structure CharacterRun where
  characterIndex : Nat
  numberOfCharacters : Nat
deriving DecidableEq, Repr

/-- `struct ParagraphRun`: the member read by the controller. -/
structure ParagraphRun where
  characterRun : CharacterRun
deriving DecidableEq, Repr

/-- A `Dali::Vector` with nothing in it. -/
def Buffer.vacant {α : Type} (a : α) : Buffer α := { items := [], beyond := fun _ => a }

/-- `Vector::Clear()`. -/
def Buffer.Clear {α : Type} (b : Buffer α) : Buffer α := { b with items := [] }

/-- `Vector::Erase( Begin() + first, Begin() + last )`: the elements of `[first, last)` are
removed.  The result is not defined (`none`) unless `first <= last <= Count()`. -/
def Buffer.Erase {α : Type} (b : Buffer α) (first last : Nat) : Option (Buffer α) :=
  if first ≤ last ∧ last ≤ b.items.length then
    some { b with items := b.items.take first ++ b.items.drop last }
  else none

/-- The part of the logical model used by the controller.  A script is kept as a number, a
line or word break info as the number of its kind, and of a run of scripts, fonts or
bidirectional info only the run of characters is kept.  `GetScript` is
`LogicalModel::GetScript( characterIndex )` and `FindParagraphs` is
`LogicalModel::FindParagraphs( index, numberOfCharacters, paragraphs )`, both defined
outside the sources at hand. -/
structure LogicalModel where
  /-- The text, as UTF-32 code points. -/
  mText : List Nat
  mCharacterDirections : Buffer Bool
  GetScript : Nat → Nat
  mParagraphInfo : Buffer ParagraphRun := Buffer.vacant ⟨⟨0, 0⟩⟩
  mLineBreakInfo : Buffer Nat := Buffer.vacant 0
  mWordBreakInfo : Buffer Nat := Buffer.vacant 0
  mScriptRuns : Buffer CharacterRun := Buffer.vacant ⟨0, 0⟩
  mFontRuns : Buffer CharacterRun := Buffer.vacant ⟨0, 0⟩
  mBidirectionalParagraphInfo : Buffer CharacterRun := Buffer.vacant ⟨0, 0⟩
  mBidirectionalLineInfo : Buffer CharacterRun := Buffer.vacant ⟨0, 0⟩
  /-- The indices of the paragraphs found by `FindParagraphs( index, numberOfCharacters,
  paragraphs )`. -/
  FindParagraphs : Nat → Nat → List Nat := fun _ _ => []

/-- The part of the visual model used by the controller.  `GetLineOfCharacter` and
`GetNumberOfLines` are member functions defined outside the sources at hand; the latter
returns the index of the first line and the number of lines of a range of glyphs. -/
structure VisualModel where
  mControlSize : Size
  /-- Result of `GetLayoutSize()`. -/
  layoutSize : Size
  mGlyphs : Buffer GlyphInfo
  mGlyphPositions : Buffer Vector2
  mCharactersToGlyph : Buffer Nat
  mGlyphsPerCharacter : Buffer Nat
  mCharactersPerGlyph : Buffer Nat
  mGlyphsToCharacters : Buffer Nat
  mLines : Buffer LineRun
  GetLineOfCharacter : Nat → Nat
  GetNumberOfLines : Nat → Nat → Nat × Nat
  mColorIndices : Buffer Nat := Buffer.vacant 0

/-- Functions of the text library called by the controller and defined outside the
sources at hand, evaluated on the current models. -/
structure Services where
  /-- `Text::GetClosestCursorIndex( visualModel, logicalModel, metrics, x, y )`. -/
  GetClosestCursorIndex : float → float → Nat
  /-- The cursor info filled by `Text::GetCursorPosition( ..., logical, cursorInfo )`. -/
  GetCursorPosition : Nat → CursorInfo
  /-- `FindSelectionIndices( ..., x, y, start, end )`: the result and the two indices. -/
  FindSelectionIndices : float → float → Bool × Nat × Nat
  /-- `CalculateLineOffset( mVisualModel->mLines, lineIndex )`. -/
  CalculateLineOffset : Nat → float
  /-- `HasLigatureMustBreak( script )`. -/
  HasLigatureMustBreak : Nat → Bool
  /-- `TextAbstraction::IsWhiteSpace( character )`. -/
  IsWhiteSpace : Nat → Bool
  /-- Result of `GetDefaultFontLineHeight()`. -/
  defaultFontLineHeight : float
  /-- What a freshly resized `Vector<SelectionBoxInfo>` holds at a position. -/
  uninitializedBox : Nat → SelectionBoxInfo
  /-- A `CursorInfo` as built by its constructor, which is defined outside the sources at
  hand. -/
  freshCursorInfo : CursorInfo := ⟨⟨0, 0⟩, ⟨0, 0⟩, 0, 0, 0, 0, false⟩
  /-- The key code `Dali::DALI_KEY_CURSOR_UP`, defined by the adaptor. -/
  DALI_KEY_CURSOR_UP : Int := 111
  /-- The key code `Dali::DALI_KEY_CURSOR_LEFT`, defined by the adaptor. -/
  DALI_KEY_CURSOR_LEFT : Int := 113
  /-- The key code `Dali::DALI_KEY_CURSOR_RIGHT`, defined by the adaptor. -/
  DALI_KEY_CURSOR_RIGHT : Int := 114
  /-- The key code `Dali::DALI_KEY_CURSOR_DOWN`, defined by the adaptor. -/
  DALI_KEY_CURSOR_DOWN : Int := 116
  /-- The gesture state `Gesture::Started`, defined by the core library. -/
  GestureStarted : Int := 1
  /-- The gesture state `Gesture::Continuing`, defined by the core library. -/
  GestureContinuing : Int := 2
  /-- `Utf32ToUtf8( utf32, numberOfCharacters, utf8 )`: what `utf8` holds afterwards, given
  the code points and what it held before. -/
  Utf32ToUtf8 : List Nat → String → String :=
    fun utf32 _ => String.mk (utf32.map Char.ofNat)
  /-- `ClearCharacterRuns( startIndex, endIndex, mVisualModel->mLines, startRemoveIndex,
  endRemoveIndex )`: the lines and the two indices afterwards. -/
  ClearCharacterRuns : Nat → Nat → Buffer LineRun → Buffer LineRun × Nat × Nat :=
    fun _ _ lines => (lines, lines.Count, lines.Count)
  /-- `ClearGlyphRuns( startIndex, endIndex, mVisualModel->mLines, startRemoveIndex,
  endRemoveIndex )`: the lines and the two indices afterwards. -/
  ClearGlyphRuns : Nat → Nat → Buffer LineRun → Buffer LineRun × Nat × Nat :=
    fun _ _ lines => (lines, lines.Count, lines.Count)

/-- `struct TextUpdateInfo`: the members read or written by the controller. -/
structure TextUpdateInfo where
  mCharacterIndex : Nat := 0
  mNumberOfCharactersToRemove : Nat := 0
  mNumberOfCharactersToAdd : Nat := 0
  mPreviousNumberOfCharacters : Nat := 0
  mParagraphCharacterIndex : Nat := 0
  mRequestedNumberOfCharacters : Nat := 0
  mStartGlyphIndex : Nat := 0
  mStartLineIndex : Nat := 0
  mEstimatedNumberOfLines : Nat := 0
  mClearAll : Bool := true
  mFullRelayoutNeeded : Bool := true
  mIsLastCharacterNewParagraph : Bool := false
deriving DecidableEq, Repr

/-- `enum OperationsMask`: a mask is kept as the set of its bits, so that the field of a
stage is true when `NO_OPERATION != ( STAGE & operations )`. -/
structure OperationsMask where
  GET_LINE_BREAKS : Bool := false
  GET_WORD_BREAKS : Bool := false
  GET_SCRIPTS : Bool := false
  VALIDATE_FONTS : Bool := false
  BIDI_INFO : Bool := false
  REORDER : Bool := false
  SHAPE_TEXT : Bool := false
  LAYOUT : Bool := false
  COLOR : Bool := false
deriving DecidableEq, Repr

/-- The members of `Controller::Impl` used by the input handling, and the effects on the
clipboard, on the input method manager and on the collaborators. -/
structure Impl where
  /-- `mEventData`; `none` is the null pointer (text input is not enabled). -/
  mEventData : Option EventData
  mLogicalModel : LogicalModel
  mVisualModel : VisualModel
  services : Services
  mScrollPosition : Vector2
  /-- True when `mLayoutEngine.GetLayout()` is `LayoutEngine::MULTI_LINE_BOX`. -/
  multiLineLayout : Bool
  /-- Result of `mLayoutEngine.GetHorizontalAlignment()`. -/
  horizontalAlignment : HorizontalAlignment
  /-- True when the handle `mClipboard` is not empty. -/
  mClipboard : Bool
  /-- Result of `IsClipboardEmpty()`, which is declared outside the sources at hand. -/
  clipboardEmpty : Bool
  mClipboardHideEnabled : Bool
  /-- Number of `mClipboard.HideClipboard()` calls made. -/
  clipboardHidden : Nat
  /-- The arguments of the `mImfManager.SetCursorPosition` calls made, oldest first. -/
  imfCursorPositions : List Nat
  /-- The character indices of the `GetCursorPosition` calls made, oldest first. -/
  cursorPositionCalls : List Nat
  /-- The positions at which the character directions have been read, oldest first. -/
  directionReads : List Nat
  /-- The character indices of the `mLogicalModel->RetrieveStyle` calls made. -/
  styleRetrievals : List Nat
  mTextUpdateInfo : TextUpdateInfo := {}
  /-- The arguments of the `mLogicalModel->UpdateTextStyleRuns` calls made, oldest first. -/
  styleRunUpdates : List (Nat × Int) := []
  /-- The strings given to `mClipboard.SetItem`, oldest first. -/
  clipboardItems : List String := []

/-- `mLogicalModel->mText.Count()`. -/
def Impl.numberOfCharacters (s : Impl) : Nat := s.mLogicalModel.mText.length

/-! ## The editing state machine -/

/-- A call on `mEventData->mDecorator`. -/
def decorate (c : DecoratorCommand) (e : EventData) : EventData :=
  { e with mDecorator := e.mDecorator.receive c }

/-- `Controller::Impl::HideClipboard`. -/
def HideClipboard (s : Impl) : Impl :=
  if s.mClipboard && s.mClipboardHideEnabled then
    { s with clipboardHidden := s.clipboardHidden + 1 }
  else s

/-- The value of `buttonsToShow` at the end of `Controller::Impl::SetPopupButtons`.
`IsShowingPlaceholderText()` reads `mIsShowingPlaceholderText`. -/
def buttonsToShow (s : Impl) (e : EventData) : List Button :=
  match e.mState with
  | .SELECTING =>
    let b1 := [Button.CUT, Button.COPY]
    let b2 := if !s.clipboardEmpty then b1 ++ [Button.PASTE, Button.CLIPBOARD] else b1
    if !e.mAllTextSelected then b2 ++ [Button.SELECT_ALL] else b2
  | .EDITING_WITH_POPUP =>
    let b1 := if decide (s.numberOfCharacters ≠ 0) && !e.mIsShowingPlaceholderText
              then [Button.SELECT, Button.SELECT_ALL] else [Button.NONE]
    if !s.clipboardEmpty then b1 ++ [Button.PASTE, Button.CLIPBOARD] else b1
  | .EDITING_WITH_PASTE_POPUP =>
    if !s.clipboardEmpty then [Button.NONE, Button.PASTE, Button.CLIPBOARD] else [Button.NONE]
  | _ => [Button.NONE]

/-- `Controller::Impl::SetPopupButtons`. -/
def SetPopupButtons (s : Impl) (e : EventData) : EventData :=
  decorate (.SetEnabledPopupButtons (buttonsToShow s e)) e

/-- The statement repeated in seven branches of `ChangeState`:
`if( mCursorBlinkEnabled ) mDecorator->StartCursorBlink();`. -/
def startBlinkIfEnabled (e : EventData) : EventData :=
  if e.mCursorBlinkEnabled then decorate .StartCursorBlink e else e

/-- The statement `if( mGrabHandlePopupEnabled ) mDecorator->SetPopupActive( false );`. -/
def hidePopupIfEnabled (e : EventData) : EventData :=
  if e.mGrabHandlePopupEnabled then decorate (.SetPopupActive false) e else e

/-- The statement `if( mGrabHandlePopupEnabled ) { SetPopupButtons(); SetPopupActive( true ); }`. -/
def showPopupIfEnabled (s : Impl) (e : EventData) : EventData :=
  if e.mGrabHandlePopupEnabled then decorate (.SetPopupActive true) (SetPopupButtons s e) else e

/-- The three `SetHandleActive` calls found in most branches of `ChangeState`, in the
order grab handle, left selection handle, right selection handle. -/
def setHandles (grab left right : Bool) (e : EventData) : EventData :=
  decorate (.SetHandleActive .RIGHT_SELECTION_HANDLE right)
    (decorate (.SetHandleActive .LEFT_SELECTION_HANDLE left)
      (decorate (.SetHandleActive .GRAB_HANDLE grab) e))

/-- The branch of `ChangeState` for the state just stored in `mState`: the calls on the
decorator and the flag `mDecoratorUpdated`, and whether `HideClipboard()` is called. -/
def enterState (s : Impl) (e : EventData) : EventData × Bool :=
  match e.mState with
  | .INACTIVE =>
    let e1 := decorate .StopCursorBlink (decorate (.SetActiveCursor .ACTIVE_CURSOR_NONE) e)
    let e2 := decorate (.SetPopupActive false) (setHandles false false false e1)
    ({ e2 with mDecoratorUpdated := true }, true)
  | .INTERRUPTED =>
    let e1 := decorate (.SetPopupActive false) (setHandles false false false e)
    ({ e1 with mDecoratorUpdated := true }, true)
  | .SELECTING =>
    let e1 := decorate .StopCursorBlink (decorate (.SetActiveCursor .ACTIVE_CURSOR_NONE) e)
    let e2 := showPopupIfEnabled s (setHandles false true true e1)
    ({ e2 with mDecoratorUpdated := true }, false)
  | .EDITING =>
    let e1 := startBlinkIfEnabled (decorate (.SetActiveCursor .ACTIVE_CURSOR_PRIMARY) e)
    let e2 := hidePopupIfEnabled (setHandles false false false e1)
    ({ e2 with mDecoratorUpdated := true }, true)
  | .EDITING_WITH_POPUP =>
    let e1 := startBlinkIfEnabled (decorate (.SetActiveCursor .ACTIVE_CURSOR_PRIMARY) e)
    let e2 :=
      if e1.mSelectionEnabled then
        decorate (.SetHandleActive .RIGHT_SELECTION_HANDLE false)
          (decorate (.SetHandleActive .LEFT_SELECTION_HANDLE false) e1)
      else decorate (.SetHandleActive .GRAB_HANDLE true) e1
    let e3 := showPopupIfEnabled s e2
    ({ e3 with mDecoratorUpdated := true }, true)
  | .EDITING_WITH_GRAB_HANDLE =>
    let e1 := startBlinkIfEnabled (decorate (.SetActiveCursor .ACTIVE_CURSOR_PRIMARY) e)
    let e2 := hidePopupIfEnabled (setHandles true false false e1)
    ({ e2 with mDecoratorUpdated := true }, true)
  | .SELECTION_HANDLE_PANNING =>
    let e1 := decorate .StopCursorBlink (decorate (.SetActiveCursor .ACTIVE_CURSOR_NONE) e)
    let e2 := hidePopupIfEnabled (setHandles false true true e1)
    ({ e2 with mDecoratorUpdated := true }, false)
  | .GRAB_HANDLE_PANNING =>
    let e1 := startBlinkIfEnabled (decorate (.SetActiveCursor .ACTIVE_CURSOR_PRIMARY) e)
    let e2 := hidePopupIfEnabled (setHandles true false false e1)
    ({ e2 with mDecoratorUpdated := true }, false)
  | .EDITING_WITH_PASTE_POPUP =>
    let e1 := startBlinkIfEnabled (decorate (.SetActiveCursor .ACTIVE_CURSOR_PRIMARY) e)
    let e2 := showPopupIfEnabled s (setHandles true false false e1)
    ({ e2 with mDecoratorUpdated := true }, true)

/-- `Controller::Impl::ChangeState( newState )`. -/
def ChangeState (newState : State) (s : Impl) : Impl :=
  match s.mEventData with
  | none => s
  | some e =>
    if e.mState ≠ newState then
      let entered := enterState s { e with mState := newState }
      let s1 := { s with mEventData := some entered.1 }
      if entered.2 then HideClipboard s1 else s1
    else s

/-! ## Scrolling -/

/-- A write through the pointer `mEventData`.  The program fails (`none`) when the
pointer is null. -/
def updateEventData (f : EventData → EventData) (s : Impl) : Option Impl :=
  match s.mEventData with
  | none => none
  | some e => some { s with mEventData := some (f e) }

/-- `Controller::Impl::ClampHorizontalScroll( actualSize )`. -/
def ClampHorizontalScroll (actualSize : Size) (s : Impl) : Option Impl :=
  if actualSize.width > s.mVisualModel.mControlSize.width then
    let space := actualSize.width - s.mVisualModel.mControlSize.width
    let x1 := if s.mScrollPosition.x < -space then -space else s.mScrollPosition.x
    let x2 := if x1 > 0 then 0 else x1
    updateEventData (fun e => { e with mDecoratorUpdated := true })
      { s with mScrollPosition := ⟨x2, s.mScrollPosition.y⟩ }
  else
    some { s with mScrollPosition := ⟨0, s.mScrollPosition.y⟩ }

/-- `Controller::Impl::ClampVerticalScroll( actualSize )`. -/
def ClampVerticalScroll (actualSize : Size) (s : Impl) : Option Impl :=
  if actualSize.height > s.mVisualModel.mControlSize.height then
    let space := actualSize.height - s.mVisualModel.mControlSize.height
    let y1 := if s.mScrollPosition.y < -space then -space else s.mScrollPosition.y
    let y2 := if y1 > 0 then 0 else y1
    updateEventData (fun e => { e with mDecoratorUpdated := true })
      { s with mScrollPosition := ⟨s.mScrollPosition.x, y2⟩ }
  else
    some { s with mScrollPosition := ⟨s.mScrollPosition.x, 0⟩ }

/-- `Controller::Impl::ScrollToMakePositionVisible( position, lineHeight )`.  The cursor
width is read through `mEventData`. -/
def ScrollToMakePositionVisible (position : Vector2) (lineHeight : float) (s : Impl) :
    Option Impl :=
  match s.mEventData with
  | none => none
  | some e =>
    let cursorWidth : float := e.mDecorator.cursorWidth
    let positionEndX := position.x + cursorWidth
    let positionEndY := position.y + lineHeight
    let decoratorPositionBeginX := position.x + s.mScrollPosition.x
    let decoratorPositionEndX := positionEndX + s.mScrollPosition.x
    let decoratorPositionBeginY := position.y + s.mScrollPosition.y
    let decoratorPositionEndY := positionEndY + s.mScrollPosition.y
    let x :=
      if decoratorPositionBeginX < 0 then -position.x
      else if decoratorPositionEndX > s.mVisualModel.mControlSize.width then
        s.mVisualModel.mControlSize.width - positionEndX
      else s.mScrollPosition.x
    let y :=
      if decoratorPositionBeginY < 0 then -position.y
      else if decoratorPositionEndY > s.mVisualModel.mControlSize.height then
        s.mVisualModel.mControlSize.height - positionEndY
      else s.mScrollPosition.y
    some { s with mScrollPosition := ⟨x, y⟩ }

/-! ## Moving the cursor -/

/-- The loop `while( 0u == numberOfCharacters ) { ++glyphIndex; numberOfCharacters =
*( charactersPerGlyphBuffer + glyphIndex ); }` over the glyphs that follow: the first
number of characters that is not zero.  The loop has no defined result (`none`) when it
runs past the end of the table. -/
def firstNonZero : List Nat → Option Nat
  | [] => none
  | n :: rest => if n = 0 then firstNonZero rest else some n

/-- The value of `numberOfCharacters` after lines 2388-2407 of `CalculateNewCursorIndex`. -/
def cursorStep (index : Nat) (s : Impl) : Option Nat :=
  let glyphIndex := s.mVisualModel.mCharactersToGlyph.read index
  let numberOfCharacters := s.mVisualModel.mCharactersPerGlyph.read glyphIndex
  if numberOfCharacters > 1 then
    if s.services.HasLigatureMustBreak (s.mLogicalModel.GetScript index) then some 1
    else some numberOfCharacters
  else if numberOfCharacters = 0 then
    firstNonZero (s.mVisualModel.mCharactersPerGlyph.items.drop (glyphIndex + 1))
  else some numberOfCharacters

/-- `Controller::Impl::CalculateNewCursorIndex( index )`: the index returned and the state
afterwards (the function sets `mUpdateCursorHookPosition`). -/
def CalculateNewCursorIndex (index : Nat) (s : Impl) : Option (Nat × Impl) :=
  match s.mEventData with
  | none => some (0, s)
  | some e =>
    match cursorStep index s with
    | none => none
    | some numberOfCharacters =>
      let cursorIndex :=
        if index < e.mPrimaryCursorPosition then usub e.mPrimaryCursorPosition numberOfCharacters
        else uadd e.mPrimaryCursorPosition numberOfCharacters
      some (cursorIndex, { s with mEventData := some { e with mUpdateCursorHookPosition := true } })

/-- The assignment `mEventData->mPrimaryCursorPosition = index`. -/
def setPrimaryCursorPosition (index : Nat) (s : Impl) : Impl :=
  { s with mEventData := s.mEventData.map (fun e => { e with mPrimaryCursorPosition := index }) }

/-! ## Cursor geometry -/

/-- Modelled from the spec: `IsShowingPlaceholderText()`, true when there is event data and
the place-holder text is the one shown. -/
def IsShowingPlaceholderText (s : Impl) : Bool :=
  match s.mEventData with
  | none => false
  | some e => e.mIsShowingPlaceholderText

/-- Modelled from the spec: `IsShowingRealText()`, true when the place-holder text is not
shown and the text is not empty. -/
def IsShowingRealText (s : Impl) : Bool :=
  !IsShowingPlaceholderText s && decide (s.numberOfCharacters ≠ 0)

/-- Modelled from the spec: `EventData::IsEditingState( stateToCheck )`, true for the four
editing states. -/
def IsEditingState (stateToCheck : State) : Bool :=
  match stateToCheck with
  | .EDITING => true
  | .EDITING_WITH_POPUP => true
  | .EDITING_WITH_GRAB_HANDLE => true
  | .EDITING_WITH_PASTE_POPUP => true
  | _ => false

/-- The cursor info computed by `Controller::Impl::GetCursorPosition( logical, cursorInfo )`
for a freshly built `cursorInfo`, without the record of the call.  The decorator is read
through `mEventData`. -/
def cursorInfoAt (logical : Nat) (s : Impl) : Option CursorInfo :=
  if !IsShowingRealText s then
    let c0 := s.services.freshCursorInfo
    let c1 := { c0 with lineOffset := 0, lineHeight := s.services.defaultFontLineHeight,
                        primaryCursorHeight := s.services.defaultFontLineHeight }
    match s.horizontalAlignment with
    | .HORIZONTAL_ALIGN_BEGIN => some { c1 with primaryPosition := ⟨0, c1.primaryPosition.y⟩ }
    | .HORIZONTAL_ALIGN_CENTER =>
      let x : float := ((1 / 2 : float) * s.mVisualModel.mControlSize.width).floor
      some { c1 with primaryPosition := ⟨x, c1.primaryPosition.y⟩ }
    | .HORIZONTAL_ALIGN_END =>
      match s.mEventData with
      | none => none
      | some e =>
        let x : float := s.mVisualModel.mControlSize.width - e.mDecorator.cursorWidth
        some { c1 with primaryPosition := ⟨x, c1.primaryPosition.y⟩ }
  else
    let c := s.services.GetCursorPosition logical
    if s.multiLineLayout then
      match s.mEventData with
      | none => none
      | some e =>
        let x1 : float := if 0 > c.primaryPosition.x then 0 else c.primaryPosition.x
        let edgeWidth : float := s.mVisualModel.mControlSize.width - e.mDecorator.cursorWidth
        let x2 : float := if x1 > edgeWidth then edgeWidth else x1
        some { c with primaryPosition := ⟨x2, c.primaryPosition.y⟩ }
    else some c

/-- `Controller::Impl::GetCursorPosition( logical, cursorInfo )`: the cursor info, and the
state in which the call is recorded. -/
def GetCursorPosition (logical : Nat) (s : Impl) : Option (CursorInfo × Impl) :=
  match cursorInfoAt logical s with
  | none => none
  | some c => some (c, { s with cursorPositionCalls := s.cursorPositionCalls ++ [logical] })

/-- The calls on the decorator made by `UpdateCursorPosition( cursorInfo )`. -/
def positionCursor (cursorInfo : CursorInfo) (scroll : Vector2) (e : EventData) : EventData :=
  let cursorPosition := cursorInfo.primaryPosition.add scroll
  let e1 := decorate (.SetPositionCursor .PRIMARY_CURSOR cursorPosition.x cursorPosition.y
    cursorInfo.primaryCursorHeight cursorInfo.lineHeight) e
  let e2 :=
    if e1.mUpdateGrabHandlePosition then
      decorate (.SetPositionHandle .GRAB_HANDLE cursorPosition.x
        (cursorInfo.lineOffset + scroll.y) cursorInfo.lineHeight) e1
    else e1
  let e3 :=
    if cursorInfo.isSecondaryCursor then
      decorate (.SetPositionCursor .SECONDARY_CURSOR (cursorInfo.secondaryPosition.x + scroll.x)
        (cursorInfo.secondaryPosition.y + scroll.y) cursorInfo.secondaryCursorHeight
        cursorInfo.lineHeight) e2
    else e2
  if IsEditingState e3.mState || decide (e3.mState = .GRAB_HANDLE_PANNING) then
    if cursorInfo.isSecondaryCursor then decorate (.SetActiveCursor .ACTIVE_CURSOR_BOTH) e3
    else decorate (.SetActiveCursor .ACTIVE_CURSOR_PRIMARY) e3
  else decorate (.SetActiveCursor .ACTIVE_CURSOR_NONE) e3

/-- `Controller::Impl::UpdateCursorPosition( cursorInfo )`. -/
def UpdateCursorPosition (cursorInfo : CursorInfo) (s : Impl) : Impl :=
  match s.mEventData with
  | none => s
  | some e => { s with mEventData := some (positionCursor cursorInfo s.mScrollPosition e) }

/-- `Controller::Impl::UpdateSelectionHandle( handleType, cursorInfo )`.  There is no test
of `mEventData`. -/
def UpdateSelectionHandle (handleType : HandleType) (cursorInfo : CursorInfo) (s : Impl) :
    Option Impl :=
  if handleType ≠ .LEFT_SELECTION_HANDLE ∧ handleType ≠ .RIGHT_SELECTION_HANDLE then some s
  else
    match s.mEventData with
    | none => none
    | some e =>
      let cursorPosition := cursorInfo.primaryPosition.add s.mScrollPosition
      let e1 := decorate (.SetPositionHandle handleType cursorPosition.x
        (cursorInfo.lineOffset + s.mScrollPosition.y) cursorInfo.lineHeight) e
      let startOfSelection := min e1.mLeftSelectionPosition e1.mRightSelectionPosition
      let endOfSelection := max e1.mLeftSelectionPosition e1.mRightSelectionPosition
      some { s with mEventData := some { e1 with
        mAllTextSelected := decide (startOfSelection = 0) &&
          decide (endOfSelection = s.numberOfCharacters) } }

/-- `Controller::Impl::ScrollTextToMatchCursor( cursorInfo )`. -/
def ScrollTextToMatchCursor (cursorInfo : CursorInfo) (s : Impl) : Option Impl :=
  match s.mEventData with
  | none => none
  | some e =>
    let currentCursorPosition := e.mDecorator.primaryCursorPosition
    let s1 := { s with mScrollPosition :=
      ⟨currentCursorPosition.x - cursorInfo.primaryPosition.x,
       currentCursorPosition.y - cursorInfo.lineOffset⟩ }
    (ClampHorizontalScroll s1.mVisualModel.layoutSize s1).bind fun s2 =>
    (ClampVerticalScroll s2.mVisualModel.layoutSize s2).bind fun s3 =>
    ScrollToMakePositionVisible cursorInfo.primaryPosition cursorInfo.lineHeight s3

/-! ## Notifying the input method manager -/

/-- `Controller::Impl::GetLogicalCursorPosition`. -/
def GetLogicalCursorPosition (s : Impl) : Nat :=
  match s.mEventData with
  | none => 0
  | some e =>
    if e.mState = .SELECTING ∨ e.mState = .SELECTION_HANDLE_PANNING then
      min e.mRightSelectionPosition e.mLeftSelectionPosition
    else e.mPrimaryCursorPosition

/-- The loop of `GetNumberOfWhiteSpaces` over the characters left: it counts them until
one is not a white space. -/
def countWhiteSpaces (IsWhiteSpace : Nat → Bool) : List Nat → Nat
  | [] => 0
  | character :: rest =>
    if !IsWhiteSpace character then 0 else countWhiteSpaces IsWhiteSpace rest + 1

/-- `Controller::Impl::GetNumberOfWhiteSpaces( index )`. -/
def GetNumberOfWhiteSpaces (index : Nat) (s : Impl) : Nat :=
  countWhiteSpaces s.services.IsWhiteSpace (s.mLogicalModel.mText.drop index)

/-- `Controller::Impl::NotifyImfManager`: the argument of `SetCursorPosition` is recorded. -/
def NotifyImfManager (s : Impl) : Impl :=
  match s.mEventData with
  | none => s
  | some e =>
    if e.mImfManager then
      let cursorPosition := GetLogicalCursorPosition s
      let numberOfWhiteSpaces := GetNumberOfWhiteSpaces 0 s
      let cursorPosition1 :=
        if cursorPosition < numberOfWhiteSpaces then 0
        else usub cursorPosition numberOfWhiteSpaces
      { s with imfCursorPositions := s.imfCursorPositions ++ [cursorPosition1] }
    else s

/-! ## The highlight of the selection -/

/-- The constant `MAX_FLOAT`, `std::numeric_limits<float>::max()`. -/
def MAX_FLOAT : float := 340282346638528859811704183484516925440

/-- The constant `MIN_FLOAT`, `std::numeric_limits<float>::min()`: the smallest positive
normal value, `2^-126`. -/
def MIN_FLOAT : float := 1 / 85070591730234615865843651857942052864

/-- True when `modelCharacterDirectionsBuffer` is not `NULL`. -/
def hasCharacterDirections (s : Impl) : Bool :=
  decide (s.mLogicalModel.mCharacterDirections.Count ≠ 0)

/-- The value of `indicesSwapped`. -/
def indicesSwapped (e : EventData) : Bool :=
  decide (e.mLeftSelectionPosition > e.mRightSelectionPosition)

/-- The value of `selectionStart` from the swap of the indices on. -/
def selectionStart (e : EventData) : Nat :=
  if indicesSwapped e then e.mRightSelectionPosition else e.mLeftSelectionPosition

/-- The value of `selectionEnd` from the swap of the indices on. -/
def selectionEnd (e : EventData) : Nat :=
  if indicesSwapped e then e.mLeftSelectionPosition else e.mRightSelectionPosition

/-- The position at which `endDirection` is read: `selectionEnd - ( isLastCharacter ? 1u : 0u )`
with the value `selectionEnd` has before the swap of the indices. -/
def endDirectionIndex (s : Impl) (e : EventData) : Nat :=
  usub e.mRightSelectionPosition
    (if e.mRightSelectionPosition ≥ s.numberOfCharacters then 1 else 0)

/-- The value of `startDirection`: the direction read at `selectionStart` before the swap
of the indices. -/
def startDirection (s : Impl) (e : EventData) : Bool :=
  if hasCharacterDirections s then s.mLogicalModel.mCharacterDirections.read e.mLeftSelectionPosition
  else false

/-- The value of `endDirection`. -/
def endDirection (s : Impl) (e : EventData) : Bool :=
  if hasCharacterDirections s then
    s.mLogicalModel.mCharacterDirections.read (endDirectionIndex s e)
  else false

/-- The value of `selectionEndMinusOne`. -/
def selectionEndMinusOne (e : EventData) : Nat := usub (selectionEnd e) 1

/-- The value of `glyphStart`. -/
def glyphStart (s : Impl) (e : EventData) : Nat :=
  s.mVisualModel.mCharactersToGlyph.read (selectionStart e)

/-- The value of `glyphEnd`. -/
def glyphEnd (s : Impl) (e : EventData) : Nat :=
  let numberOfGlyphs := s.mVisualModel.mGlyphsPerCharacter.read (selectionEndMinusOne e)
  uadd (s.mVisualModel.mCharactersToGlyph.read (selectionEndMinusOne e))
    (if numberOfGlyphs > 0 then usub numberOfGlyphs 1 else 0)

/-- The values of `lineIndex` (kept as `firstLineIndex`) and `numberOfLines` set by
`mVisualModel->GetNumberOfLines( glyphStart, 1u + glyphEnd - glyphStart, ... )`. -/
def selectedLines (s : Impl) (e : EventData) : Nat × Nat :=
  s.mVisualModel.GetNumberOfLines (glyphStart s e)
    (usub (uadd 1 (glyphEnd s e)) (glyphStart s e))

/-- The value of `numberOfCharactersStart`. -/
def numberOfCharactersStart (s : Impl) (e : EventData) : Nat :=
  s.mVisualModel.mCharactersPerGlyph.read (glyphStart s e)

/-- The value of `numberOfCharactersEnd`. -/
def numberOfCharactersEnd (s : Impl) (e : EventData) : Nat :=
  s.mVisualModel.mCharactersPerGlyph.read (glyphEnd s e)

/-- The variables of the traversal of the selected glyphs.  The vector
`selectionBoxLinesInfo` is kept as the boxes before the pointer `selectionBoxInfo`
(`done`) and the box it points to (`selectionBoxInfo`); the boxes behind it have not been
written.  `lineRun` is the position of the pointer `lineRun` in `mLines`.  The line
counters are natural numbers, taken not to reach the range of `unsigned int`. -/
structure Traversal where
  lineRun : Nat
  lastGlyphOfLine : Nat
  lineIndex : Nat
  done : List SelectionBoxInfo
  selectionBoxInfo : SelectionBoxInfo
  splitStartGlyph : Bool
  splitEndGlyph : Bool
  /-- The arguments of the `AddHighlight` calls made, oldest first. -/
  quads : List Quad
  /-- The positions at which the character directions have been read, oldest first. -/
  directionReads : List Nat

/-- The variables when the traversal starts (lines 1713-1760). -/
def startTraversal (s : Impl) (e : EventData) : Traversal :=
  let firstLineIndex := (selectedLines s e).1
  let line := s.mVisualModel.mLines.read firstLineIndex
  { lineRun := firstLineIndex,
    lastGlyphOfLine := usub (uadd line.glyphRun.glyphIndex line.glyphRun.numberOfGlyphs) 1,
    lineIndex := firstLineIndex,
    done := [],
    selectionBoxInfo :=
      { lineOffset := s.services.CalculateLineOffset firstLineIndex + s.mScrollPosition.y,
        lineHeight := line.ascender - line.descender, minX := MAX_FLOAT, maxX := MIN_FLOAT },
    splitStartGlyph := decide (numberOfCharactersStart s e > 1) &&
      s.services.HasLigatureMustBreak (s.mLogicalModel.GetScript (selectionStart e)),
    splitEndGlyph := decide (glyphStart s e ≠ glyphEnd s e) &&
      decide (numberOfCharactersEnd s e > 1) &&
      s.services.HasLigatureMustBreak (s.mLogicalModel.GetScript (selectionEndMinusOne e)),
    quads := [],
    directionReads := [] }

/-- The three statements shared by the branches of the traversal: the box of the line is
widened to hold `[xPosition, xPositionAdvance]` and the quad is added to the highlight. -/
def addGlyphQuad (xPosition xPositionAdvance : float) (t : Traversal) : Traversal :=
  let yPosition := t.selectionBoxInfo.lineOffset
  { t with
    selectionBoxInfo := { t.selectionBoxInfo with
      minX := min t.selectionBoxInfo.minX xPosition,
      maxX := max t.selectionBoxInfo.maxX xPositionAdvance },
    quads := t.quads ++
      [⟨xPosition, yPosition, xPositionAdvance, yPosition + t.selectionBoxInfo.lineHeight⟩] }

/-- The statements under `if( index == lastGlyphOfLine )`: the next line is retrieved, and
its selection box is started when the line belongs to the selection. -/
def nextLine (s : Impl) (e : EventData) (t : Traversal) : Traversal :=
  let line := s.mVisualModel.mLines.read (t.lineRun + 1)
  let t1 := { t with
    lineRun := t.lineRun + 1,
    lastGlyphOfLine := usub (uadd line.glyphRun.glyphIndex line.glyphRun.numberOfGlyphs) 1,
    lineIndex := t.lineIndex + 1 }
  if t1.lineIndex < (selectedLines s e).1 + (selectedLines s e).2 then
    { t1 with
      done := t1.done ++ [t1.selectionBoxInfo],
      selectionBoxInfo :=
        { lineOffset := t1.selectionBoxInfo.lineOffset + t1.selectionBoxInfo.lineHeight,
          lineHeight := line.ascender - line.descender, minX := MAX_FLOAT, maxX := MIN_FLOAT } }
  else t1

/-- The body of the loop `for( GlyphIndex index = glyphStart; index <= glyphEnd; ++index )`. -/
def traverseGlyph (s : Impl) (e : EventData) (t : Traversal) (index : Nat) : Traversal :=
  let glyph := s.mVisualModel.mGlyphs.read index
  let position := s.mVisualModel.mGlyphPositions.read index
  let line := s.mVisualModel.mLines.read t.lineRun
  let origin : float := line.alignmentOffset + position.x - glyph.xBearing + s.mScrollPosition.x
  if t.splitStartGlyph then
    let glyphAdvance : float := glyph.advance / (numberOfCharactersStart s e : float)
    let interGlyphIndex :=
      usub (selectionStart e) (s.mVisualModel.mGlyphsToCharacters.read (glyphStart s e))
    let reads := if hasCharacterDirections s then [selectionStart e] else []
    let isCurrentRightToLeft :=
      if hasCharacterDirections s then s.mLogicalModel.mCharacterDirections.read (selectionStart e)
      else false
    let numberOfCharacters :=
      if glyphStart s e = glyphEnd s e then usub (selectionEnd e) (selectionStart e)
      else usub (numberOfCharactersStart s e) interGlyphIndex
    let offset : Nat :=
      if isCurrentRightToLeft then
        usub (usub (numberOfCharactersStart s e) interGlyphIndex) numberOfCharacters
      else interGlyphIndex
    let xPosition : float := origin + glyphAdvance * (offset : float)
    let xPositionAdvance : float := xPosition + (numberOfCharacters : float) * glyphAdvance
    { addGlyphQuad xPosition xPositionAdvance t with
      splitStartGlyph := false, directionReads := t.directionReads ++ reads }
  else if t.splitEndGlyph && decide (index = glyphEnd s e) then
    let glyphAdvance : float := glyph.advance / (numberOfCharactersEnd s e : float)
    let interGlyphIndex :=
      usub (selectionEnd e) (s.mVisualModel.mGlyphsToCharacters.read (glyphEnd s e))
    let reads := if hasCharacterDirections s then [selectionEnd e] else []
    let isCurrentRightToLeft :=
      if hasCharacterDirections s then s.mLogicalModel.mCharacterDirections.read (selectionEnd e)
      else false
    let numberOfCharacters := usub (numberOfCharactersEnd s e) interGlyphIndex
    let xPosition : float :=
      origin + (if isCurrentRightToLeft then glyphAdvance * (numberOfCharacters : float) else 0)
    let xPositionAdvance : float := xPosition + (interGlyphIndex : float) * glyphAdvance
    { addGlyphQuad xPosition xPositionAdvance t with
      splitEndGlyph := false, directionReads := t.directionReads ++ reads }
  else
    let t1 := addGlyphQuad origin (origin + glyph.advance) t
    if index = t1.lastGlyphOfLine then nextLine s e t1 else t1

/-- The variables when the traversal of the glyphs `glyphStart`, ..., `glyphEnd` is over. -/
def traverseGlyphs (s : Impl) (e : EventData) : Traversal :=
  (List.range' (glyphStart s e) (glyphEnd s e + 1 - glyphStart s e)).foldl (traverseGlyph s e)
    (startTraversal s e)

/-- The vector `selectionBoxLinesInfo` when the traversal is over: the boxes written, then
the boxes left as `Resize( numberOfLines )` made them. -/
def selectionBoxLinesInfo (s : Impl) (e : EventData) : List SelectionBoxInfo :=
  let t := traverseGlyphs s e
  t.done ++ [t.selectionBoxInfo] ++
    (List.range' (t.done.length + 1) ((selectedLines s e).2 - (t.done.length + 1))).map
      s.services.uninitializedBox

/-- The box `*( selectionBoxLinesInfo.Begin() )`. -/
def firstSelectionBoxLineInfo (s : Impl) (e : EventData) : SelectionBoxInfo :=
  (selectionBoxLinesInfo s e).headD (traverseGlyphs s e).selectionBoxInfo

/-- The box `*( selectionBoxLinesInfo.End() - 1u )`. -/
def lastSelectionBoxLineInfo (s : Impl) (e : EventData) : SelectionBoxInfo :=
  (selectionBoxLinesInfo s e).getLastD (traverseGlyphs s e).selectionBoxInfo

/-- The quad added by "boxify at the beginning of the line". -/
def boxifyBeginQuad (info : SelectionBoxInfo) : Quad :=
  ⟨0, info.lineOffset, info.minX, info.lineOffset + info.lineHeight⟩

/-- The quad added by "boxify at the end of the line". -/
def boxifyEndQuad (s : Impl) (info : SelectionBoxInfo) : Quad :=
  ⟨info.maxX, info.lineOffset, s.mVisualModel.mControlSize.width,
    info.lineOffset + info.lineHeight⟩

/-- The line run `*( mVisualModel->mLines.Begin() + firstLineIndex )`. -/
def firstSelectedLine (s : Impl) (e : EventData) : LineRun :=
  s.mVisualModel.mLines.read (selectedLines s e).1

/-- The line run `*( mVisualModel->mLines.Begin() + firstLineIndex + numberOfLines - 1u )`,
read where more than one line is selected (the offsets are added to the pointer one by
one, without wrapping). -/
def lastSelectedLine (s : Impl) (e : EventData) : LineRun :=
  s.mVisualModel.mLines.read ((selectedLines s e).1 + (selectedLines s e).2 - 1)

/-- The quads added to 'boxify' the first line. -/
def boxifyFirstLine (s : Impl) (e : EventData) : List Quad :=
  let boxifyBegin := (firstSelectedLine s e).direction != false && startDirection s e != false
  let boxifyEnd := (firstSelectedLine s e).direction == false && startDirection s e == false
  (if boxifyBegin then [boxifyBeginQuad (firstSelectionBoxLineInfo s e)] else []) ++
    (if boxifyEnd then [boxifyEndQuad s (firstSelectionBoxLineInfo s e)] else [])

/-- The quads added to 'boxify' the central lines. -/
def boxifyCentralLines (s : Impl) (e : EventData) : List Quad :=
  if 2 < (selectedLines s e).2 then
    (((selectionBoxLinesInfo s e).drop 1).dropLast).flatMap
      fun info => [boxifyBeginQuad info, boxifyEndQuad s info]
  else []

/-- The quads added to 'boxify' the last line. -/
def boxifyLastLine (s : Impl) (e : EventData) : List Quad :=
  let boxifyBegin := (lastSelectedLine s e).direction == false && endDirection s e == false
  let boxifyEnd := (lastSelectedLine s e).direction != false && endDirection s e != false
  (if boxifyBegin then [boxifyBeginQuad (lastSelectionBoxLineInfo s e)] else []) ++
    (if boxifyEnd then [boxifyEndQuad s (lastSelectionBoxLineInfo s e)] else [])

/-- The quads added by the block "Add extra geometry to 'boxify' the selection". -/
def boxifyQuads (s : Impl) (e : EventData) : List Quad :=
  if 1 < (selectedLines s e).2 then
    boxifyFirstLine s e ++ boxifyCentralLines s e ++ boxifyLastLine s e
  else []

/-- The value of `highLightSize.height`: the loop over the boxes adds, for each of them,
the height of the box `selectionBoxInfo` points to. -/
def highLightHeight (s : Impl) (e : EventData) : float :=
  (selectionBoxLinesInfo s e).foldl
    (fun height _ => height + (traverseGlyphs s e).selectionBoxInfo.lineHeight) 0

/-- The value of `minHighlightX` when the highlight box is set. -/
def minHighlightX (s : Impl) (e : EventData) : float :=
  let m := (selectionBoxLinesInfo s e).foldl (fun m info => min m info.minX) MAX_FLOAT
  if 1 < (selectedLines s e).2 then
    let boxifyFirst := (firstSelectedLine s e).direction != false && startDirection s e != false
    let boxifyLast := (lastSelectedLine s e).direction == false && endDirection s e == false
    if boxifyFirst || decide (2 < (selectedLines s e).2) || boxifyLast then 0 else m
  else m

/-- The value of `maxHighlightX` when the highlight box is set. -/
def maxHighlightX (s : Impl) (e : EventData) : float :=
  let m := (selectionBoxLinesInfo s e).foldl (fun m info => max m info.maxX) MIN_FLOAT
  if 1 < (selectedLines s e).2 then
    let boxifyFirst := (firstSelectedLine s e).direction == false && startDirection s e == false
    let boxifyLast := (lastSelectedLine s e).direction != false && endDirection s e != false
    if boxifyFirst || decide (2 < (selectedLines s e).2) || boxifyLast then
      s.mVisualModel.mControlSize.width
    else m
  else m

/-- The positions at which `RepositionSelectionHandles` reads the character directions:
for `startDirection`, for `endDirection`, then in the traversal. -/
def selectionDirectionReads (s : Impl) (e : EventData) : List Nat :=
  (if hasCharacterDirections s then [e.mLeftSelectionPosition, endDirectionIndex s e] else []) ++
    (traverseGlyphs s e).directionReads

/-- The calls on the decorator made by `RepositionSelectionHandles` up to
`SetHighLightBox`, in order. -/
def highlightCommands (s : Impl) (e : EventData) : List DecoratorCommand :=
  [.ClearHighlights,
    .SetSelectionHandleFlipState (indicesSwapped e) (startDirection s e) (endDirection s e)] ++
  ((traverseGlyphs s e).quads ++ boxifyQuads s e).map
    (fun q => DecoratorCommand.AddHighlight q.x1 q.y1 q.x2 q.y2) ++
  [.SetHighLightBox ⟨minHighlightX s e, (firstSelectionBoxLineInfo s e).lineOffset⟩
    ⟨maxHighlightX s e - minHighlightX s e, highLightHeight s e⟩]

/-- The block `GetCursorPosition( position, info ); mDecorator->SetPosition( handleType,
... )` at the end of `RepositionSelectionHandles`. -/
def placeSelectionHandle (handleType : HandleType) (position : Nat) (s : Impl) : Option Impl :=
  (GetCursorPosition position s).bind fun r =>
    updateEventData (decorate (.SetPositionHandle handleType
      (r.1.primaryPosition.x + r.2.mScrollPosition.x) (r.1.lineOffset + r.2.mScrollPosition.y)
      r.1.lineHeight)) r.2

/-- The last statements of `RepositionSelectionHandles` (lines 1997-2026): the handles are
placed unless the decorator pans them smoothly, the primary cursor goes to the end of the
selection and the decorator is flagged as updated. -/
def finishSelection (swapped : Bool) (s : Impl) : Option Impl :=
  match s.mEventData with
  | none => none
  | some e =>
    (if !e.mDecorator.smoothHandlePanEnabled then
      (placeSelectionHandle .LEFT_SELECTION_HANDLE e.mLeftSelectionPosition s).bind
        (placeSelectionHandle .RIGHT_SELECTION_HANDLE e.mRightSelectionPosition)
     else some s).bind
    (updateEventData fun e1 => { e1 with
      mPrimaryCursorPosition :=
        if swapped then e1.mLeftSelectionPosition else e1.mRightSelectionPosition,
      mDecoratorUpdated := true })

/-- The state when `RepositionSelectionHandles` has set the highlight box (lines
1681-1995): the decorator has received the calls of `highlightCommands`, and the reads of
the character directions are recorded. -/
def highlightSelection (s : Impl) (e : EventData) : Impl :=
  { s with
    mEventData := some { e with
      mDecorator := (highlightCommands s e).foldl (fun d c => d.receive c) e.mDecorator },
    directionReads := s.directionReads ++ selectionDirectionReads s e }

/-- `Controller::Impl::RepositionSelectionHandles()`.  There is no test of `mEventData`.
The function has no defined result when no line is selected (the first box is written
through the pointer `Begin()` of an empty vector) and when `glyphEnd` is the greatest
`unsigned int` (the traversal does not end). -/
def RepositionSelectionHandles (s : Impl) : Option Impl :=
  match s.mEventData with
  | none => none
  | some e =>
    if e.mLeftSelectionPosition = e.mRightSelectionPosition then some s
    else if (selectedLines s e).2 = 0 ∨ glyphEnd s e + 1 = UINT_RANGE then none
    else finishSelection (indicesSwapped e) (highlightSelection s e)

/-- `Controller::Impl::RepositionSelectionHandles( visualX, visualY )`. -/
def RepositionSelectionHandlesAt (visualX visualY : float) (s : Impl) : Option Impl :=
  match s.mEventData with
  | none => some s
  | some _ =>
    if IsShowingPlaceholderText s then some s
    else if s.mVisualModel.mGlyphs.Count = 0 ∨ s.mVisualModel.mLines.Count = 0 then some s
    else
      let found := s.services.FindSelectionIndices visualX visualY
      if found.1 then
        updateEventData (fun e => { e with
          mLeftSelectionPosition := found.2.1,
          mRightSelectionPosition := found.2.2,
          mUpdateLeftSelectionPosition := true,
          mUpdateRightSelectionPosition := true,
          mUpdateHighlightBox := true,
          mScrollAfterUpdatePosition := decide (found.2.1 ≠ found.2.2) })
          (ChangeState .SELECTING s)
      else
        updateEventData (fun e => { e with
          mPrimaryCursorPosition := found.2.2,
          mUpdateCursorPosition := true,
          mUpdateGrabHandlePosition := true,
          mScrollAfterUpdatePosition := true,
          mUpdateInputStyle := true })
          (ChangeState .EDITING s)

/-! ## The handlers of the input events -/

/-- The enumerator `HANDLE_PRESSED` of `enum HandleState`. -/
def HANDLE_PRESSED : Int := 1

/-- The enumerator `HANDLE_RELEASED` of `enum HandleState`. -/
def HANDLE_RELEASED : Int := 2

/-- The enumerator `HANDLE_SCROLLING` of `enum HandleState`. -/
def HANDLE_SCROLLING : Int := 3

/-- The enumerator `HANDLE_STOP_SCROLLING` of `enum HandleState`. -/
def HANDLE_STOP_SCROLLING : Int := 4

/-- The branch of `OnCursorKeyEvent` for the key 'up': the cursor goes to the line above,
if there is one. -/
def cursorUp (e : EventData) (s : Impl) : Option Impl :=
  let characterIndex := if e.mPrimaryCursorPosition > 0 then e.mPrimaryCursorPosition - 1 else 0
  let lineIndex := s.mVisualModel.GetLineOfCharacter characterIndex
  if lineIndex > 0 then
    (GetCursorPosition e.mPrimaryCursorPosition s).bind fun r =>
      let line := s.mVisualModel.mLines.read (lineIndex - 1)
      let hitPointY : float := r.1.lineOffset - (1 / 2 : float) * (line.ascender - line.descender)
      updateEventData (fun e1 =>
        let index := s.services.GetClosestCursorIndex e1.mCursorHookPositionX hitPointY
        { e1 with mPrimaryCursorPosition := index }) r.2
  else some s

/-- The branch of `OnCursorKeyEvent` for the key 'down': the cursor goes to the line below,
if there is one. -/
def cursorDown (e : EventData) (s : Impl) : Option Impl :=
  let characterIndex := if e.mPrimaryCursorPosition > 0 then e.mPrimaryCursorPosition - 1 else 0
  let lineIndex := s.mVisualModel.GetLineOfCharacter characterIndex
  if uadd lineIndex 1 < s.mVisualModel.mLines.Count then
    (GetCursorPosition e.mPrimaryCursorPosition s).bind fun r =>
      let line := s.mVisualModel.mLines.read (lineIndex + 1)
      let hitPointY : float :=
        r.1.lineOffset + r.1.lineHeight + (1 / 2 : float) * (line.ascender - line.descender)
      updateEventData (fun e1 =>
        let index := s.services.GetClosestCursorIndex e1.mCursorHookPositionX hitPointY
        { e1 with mPrimaryCursorPosition := index }) r.2
  else some s

/-- The statement `mEventData->mPrimaryCursorPosition = CalculateNewCursorIndex( index )`. -/
def moveCursorTo (index : Nat) (s : Impl) : Option Impl :=
  (CalculateNewCursorIndex index s).bind fun r => some (setPrimaryCursorPosition r.1 r.2)

/-- `Controller::Impl::OnCursorKeyEvent( event )`. -/
def OnCursorKeyEvent (event : Event) (s : Impl) : Option Impl :=
  match s.mEventData with
  | none => some s
  | some e =>
    let keyCode := event.p1
    let moved : Option Impl :=
      if s.services.DALI_KEY_CURSOR_LEFT = keyCode then
        if e.mPrimaryCursorPosition > 0 then moveCursorTo (e.mPrimaryCursorPosition - 1) s
        else some s
      else if s.services.DALI_KEY_CURSOR_RIGHT = keyCode then
        if s.numberOfCharacters > e.mPrimaryCursorPosition then
          moveCursorTo e.mPrimaryCursorPosition s
        else some s
      else if s.services.DALI_KEY_CURSOR_UP = keyCode then cursorUp e s
      else if s.services.DALI_KEY_CURSOR_DOWN = keyCode then cursorDown e s
      else some s
    moved.bind (updateEventData fun e1 => { e1 with
      mUpdateCursorPosition := true, mUpdateInputStyle := true,
      mScrollAfterUpdatePosition := true })

/-- `Controller::Impl::OnTapEvent( event )`. -/
def OnTapEvent (event : Event) (s : Impl) : Option Impl :=
  match s.mEventData with
  | none => some s
  | some e =>
    if event.p1 = 1 then
      let e1 :=
        if IsShowingRealText s then
          let xPosition := event.p2 - s.mScrollPosition.x
          let yPosition := event.p3 - s.mScrollPosition.y
          decorate .DelayCursorBlink { e with
            mCursorHookPositionX := xPosition,
            mPrimaryCursorPosition := s.services.GetClosestCursorIndex xPosition yPosition }
        else { e with mPrimaryCursorPosition := 0 }
      let e2 := { e1 with
        mUpdateCursorPosition := true, mUpdateGrabHandlePosition := true,
        mScrollAfterUpdatePosition := true, mUpdateInputStyle := true }
      let s1 := { s with mEventData := some e2 }
      if e2.mImfManager then
        some { s1 with imfCursorPositions := s1.imfCursorPositions ++ [e2.mPrimaryCursorPosition] }
      else some s1
    else some s

/-- `Controller::Impl::OnPanEvent( event )`. -/
def OnPanEvent (event : Event) (s : Impl) : Option Impl :=
  match s.mEventData with
  | none => some s
  | some e =>
    if s.services.GestureStarted = event.p1 ∨ s.services.GestureContinuing = event.p1 then
      let layoutSize := s.mVisualModel.layoutSize
      let currentScroll := s.mScrollPosition
      (if e.mDecorator.horizontalScrollEnabled then
        ClampHorizontalScroll layoutSize
          { s with mScrollPosition := ⟨s.mScrollPosition.x + event.p2, s.mScrollPosition.y⟩ }
       else some s).bind fun s1 =>
      (if e.mDecorator.verticalScrollEnabled then
        ClampVerticalScroll layoutSize
          { s1 with mScrollPosition := ⟨s1.mScrollPosition.x, s1.mScrollPosition.y + event.p3⟩ }
       else some s1).bind fun s2 =>
      updateEventData (decorate (.UpdatePositions
        ⟨s2.mScrollPosition.x - currentScroll.x, s2.mScrollPosition.y - currentScroll.y⟩)) s2
    else some s

/-- `Controller::Impl::OnLongPressEvent( event )`.  The state is read through `mEventData`
without a test of the pointer. -/
def OnLongPressEvent (_event : Event) (s : Impl) : Option Impl :=
  match s.mEventData with
  | none => none
  | some e =>
    if e.mState = .EDITING then
      updateEventData (fun e1 => { e1 with mDecoratorUpdated := true })
        (ChangeState .EDITING_WITH_POPUP s)
    else some s

/-- The branch `HANDLE_PRESSED == state` of `OnHandleEvent`. -/
def handlePressed (event : Event) (isSmoothHandlePanEnabled : Bool) (s : Impl) : Option Impl :=
  let xPosition := event.p2 - s.mScrollPosition.x
  let yPosition := event.p3 - s.mScrollPosition.y
  let handleNewPosition := s.services.GetClosestCursorIndex xPosition yPosition
  match event.type with
  | .GRAB_HANDLE_EVENT =>
    updateEventData (fun e =>
      let e1 :=
        if handleNewPosition ≠ e.mPrimaryCursorPosition then
          { e with mUpdateCursorPosition := true,
                   mUpdateGrabHandlePosition := !isSmoothHandlePanEnabled,
                   mPrimaryCursorPosition := handleNewPosition }
        else e
      { e1 with mDecoratorUpdated := isSmoothHandlePanEnabled })
      (ChangeState .GRAB_HANDLE_PANNING s)
  | .LEFT_SELECTION_HANDLE_EVENT =>
    updateEventData (fun e =>
      let e1 :=
        if handleNewPosition ≠ e.mLeftSelectionPosition ∧
            handleNewPosition ≠ e.mRightSelectionPosition then
          { e with mUpdateHighlightBox := true,
                   mUpdateLeftSelectionPosition := !isSmoothHandlePanEnabled,
                   mLeftSelectionPosition := handleNewPosition }
        else e
      { e1 with mDecoratorUpdated := isSmoothHandlePanEnabled })
      (ChangeState .SELECTION_HANDLE_PANNING s)
  | .RIGHT_SELECTION_HANDLE_EVENT =>
    updateEventData (fun e =>
      let e1 :=
        if handleNewPosition ≠ e.mRightSelectionPosition ∧
            handleNewPosition ≠ e.mLeftSelectionPosition then
          { e with mUpdateHighlightBox := true,
                   mUpdateRightSelectionPosition := !isSmoothHandlePanEnabled,
                   mRightSelectionPosition := handleNewPosition }
        else e
      { e1 with mDecoratorUpdated := isSmoothHandlePanEnabled })
      (ChangeState .SELECTION_HANDLE_PANNING s)
  | _ => some s

/-- The branch `( HANDLE_RELEASED == state ) || handleStopScrolling` of `OnHandleEvent`. -/
def handleReleased (event : Event) (handleStopScrolling isSmoothHandlePanEnabled : Bool)
    (s : Impl) : Option Impl :=
  let located := handleStopScrolling || isSmoothHandlePanEnabled
  let handlePosition :=
    if located then
      s.services.GetClosestCursorIndex (event.p2 - s.mScrollPosition.x)
        (event.p3 - s.mScrollPosition.y)
    else 0
  let handled : Option Impl :=
    match event.type with
    | .GRAB_HANDLE_EVENT =>
      (updateEventData (fun e => { e with
        mUpdateCursorPosition := true, mUpdateGrabHandlePosition := true,
        mUpdateInputStyle := true }) s).bind fun s1 =>
      updateEventData (fun e =>
        if located then
          { e with mScrollAfterUpdatePosition := true, mPrimaryCursorPosition := handlePosition }
        else e)
        (if !s1.clipboardEmpty then ChangeState .EDITING_WITH_PASTE_POPUP s1 else s1)
    | .LEFT_SELECTION_HANDLE_EVENT =>
      updateEventData (fun e =>
        let e1 := { e with mUpdateHighlightBox := true, mUpdateLeftSelectionPosition := true }
        if located then
          let e2 := { e1 with mScrollAfterUpdatePosition := true }
          if handlePosition ≠ e2.mRightSelectionPosition ∧
              handlePosition ≠ e2.mLeftSelectionPosition then
            { e2 with mLeftSelectionPosition := handlePosition }
          else e2
        else e1)
        (ChangeState .SELECTING s)
    | .RIGHT_SELECTION_HANDLE_EVENT =>
      updateEventData (fun e =>
        let e1 := { e with mUpdateHighlightBox := true, mUpdateRightSelectionPosition := true }
        if located then
          let e2 := { e1 with mScrollAfterUpdatePosition := true }
          if handlePosition ≠ e2.mRightSelectionPosition ∧
              handlePosition ≠ e2.mLeftSelectionPosition then
            { e2 with mRightSelectionPosition := handlePosition }
          else e2
        else e1)
        (ChangeState .SELECTING s)
    | _ => some s
  handled.bind (updateEventData fun e => { e with mDecoratorUpdated := true })

/-- The position looked up while a handle scrolls the text: the handle is put close to an
edge of the control, depending on the direction of the scroll. -/
def scrollingHandlePosition (position : Vector2) (xSpeed ySpeed : float) (e : EventData)
    (s : Impl) : Vector2 :=
  let position1 : Vector2 :=
    if e.mDecorator.horizontalScrollEnabled then
      ⟨if xSpeed > 0 then 0 else s.mVisualModel.mControlSize.width, position.y⟩
    else position
  if e.mDecorator.verticalScrollEnabled then
    ⟨e.mCursorHookPositionX, if ySpeed > 0 then 0 else s.mVisualModel.mControlSize.height⟩
  else position1

/-- The branch of the scrolling for the grab handle. -/
def scrollGrabHandle (event : Event) (isSmoothHandlePanEnabled : Bool) (s : Impl) :
    Option Impl :=
  let s1 := ChangeState .GRAB_HANDLE_PANNING s
  match s1.mEventData with
  | none => none
  | some e =>
    let position := scrollingHandlePosition e.mDecorator.grabHandlePosition event.p2 event.p3 e s1
    let handlePosition := s1.services.GetClosestCursorIndex
      (position.x - s1.mScrollPosition.x) (position.y - s1.mScrollPosition.y)
    let e1 :=
      if e.mPrimaryCursorPosition ≠ handlePosition then
        { e with mUpdateCursorPosition := true,
                 mUpdateGrabHandlePosition := !isSmoothHandlePanEnabled,
                 mScrollAfterUpdatePosition := true,
                 mPrimaryCursorPosition := handlePosition }
      else e
    some { s1 with mEventData := some { e1 with
      mUpdateInputStyle := e1.mUpdateCursorPosition,
      mDecoratorUpdated := isSmoothHandlePanEnabled } }

/-- The branch of the scrolling for a selection handle. -/
def scrollSelectionHandle (event : Event) (isSmoothHandlePanEnabled endOfScroll : Bool)
    (s : Impl) : Option Impl :=
  let leftSelectionHandleEvent := decide (event.type = .LEFT_SELECTION_HANDLE_EVENT)
  let s1 := ChangeState .SELECTION_HANDLE_PANNING s
  match s1.mEventData with
  | none => none
  | some e =>
    let position := scrollingHandlePosition
      (if leftSelectionHandleEvent then e.mDecorator.leftSelectionHandlePosition
       else e.mDecorator.rightSelectionHandlePosition) event.p2 event.p3 e s1
    let handlePosition := s1.services.GetClosestCursorIndex
      (position.x - s1.mScrollPosition.x) (position.y - s1.mScrollPosition.y)
    let differentHandles := decide (e.mLeftSelectionPosition ≠ handlePosition) &&
      decide (e.mRightSelectionPosition ≠ handlePosition)
    let e1 :=
      if leftSelectionHandleEvent then
        if differentHandles || endOfScroll then
          { e with mUpdateHighlightBox := true,
                   mUpdateLeftSelectionPosition := !isSmoothHandlePanEnabled,
                   mUpdateRightSelectionPosition := isSmoothHandlePanEnabled,
                   mLeftSelectionPosition := handlePosition }
        else e
      else
        if differentHandles || endOfScroll then
          { e with mUpdateHighlightBox := true,
                   mUpdateRightSelectionPosition := !isSmoothHandlePanEnabled,
                   mUpdateLeftSelectionPosition := isSmoothHandlePanEnabled,
                   mRightSelectionPosition := handlePosition }
        else e
    let s2 := { s1 with mEventData := some e1 }
    if e1.mUpdateLeftSelectionPosition || e1.mUpdateRightSelectionPosition then
      (RepositionSelectionHandles s2).bind
        (updateEventData fun e2 => { e2 with
          mScrollAfterUpdatePosition := !isSmoothHandlePanEnabled })
    else some s2

/-- The branch `HANDLE_SCROLLING == state` of `OnHandleEvent`.  The two scroll positions
are compared exactly. -/
def handleScrolling (event : Event) (isSmoothHandlePanEnabled : Bool) (s : Impl) : Option Impl :=
  let layoutSize := s.mVisualModel.layoutSize
  let currentScrollPosition := s.mScrollPosition
  (ClampHorizontalScroll layoutSize { s with mScrollPosition :=
    ⟨s.mScrollPosition.x + event.p2, s.mScrollPosition.y + event.p3⟩ }).bind fun s1 =>
  (ClampVerticalScroll layoutSize s1).bind fun s2 =>
  let endOfScroll := decide (currentScrollPosition.x - s2.mScrollPosition.x = 0) &&
    decide (currentScrollPosition.y - s2.mScrollPosition.y = 0)
  (if endOfScroll then updateEventData (decorate .NotifyEndOfScroll) s2 else some s2).bind
    fun s3 =>
  let handled : Option Impl :=
    match event.type with
    | .GRAB_HANDLE_EVENT => scrollGrabHandle event isSmoothHandlePanEnabled s3
    | .LEFT_SELECTION_HANDLE_EVENT =>
      scrollSelectionHandle event isSmoothHandlePanEnabled endOfScroll s3
    | .RIGHT_SELECTION_HANDLE_EVENT =>
      scrollSelectionHandle event isSmoothHandlePanEnabled endOfScroll s3
    | _ => some s3
  handled.bind (updateEventData fun e => { e with mDecoratorUpdated := true })

/-- `Controller::Impl::OnHandleEvent( event )`. -/
def OnHandleEvent (event : Event) (s : Impl) : Option Impl :=
  match s.mEventData with
  | none => some s
  | some e =>
    let state := event.p1
    let handleStopScrolling := decide (HANDLE_STOP_SCROLLING = state)
    let isSmoothHandlePanEnabled := e.mDecorator.smoothHandlePanEnabled
    if HANDLE_PRESSED = state then handlePressed event isSmoothHandlePanEnabled s
    else if HANDLE_RELEASED = state ∨ handleStopScrolling = true then
      handleReleased event handleStopScrolling isSmoothHandlePanEnabled s
    else if HANDLE_SCROLLING = state then handleScrolling event isSmoothHandlePanEnabled s
    else some s

/-- `Controller::Impl::OnSelectEvent( event )`. -/
def OnSelectEvent (event : Event) (s : Impl) : Option Impl :=
  match s.mEventData with
  | none => some s
  | some e =>
    if e.mSelectionEnabled then
      RepositionSelectionHandlesAt (event.p2 - s.mScrollPosition.x)
        (event.p3 - s.mScrollPosition.y) s
    else some s

/-- `Controller::Impl::OnSelectAllEvent()`.  The log statement that precedes the test of
`mEventData`, compiled only with `DEBUG_ENABLED`, is left out. -/
def OnSelectAllEvent (s : Impl) : Option Impl :=
  match s.mEventData with
  | none => some s
  | some e =>
    if e.mSelectionEnabled then
      updateEventData (fun e1 => { e1 with
        mLeftSelectionPosition := 0,
        mRightSelectionPosition := s.numberOfCharacters,
        mScrollAfterUpdatePosition := true,
        mUpdateLeftSelectionPosition := true,
        mUpdateRightSelectionPosition := true,
        mUpdateHighlightBox := true })
        (ChangeState .SELECTING s)
    else some s

/-! ## Processing the queue of input events -/

/-- The `switch( iter->type )` of `ProcessInputEvents`. -/
def dispatchEvent (event : Event) (s : Impl) : Option Impl :=
  match event.type with
  | .CURSOR_KEY_EVENT => OnCursorKeyEvent event s
  | .TAP_EVENT => OnTapEvent event s
  | .LONG_PRESS_EVENT => OnLongPressEvent event s
  | .PAN_EVENT => OnPanEvent event s
  | .GRAB_HANDLE_EVENT => OnHandleEvent event s
  | .LEFT_SELECTION_HANDLE_EVENT => OnHandleEvent event s
  | .RIGHT_SELECTION_HANDLE_EVENT => OnHandleEvent event s
  | .SELECT => OnSelectEvent event s
  | .SELECT_ALL => OnSelectAllEvent s

/-- The loop of `ProcessInputEvents` over the queue of events. -/
def dispatchEvents : List Event → Impl → Option Impl
  | [], s => some s
  | event :: rest, s => (dispatchEvent event s).bind (dispatchEvents rest)

/-- The branch `if( mEventData->mUpdateCursorPosition )` of `ProcessInputEvents`
(lines 173-206). -/
def resolveCursorPosition (s : Impl) : Option Impl :=
  match s.mEventData with
  | none => none
  | some e =>
    (GetCursorPosition e.mPrimaryCursorPosition s).bind fun r =>
    (updateEventData (fun e1 =>
      if e1.mUpdateCursorHookPosition then
        { e1 with mCursorHookPositionX := r.1.primaryPosition.x,
                  mUpdateCursorHookPosition := false }
      else e1) r.2).bind fun s1 =>
    (if e.mScrollAfterDelete then ScrollTextToMatchCursor r.1 s1 else some s1).bind fun s2 =>
    (if e.mScrollAfterUpdatePosition then
      ScrollToMakePositionVisible ⟨r.1.primaryPosition.x, r.1.lineOffset⟩ r.1.lineHeight s2
     else some s2).bind fun s3 =>
    (updateEventData (fun e1 => { e1 with
      mScrollAfterUpdatePosition := false, mScrollAfterDelete := false }) s3).bind fun s4 =>
    updateEventData (fun e1 => { e1 with
      mDecoratorUpdated := true, mUpdateCursorPosition := false,
      mUpdateGrabHandlePosition := false })
      (UpdateCursorPosition r.1 s4)

/-- The block `if( mEventData->mUpdateHighlightBox )` that opens the `else` branch of
`ProcessInputEvents` (lines 213-232): the cursor infos of the two handles, and the state. -/
def selectionHandleInfos (e : EventData) (s : Impl) : Option (CursorInfo × CursorInfo × Impl) :=
  if e.mUpdateHighlightBox then
    (GetCursorPosition e.mLeftSelectionPosition s).bind fun l =>
    (GetCursorPosition e.mRightSelectionPosition l.2).bind fun r =>
    (if e.mScrollAfterUpdatePosition && e.mUpdateLeftSelectionPosition then
      ScrollToMakePositionVisible ⟨l.1.primaryPosition.x, l.1.lineOffset⟩ l.1.lineHeight r.2
     else some r.2).bind fun s1 =>
    (if e.mScrollAfterUpdatePosition && e.mUpdateRightSelectionPosition then
      ScrollToMakePositionVisible ⟨r.1.primaryPosition.x, r.1.lineOffset⟩ r.1.lineHeight s1
     else some s1).bind fun s2 =>
    some (l.1, r.1, s2)
  else some (s.services.freshCursorInfo, s.services.freshCursorInfo, s)

/-- The block `UpdateSelectionHandle( handleType, info ); SetPopupButtons();
mEventData->mDecoratorUpdated = true;` of `ProcessInputEvents`. -/
def resolveSelectionHandle (handleType : HandleType) (info : CursorInfo) (s : Impl) :
    Option Impl :=
  (UpdateSelectionHandle handleType info s).bind fun s1 =>
    updateEventData (fun e1 => { SetPopupButtons s1 e1 with mDecoratorUpdated := true }) s1

/-- The `else` branch of `if( mEventData->mUpdateCursorPosition )` in `ProcessInputEvents`
(lines 209-263). -/
def resolveSelection (s : Impl) : Option Impl :=
  match s.mEventData with
  | none => none
  | some e =>
    (selectionHandleInfos e s).bind fun infos =>
    (if e.mUpdateLeftSelectionPosition then
      (resolveSelectionHandle .LEFT_SELECTION_HANDLE infos.1 infos.2.2).bind
        (updateEventData fun e1 => { e1 with mUpdateLeftSelectionPosition := false })
     else some infos.2.2).bind fun s1 =>
    (if e.mUpdateRightSelectionPosition then
      (resolveSelectionHandle .RIGHT_SELECTION_HANDLE infos.2.1 s1).bind
        (updateEventData fun e1 => { e1 with mUpdateRightSelectionPosition := false })
     else some s1).bind fun s2 =>
    (if e.mUpdateHighlightBox then
      (RepositionSelectionHandles s2).bind
        (updateEventData fun e1 => { e1 with
          mUpdateLeftSelectionPosition := false, mUpdateRightSelectionPosition := false,
          mUpdateHighlightBox := false })
     else some s2).bind fun s3 =>
    updateEventData (fun e1 => { e1 with mScrollAfterUpdatePosition := false }) s3

/-- The block `if( mEventData->mUpdateInputStyle )` of `ProcessInputEvents`: the call
`mLogicalModel->RetrieveStyle( styleIndex, ... )` is recorded. -/
def resolveInputStyle (s : Impl) : Option Impl :=
  match s.mEventData with
  | none => none
  | some e =>
    if e.mUpdateInputStyle then
      let styleIndex := if e.mPrimaryCursorPosition > 0 then e.mPrimaryCursorPosition - 1 else 0
      some { s with
        mEventData := some { e with mUpdateInputStyle := false },
        styleRetrievals := s.styleRetrievals ++ [styleIndex] }
    else some s

/-- The statements of `ProcessInputEvents` between the dispatch of the events and
`mEventData->mEventQueue.clear()` (lines 165-278). -/
def resolveUpdates (s : Impl) : Option Impl :=
  match s.mEventData with
  | none => none
  | some e =>
    let s1 :=
      if e.mUpdateCursorPosition || e.mUpdateHighlightBox then NotifyImfManager s else s
    (if e.mUpdateCursorPosition then resolveCursorPosition s1 else resolveSelection s1).bind
      resolveInputStyle

/-- The last statements of `ProcessInputEvents` (lines 280-287): the queue is cleared, the
flag `mDecoratorUpdated` is returned and cleared. -/
def finishProcessing (s : Impl) : Option (Bool × Impl) :=
  match s.mEventData with
  | none => none
  | some e =>
    some (e.mDecoratorUpdated,
      { s with mEventData := some { e with mEventQueue := [], mDecoratorUpdated := false } })

/-- `Controller::Impl::ProcessInputEvents`: the value returned and the state afterwards. -/
def ProcessInputEvents (s : Impl) : Option (Bool × Impl) :=
  match s.mEventData with
  | none => some (false, s)
  | some e => ((dispatchEvents e.mEventQueue s).bind resolveUpdates).bind finishProcessing

/-! ## What the processing of the events leaves pending -/

/-- The update requests kept in the event data: the flags set by the handlers of the
events and resolved by `ProcessInputEvents`. -/
structure Requests where
  mUpdateCursorPosition : Bool
  mUpdateGrabHandlePosition : Bool
  mUpdateLeftSelectionPosition : Bool
  mUpdateRightSelectionPosition : Bool
  mUpdateHighlightBox : Bool
  mScrollAfterUpdatePosition : Bool
  mScrollAfterDelete : Bool
  mUpdateInputStyle : Bool
deriving DecidableEq, Repr

/-- The update requests of some event data. -/
def EventData.requests (e : EventData) : Requests :=
  { mUpdateCursorPosition := e.mUpdateCursorPosition,
    mUpdateGrabHandlePosition := e.mUpdateGrabHandlePosition,
    mUpdateLeftSelectionPosition := e.mUpdateLeftSelectionPosition,
    mUpdateRightSelectionPosition := e.mUpdateRightSelectionPosition,
    mUpdateHighlightBox := e.mUpdateHighlightBox,
    mScrollAfterUpdatePosition := e.mScrollAfterUpdatePosition,
    mScrollAfterDelete := e.mScrollAfterDelete,
    mUpdateInputStyle := e.mUpdateInputStyle }

/-- What the functions that compute the geometry and drive the decorator leave as it is:
the update requests (`none` without event data), the positions notified to the input
method manager and the functions of the text library. -/
structure Pending where
  requests : Option Requests
  imfCursorPositions : List Nat
  services : Services

/-- The pending part of a state of the controller. -/
def Impl.pending (s : Impl) : Pending :=
  { requests := s.mEventData.map EventData.requests,
    imfCursorPositions := s.imfCursorPositions,
    services := s.services }

/-- True for a cursor key event of the key 'up' or 'down'. -/
def isVerticalKey (services : Services) (event : Event) : Bool :=
  decide (event.type = .CURSOR_KEY_EVENT) &&
    (decide (services.DALI_KEY_CURSOR_UP = event.p1) ||
      decide (services.DALI_KEY_CURSOR_DOWN = event.p1))

/-- True for the events that target the primary cursor: cursor key events, tap events and
grab handle events. -/
def targetsPrimaryCursor (event : Event) : Bool :=
  decide (event.type = .CURSOR_KEY_EVENT) || decide (event.type = .TAP_EVENT) ||
    decide (event.type = .GRAB_HANDLE_EVENT)

/-- The logical cursor index: the smaller of the two selection handle positions while
selecting, the primary cursor position otherwise. -/
def logicalCursorIndex (e : EventData) : Nat :=
  if e.mState = .SELECTING ∨ e.mState = .SELECTION_HANDLE_PANNING then
    min e.mLeftSelectionPosition e.mRightSelectionPosition
  else e.mPrimaryCursorPosition

/-- The number of white-space characters at the start of the text. -/
def leadingWhiteSpaces (s : Impl) : Nat :=
  (s.mLogicalModel.mText.takeWhile s.services.IsWhiteSpace).length

/-! ## Updating the model -/

/-- `Controller::Impl::CalculateTextUpdateIndices( numberOfCharacters )`: the value left in
`numberOfCharacters` and the state afterwards. -/
def CalculateTextUpdateIndices (s : Impl) : Nat × Impl :=
  let info := { s.mTextUpdateInfo with
    mParagraphCharacterIndex := 0, mStartGlyphIndex := 0, mStartLineIndex := 0 }
  let numberOfParagraphs := s.mLogicalModel.mParagraphInfo.Count
  if numberOfParagraphs = 0 then
    (0, { s with mTextUpdateInfo := { info with
      mParagraphCharacterIndex := 0,
      mRequestedNumberOfCharacters :=
        usub info.mNumberOfCharactersToAdd info.mNumberOfCharactersToRemove } })
  else if info.mCharacterIndex ≥ info.mPreviousNumberOfCharacters ∧
      info.mIsLastCharacterNewParagraph = true then
    (0, { s with mTextUpdateInfo := { info with
      mParagraphCharacterIndex := info.mPreviousNumberOfCharacters,
      mRequestedNumberOfCharacters :=
        usub info.mNumberOfCharactersToAdd info.mNumberOfCharactersToRemove,
      mStartGlyphIndex := s.mVisualModel.mGlyphs.Count,
      mStartLineIndex := usub s.mVisualModel.mLines.Count 1 } })
  else
    let paragraphsToBeUpdated : List Nat :=
      if info.mCharacterIndex ≥ info.mPreviousNumberOfCharacters then
        [usub numberOfParagraphs 1]
      else
        let numberOfCharactersToUpdate :=
          if info.mFullRelayoutNeeded then info.mPreviousNumberOfCharacters
          else if info.mNumberOfCharactersToRemove > 0 then info.mNumberOfCharactersToRemove
          else 1
        s.mLogicalModel.FindParagraphs info.mCharacterIndex numberOfCharactersToUpdate
    let updated : Nat × Nat :=
      match paragraphsToBeUpdated.head?, paragraphsToBeUpdated.getLast? with
      | some firstParagraphIndex, some lastParagraphIndex =>
        let firstParagraph := s.mLogicalModel.mParagraphInfo.read firstParagraphIndex
        let paragraphCharacterIndex := firstParagraph.characterRun.characterIndex
        let lastParagraph := s.mLogicalModel.mParagraphInfo.read lastParagraphIndex
        let someCharactersAreRemoved := decide (info.mNumberOfCharactersToRemove > 0)
        let thereIsANextParagraph := decide (lastParagraphIndex < usub numberOfParagraphs 1)
        let newParagraphCharacterIsRemoved :=
          decide (uadd lastParagraph.characterRun.characterIndex
              lastParagraph.characterRun.numberOfCharacters =
            uadd info.mCharacterIndex info.mNumberOfCharactersToRemove)
        if someCharactersAreRemoved && thereIsANextParagraph &&
            newParagraphCharacterIsRemoved then
          let nextParagraph := s.mLogicalModel.mParagraphInfo.read (lastParagraphIndex + 1)
          (paragraphCharacterIndex,
            usub (uadd nextParagraph.characterRun.characterIndex
              nextParagraph.characterRun.numberOfCharacters) paragraphCharacterIndex)
        else
          (paragraphCharacterIndex,
            usub (uadd lastParagraph.characterRun.characterIndex
              lastParagraph.characterRun.numberOfCharacters) paragraphCharacterIndex)
      | _, _ => (info.mParagraphCharacterIndex, 0)
    (updated.2, { s with mTextUpdateInfo := { info with
      mParagraphCharacterIndex := updated.1,
      mRequestedNumberOfCharacters :=
        usub (uadd updated.2 info.mNumberOfCharactersToAdd) info.mNumberOfCharactersToRemove,
      mStartGlyphIndex := s.mVisualModel.mCharactersToGlyph.read updated.1 } })

/-- `Controller::Impl::ClearFullModelData( operations )`. -/
def ClearFullModelData (operations : OperationsMask) (s : Impl) : Impl :=
  let l0 := s.mLogicalModel
  let l1 :=
    if operations.GET_LINE_BREAKS then
      { l0 with mLineBreakInfo := l0.mLineBreakInfo.Clear,
                mParagraphInfo := l0.mParagraphInfo.Clear }
    else l0
  let l2 :=
    if operations.GET_WORD_BREAKS then { l1 with mLineBreakInfo := l1.mLineBreakInfo.Clear }
    else l1
  let l3 := if operations.GET_SCRIPTS then { l2 with mScriptRuns := l2.mScriptRuns.Clear } else l2
  let l4 := if operations.VALIDATE_FONTS then { l3 with mFontRuns := l3.mFontRuns.Clear } else l3
  let l5 :=
    if l4.mBidirectionalParagraphInfo.Count ≠ 0 then
      let b1 :=
        if operations.BIDI_INFO then
          { l4 with mBidirectionalParagraphInfo := l4.mBidirectionalParagraphInfo.Clear,
                    mCharacterDirections := l4.mCharacterDirections.Clear }
        else l4
      if operations.REORDER then
        { b1 with mBidirectionalLineInfo := b1.mBidirectionalLineInfo.Clear }
      else b1
    else l4
  let v0 := s.mVisualModel
  let v1 :=
    if operations.SHAPE_TEXT then
      { v0 with mGlyphs := v0.mGlyphs.Clear,
                mGlyphsToCharacters := v0.mGlyphsToCharacters.Clear,
                mCharactersToGlyph := v0.mCharactersToGlyph.Clear,
                mCharactersPerGlyph := v0.mCharactersPerGlyph.Clear,
                mGlyphsPerCharacter := v0.mGlyphsPerCharacter.Clear,
                mGlyphPositions := v0.mGlyphPositions.Clear }
    else v0
  let v2 := if operations.LAYOUT then { v1 with mLines := v1.mLines.Clear } else v1
  let v3 := if operations.COLOR then { v2 with mColorIndices := v2.mColorIndices.Clear } else v2
  { s with mLogicalModel := l5, mVisualModel := v3 }

/-- The conversion `static_cast<int>( value )` of an `unsigned int`. -/
def toInt (value : Nat) : Int :=
  if value % UINT_RANGE < 2147483648 then (value % UINT_RANGE : Nat)
  else ((value % UINT_RANGE : Nat) : Int) - (UINT_RANGE : Nat)

/-- The negation of an `int`. -/
def negInt (value : Int) : Int :=
  if value = -2147483648 then value else -value

/-- `Controller::Impl::RetrieveSelection( selectedText, deleteAfterRetrieval )`: what
`selectedText` holds afterwards and the state afterwards.  The function dereferences
`mEventData` in its first statement. -/
def RetrieveSelection (selectedText : String) (deleteAfterRetrieval : Bool) (s : Impl) :
    Option (String × Impl) :=
  match s.mEventData with
  | none => none
  | some e =>
    if e.mLeftSelectionPosition = e.mRightSelectionPosition then some ("", s)
    else
      let handlesCrossed := decide (e.mLeftSelectionPosition > e.mRightSelectionPosition)
      let startOfSelectedText :=
        if handlesCrossed then e.mRightSelectionPosition else e.mLeftSelectionPosition
      let lengthOfSelectedText :=
        usub (if handlesCrossed then e.mLeftSelectionPosition else e.mRightSelectionPosition)
          startOfSelectedText
      let numberOfCharacters := s.numberOfCharacters
      if uadd startOfSelectedText lengthOfSelectedText ≤ numberOfCharacters then
        let utf8 := s.services.Utf32ToUtf8
          ((s.mLogicalModel.mText.drop startOfSelectedText).take lengthOfSelectedText)
          selectedText
        if deleteAfterRetrieval then
          some (utf8, { s with
            styleRetrievals := s.styleRetrievals ++ [startOfSelectedText],
            styleRunUpdates := s.styleRunUpdates ++
              [(startOfSelectedText, negInt (toInt lengthOfSelectedText))],
            mTextUpdateInfo := { s.mTextUpdateInfo with
              mCharacterIndex := startOfSelectedText,
              mNumberOfCharactersToRemove := lengthOfSelectedText },
            mLogicalModel := { s.mLogicalModel with
              mText := s.mLogicalModel.mText.take startOfSelectedText ++
                s.mLogicalModel.mText.drop (startOfSelectedText + lengthOfSelectedText) },
            mEventData := some { e with
              mPrimaryCursorPosition :=
                if handlesCrossed then e.mRightSelectionPosition
                else e.mLeftSelectionPosition,
              mDecoratorUpdated := true } })
        else
          some (utf8, { s with
            mEventData := some { e with
              mPrimaryCursorPosition :=
                if handlesCrossed then e.mLeftSelectionPosition
                else e.mRightSelectionPosition,
              mDecoratorUpdated := true } })
      else some (selectedText, s)

/-- The loop `for( it = buffer + first; it != buffer + Count(); ++it ) { *it -= n; }` over
a table of indices; it has no defined result (`none`) when it starts past the end. -/
def subtractFrom (b : Buffer Nat) (first n : Nat) : Option (Buffer Nat) :=
  if first ≤ b.items.length then
    some { b with items := b.items.take first ++ (b.items.drop first).map fun index => usub index n }
  else none

/-- The value of `endGlyphIndexPlusOne` in `ClearGlyphModelData`. -/
def endGlyphIndexPlusOne (endIndex : Nat) (s : Impl) : Nat :=
  uadd (s.mVisualModel.mCharactersToGlyph.read endIndex)
    (s.mVisualModel.mGlyphsPerCharacter.read endIndex)

/-- The block `if( NO_OPERATION != ( SHAPE_TEXT & operations ) )` of
`ClearGlyphModelData`. -/
def clearShapedText (startIndex endIndex : Nat) (s : Impl) : Option Impl :=
  let endIndexPlusOne := uadd endIndex 1
  let numberOfCharactersRemoved := usub endIndexPlusOne startIndex
  let numberOfGlyphsRemoved :=
    usub (endGlyphIndexPlusOne endIndex s) s.mTextUpdateInfo.mStartGlyphIndex
  let v := s.mVisualModel
  (subtractFrom v.mCharactersToGlyph endIndexPlusOne numberOfGlyphsRemoved).bind fun shifted =>
  (shifted.Erase startIndex endIndexPlusOne).bind fun charactersToGlyph =>
  (v.mGlyphsPerCharacter.Erase startIndex endIndexPlusOne).bind fun glyphsPerCharacter =>
  (v.mGlyphs.Erase s.mTextUpdateInfo.mStartGlyphIndex
    (endGlyphIndexPlusOne endIndex s)).bind fun glyphs =>
  (subtractFrom v.mGlyphsToCharacters (endGlyphIndexPlusOne endIndex s)
    numberOfCharactersRemoved).bind fun shiftedBack =>
  (shiftedBack.Erase s.mTextUpdateInfo.mStartGlyphIndex
    (endGlyphIndexPlusOne endIndex s)).bind fun glyphsToCharacters =>
  (v.mCharactersPerGlyph.Erase s.mTextUpdateInfo.mStartGlyphIndex
    (endGlyphIndexPlusOne endIndex s)).bind fun charactersPerGlyph =>
  (v.mGlyphPositions.Erase s.mTextUpdateInfo.mStartGlyphIndex
    (endGlyphIndexPlusOne endIndex s)).bind fun glyphPositions =>
  some { s with mVisualModel := { v with
    mCharactersToGlyph := charactersToGlyph, mGlyphsPerCharacter := glyphsPerCharacter,
    mGlyphs := glyphs, mGlyphsToCharacters := glyphsToCharacters,
    mCharactersPerGlyph := charactersPerGlyph, mGlyphPositions := glyphPositions } }

/-- The lines and the values of `startRemoveIndex` and `endRemoveIndex` after the calls of
`ClearCharacterRuns` and `ClearGlyphRuns` in the block of `LAYOUT`; the second call starts
again from `mLines.Count()`. -/
def clearedLineRuns (startIndex endIndex glyphEndPlusOne : Nat) (s : Impl) :
    Buffer LineRun × Nat × Nat :=
  s.services.ClearGlyphRuns s.mTextUpdateInfo.mStartGlyphIndex (usub glyphEndPlusOne 1)
    (s.services.ClearCharacterRuns startIndex endIndex s.mVisualModel.mLines).1

/-- The block `if( NO_OPERATION != ( LAYOUT & operations ) )` of `ClearGlyphModelData`. -/
def clearLines (startIndex endIndex glyphEndPlusOne : Nat) (s : Impl) : Option Impl :=
  let cleared := clearedLineRuns startIndex endIndex glyphEndPlusOne s
  (cleared.1.Erase cleared.2.1 cleared.2.2).bind fun lines =>
  some { s with
    mTextUpdateInfo := { s.mTextUpdateInfo with mStartLineIndex := cleared.2.1 },
    mVisualModel := { s.mVisualModel with mLines := lines } }

/-- The block `if( NO_OPERATION != ( COLOR & operations ) )` of `ClearGlyphModelData`. -/
def clearColorIndices (glyphEndPlusOne : Nat) (s : Impl) : Option Impl :=
  if s.mVisualModel.mColorIndices.Count ≠ 0 then
    (s.mVisualModel.mColorIndices.Erase s.mTextUpdateInfo.mStartGlyphIndex
      glyphEndPlusOne).bind fun colorIndices =>
    some { s with mVisualModel := { s.mVisualModel with mColorIndices := colorIndices } }
  else some s

/-- `Controller::Impl::ClearGlyphModelData( startIndex, endIndex, operations )`.  The
indices of the glyphs are computed before the tables are changed. -/
def ClearGlyphModelData (startIndex endIndex : Nat) (operations : OperationsMask) (s : Impl) :
    Option Impl :=
  let glyphEndPlusOne := endGlyphIndexPlusOne endIndex s
  ((if operations.SHAPE_TEXT then clearShapedText startIndex endIndex s else some s).bind
    fun s1 => if operations.LAYOUT then clearLines startIndex endIndex glyphEndPlusOne s1
      else some s1).bind
    fun s2 => if operations.COLOR then clearColorIndices glyphEndPlusOne s2 else some s2

/-- Consistent conversion tables: the tables of the characters have one length and the
tables of the glyphs another, every entry of a conversion table is an index of the other
table, `charactersToGlyph[glyphsToCharacters[g]] <= g` for every glyph, and the characters
per glyph add up to the number of characters. -/
def ConsistentConversion (v : VisualModel) : Prop :=
  v.mGlyphsPerCharacter.Count = v.mCharactersToGlyph.Count ∧
  v.mGlyphsToCharacters.Count = v.mGlyphs.Count ∧
  v.mCharactersPerGlyph.Count = v.mGlyphs.Count ∧
  v.mGlyphPositions.Count = v.mGlyphs.Count ∧
  (∀ c < v.mCharactersToGlyph.Count, v.mCharactersToGlyph.read c < v.mGlyphs.Count) ∧
  (∀ g < v.mGlyphs.Count, v.mGlyphsToCharacters.read g < v.mCharactersToGlyph.Count) ∧
  (∀ g < v.mGlyphs.Count,
    v.mCharactersToGlyph.read (v.mGlyphsToCharacters.read g) ≤ g) ∧
  v.mCharactersPerGlyph.items.sum = v.mCharactersToGlyph.Count

/-- The characters of `[startIndex, endIndex]` form a cluster-aligned range with the glyphs
of `[glyphStart, glyphEnd)`: the characters before the range map to glyphs before
`glyphStart` and the glyphs before `glyphStart` to characters before the range, the
characters after the range map to glyphs from `glyphEnd` on and the glyphs from `glyphEnd`
on to characters after the range. -/
def ClusterAligned (startIndex endIndex glyphStart glyphEnd : Nat) (v : VisualModel) : Prop :=
  startIndex ≤ endIndex ∧ endIndex < v.mCharactersToGlyph.Count ∧
  glyphStart ≤ glyphEnd ∧ glyphEnd ≤ v.mGlyphs.Count ∧
  (∀ c < startIndex, v.mCharactersToGlyph.read c < glyphStart) ∧
  (∀ g < glyphStart, v.mGlyphsToCharacters.read g < startIndex) ∧
  (∀ c < v.mCharactersToGlyph.Count, endIndex < c → glyphEnd ≤ v.mCharactersToGlyph.read c) ∧
  (∀ g < v.mGlyphs.Count, glyphEnd ≤ g → endIndex < v.mGlyphsToCharacters.read g)

/-- `Controller::Impl::CopyStringToClipboard( source )`: the string is sent to the
clipboard when there is one.  The value returned is not used by the caller modelled
here. -/
def CopyStringToClipboard (source : String) (s : Impl) : Impl :=
  if s.mClipboard then { s with clipboardItems := s.clipboardItems ++ [source] } else s

/-- `Controller::Impl::SendSelectionToClipboard( deleteAfterSending )`, the only caller of
`RetrieveSelection`: the string it passes is a `std::string` just constructed, which is
empty. -/
def SendSelectionToClipboard (deleteAfterSending : Bool) (s : Impl) : Option Impl :=
  (RetrieveSelection "" deleteAfterSending s).bind fun retrieved =>
    some (ChangeState .EDITING (CopyStringToClipboard retrieved.1 retrieved.2))

/-- The tables of a visual model without the characters of `[first, last)` and without the
glyphs of `[glyphFirst, glyphLast)`: the entries of the two ranges are taken out, and the
indices kept behind them are moved down by the number of glyphs, or of characters, taken
out. -/
def withoutRange (first last glyphFirst glyphLast : Nat) (v : VisualModel) : VisualModel :=
  { v with
    mCharactersToGlyph := { v.mCharactersToGlyph with
      items := v.mCharactersToGlyph.items.take first ++
        (v.mCharactersToGlyph.items.drop last).map fun index =>
          usub index (glyphLast - glyphFirst) },
    mGlyphsPerCharacter := { v.mGlyphsPerCharacter with
      items := v.mGlyphsPerCharacter.items.take first ++
        (v.mGlyphsPerCharacter.items.drop last).map id },
    mGlyphs := { v.mGlyphs with
      items := v.mGlyphs.items.take glyphFirst ++ (v.mGlyphs.items.drop glyphLast).map id },
    mGlyphsToCharacters := { v.mGlyphsToCharacters with
      items := v.mGlyphsToCharacters.items.take glyphFirst ++
        (v.mGlyphsToCharacters.items.drop glyphLast).map fun index =>
          usub index (last - first) },
    mCharactersPerGlyph := { v.mCharactersPerGlyph with
      items := v.mCharactersPerGlyph.items.take glyphFirst ++
        (v.mCharactersPerGlyph.items.drop glyphLast).map id },
    mGlyphPositions := { v.mGlyphPositions with
      items := v.mGlyphPositions.items.take glyphFirst ++
        (v.mGlyphPositions.items.drop glyphLast).map id } }

/-! ## Exact arithmetic -/

/-- The number a finite `float` holds; 0 for an infinity and for a NaN. -/
def float.toRat : float → ℚ
  | .finite x => x
  | _ => 0

/-- True of the finite numbers. -/
def float.isFinite : float → Bool
  | .finite _ => true
  | _ => false

/-- The arithmetic `ScrollToMakePositionVisible` does on one axis is exact: the position,
the size of the rectangle, the scroll offset and the size of the control are finite
numbers, and none of `position + size`, `position + offset`, `( position + size ) + offset`
and `control - ( position + size )` is rounded. -/
def exactAxis (position size offset control : float) : Bool :=
  match position, size, offset, control with
  | .finite p, .finite d, .finite o, .finite c =>
    decide (float.finite p + float.finite d = float.finite (p + d)) &&
    decide (float.finite p + float.finite o = float.finite (p + o)) &&
    decide (float.finite (p + d) + float.finite o = float.finite (p + d + o)) &&
    decide (float.finite c - float.finite (p + d) = float.finite (c - (p + d)))
  | _, _, _, _ => false

/-! ## Clusters of characters -/

/-- The number of characters of the cluster whose first glyph is `glyph`: the first entry of
`mCharactersPerGlyph` from `glyph` on that is not zero (of the glyphs of one cluster, the
last one holds the number of characters and the ones before it hold zero). -/
def clusterCharacters (s : Impl) (glyph : Nat) : Option Nat :=
  firstNonZero (s.mVisualModel.mCharactersPerGlyph.items.drop glyph)

/-- The `n` characters from `start` on form a cluster: they lie in the text, they all map
to the glyph of `start`, and the cluster of that glyph has `n` characters. -/
def ClusterAt (s : Impl) (start n : Nat) : Prop :=
  0 < n ∧ start + n ≤ s.numberOfCharacters ∧
  (∀ k < n, s.mVisualModel.mCharactersToGlyph.read (start + k) =
    s.mVisualModel.mCharactersToGlyph.read start) ∧
  clusterCharacters s (s.mVisualModel.mCharactersToGlyph.read start) = some n

/-- Consistent glyph tables: `mCharactersToGlyph` has one entry per character, every
character maps to a glyph, the characters per glyph add up to the length of the text, and
every character lies in a cluster. -/
def ConsistentTables (s : Impl) : Prop :=
  s.mVisualModel.mCharactersToGlyph.Count = s.numberOfCharacters ∧
  (∀ c < s.numberOfCharacters,
    s.mVisualModel.mCharactersToGlyph.read c < s.mVisualModel.mCharactersPerGlyph.Count) ∧
  s.mVisualModel.mCharactersPerGlyph.items.sum = s.numberOfCharacters ∧
  ∀ c < s.numberOfCharacters, ∃ start < s.numberOfCharacters,
    ∃ n < s.numberOfCharacters + 1, start ≤ c ∧ c < start + n ∧ ClusterAt s start n

/-- The cursor position `p` is on a cluster boundary: it lies strictly inside no cluster. -/
def OnClusterBoundary (s : Impl) (p : Nat) : Prop :=
  ∀ start < s.numberOfCharacters, ∀ n < s.numberOfCharacters + 1,
    ClusterAt s start n → ¬ (start < p ∧ p < start + n)

/-- The cursor position `p` is inside a ligature that must break: strictly inside a cluster
of one glyph with several characters, all of a script whose ligatures must break. -/
def InsideMustBreakLigature (s : Impl) (p : Nat) : Prop :=
  ∃ start < s.numberOfCharacters, ∃ n < s.numberOfCharacters + 1,
    ClusterAt s start n ∧ start < p ∧ p < start + n ∧
    1 < s.mVisualModel.mCharactersPerGlyph.read (s.mVisualModel.mCharactersToGlyph.read start) ∧
    ∀ k < n, s.services.HasLigatureMustBreak (s.mLogicalModel.GetScript (start + k)) = true

/-! ## Example states -/

/-- A decorator on which nothing is active. -/
def idleDecorator : Decorator :=
  { activeCursor := .ACTIVE_CURSOR_NONE, cursorBlinking := false, grabHandleActive := false,
    leftSelectionHandleActive := false, rightSelectionHandleActive := false,
    popupActive := false, enabledPopupButtons := [], commands := [] }

/-- The event data as built by the constructor `EventData::EventData`. -/
def newEventData : EventData :=
  { mDecorator := idleDecorator, mState := .INACTIVE, mPrimaryCursorPosition := 0,
    mLeftSelectionPosition := 0, mRightSelectionPosition := 0,
    mIsShowingPlaceholderText := false, mDecoratorUpdated := false,
    mCursorBlinkEnabled := true, mGrabHandleEnabled := true, mGrabHandlePopupEnabled := true,
    mSelectionEnabled := true, mUpdateCursorPosition := false,
    mUpdateGrabHandlePosition := false, mUpdateLeftSelectionPosition := false,
    mUpdateRightSelectionPosition := false, mUpdateHighlightBox := false,
    mScrollAfterUpdatePosition := false, mScrollAfterDelete := false,
    mAllTextSelected := false, mUpdateInputStyle := false }

/-- A buffer without elements; reads past the end yield `a`. -/
def emptyBuffer {α : Type} (a : α) : Buffer α := { items := [], beyond := fun _ => a }

/-- A buffer holding `l`; reads past the end yield `a`. -/
def bufferOf {α : Type} (l : List α) (a : α) : Buffer α := { items := l, beyond := fun _ => a }

/-- The text "hello": five Latin letters, left to right. -/
def helloModel : LogicalModel :=
  { mText := [104, 101, 108, 108, 111], mCharacterDirections := emptyBuffer false,
    GetScript := fun _ => 0 }

/-- One glyph per character of "hello", each 10 wide, on one line of height 20, in a
control of 100 by 20. -/
def helloLayout : VisualModel :=
  { mControlSize := ⟨100, 20⟩, layoutSize := ⟨50, 20⟩,
    mGlyphs := bufferOf (List.replicate 5 ⟨10, 0⟩) ⟨0, 0⟩,
    mGlyphPositions := bufferOf [⟨0, 0⟩, ⟨10, 0⟩, ⟨20, 0⟩, ⟨30, 0⟩, ⟨40, 0⟩] ⟨0, 0⟩,
    mCharactersToGlyph := bufferOf [0, 1, 2, 3, 4] 0,
    mGlyphsPerCharacter := bufferOf [1, 1, 1, 1, 1] 0,
    mCharactersPerGlyph := bufferOf [1, 1, 1, 1, 1] 0,
    mGlyphsToCharacters := bufferOf [0, 1, 2, 3, 4] 0,
    mLines := bufferOf [⟨⟨0, 5⟩, 15, -5, 0, false⟩] ⟨⟨0, 0⟩, 0, 0, 0, false⟩,
    GetLineOfCharacter := fun _ => 0,
    GetNumberOfLines := fun _ _ => (0, 1) }

/-- The text library on "hello": the cursor before character `i` stands at `x = 10 i`. -/
def helloServices : Services :=
  { GetClosestCursorIndex := fun x _ => if x < 0 then 0 else min 5 (x / 10).floor.toNat,
    GetCursorPosition := fun i => ⟨⟨10 * i, 0⟩, ⟨0, 0⟩, 0, 20, 20, 0, false⟩,
    FindSelectionIndices := fun _ _ => (true, 0, 5),
    CalculateLineOffset := fun _ => 0,
    HasLigatureMustBreak := fun script => script == 1,
    IsWhiteSpace := fun c => c == 32,
    defaultFontLineHeight := 20,
    uninitializedBox := fun _ => ⟨0, 0, 0, 0⟩ }

/-- An editable text control holding "hello", with an empty clipboard. -/
def editableControl : Impl :=
  { mEventData := some newEventData, mLogicalModel := helloModel, mVisualModel := helloLayout,
    services := helloServices, mScrollPosition := ⟨0, 0⟩, multiLineLayout := false,
    horizontalAlignment := .HORIZONTAL_ALIGN_BEGIN, mClipboard := true,
    clipboardEmpty := true, mClipboardHideEnabled := true, clipboardHidden := 0,
    imfCursorPositions := [], cursorPositionCalls := [], directionReads := [],
    styleRetrievals := [] }

/-- The text "fi" in a script whose ligatures must break (script 1 of `helloServices`). -/
def fiModel : LogicalModel :=
  { mText := [102, 105], mCharacterDirections := emptyBuffer false, GetScript := fun _ => 1 }

/-- The two characters of "fi" shaped into one ligature glyph, 12 wide. -/
def fiLayout : VisualModel :=
  { helloLayout with
    layoutSize := ⟨12, 20⟩,
    mGlyphs := bufferOf [⟨12, 0⟩] ⟨0, 0⟩,
    mGlyphPositions := bufferOf [⟨0, 0⟩] ⟨0, 0⟩,
    mCharactersToGlyph := bufferOf [0, 0] 0,
    mGlyphsPerCharacter := bufferOf [1, 0] 0,
    mCharactersPerGlyph := bufferOf [2] 0,
    mGlyphsToCharacters := bufferOf [0] 0,
    mLines := bufferOf [⟨⟨0, 1⟩, 15, -5, 0, false⟩] ⟨⟨0, 0⟩, 0, 0, 0, false⟩ }

/-- An editable text control holding the ligature "fi", the cursor at its start. -/
def ligatureControl : Impl :=
  { editableControl with mLogicalModel := fiModel, mVisualModel := fiLayout }

/-- The same ligature in a script whose ligatures are not broken (script 0). -/
def unbrokenLigatureControl : Impl :=
  { ligatureControl with mLogicalModel := { fiModel with GetScript := fun _ => 0 } }

/-- A text control without event data: text input is not enabled. -/
def readOnlyLabel : Impl := { editableControl with mEventData := none }

/-- The text "  hi": two spaces, then two letters. -/
def indentedModel : LogicalModel :=
  { mText := [32, 32, 104, 105], mCharacterDirections := emptyBuffer false,
    GetScript := fun _ => 0 }


/-- Event data in the state `EDITING` whose queue holds a select-all event, then a single
tap at (25, 5). -/
def selectAllThenTapData : EventData :=
  { newEventData with
    mState := .EDITING,
    mEventQueue := [⟨.SELECT_ALL, 0, 0, 0⟩, ⟨.TAP_EVENT, 1, 25, 5⟩] }

/-- An editing control on "hello" with the events of `selectAllThenTapData` queued. -/
def selectAllThenTap : Impl :=
  { editableControl with mEventData := some selectAllThenTapData }

/-- Event data in the state `EDITING` with an input method manager; the cursor has been
moved behind the third character and its position is to be updated. -/
def imfData : EventData :=
  { newEventData with
    mState := .EDITING, mImfManager := true, mPrimaryCursorPosition := 3,
    mUpdateCursorPosition := true }

/-- An editing control on the text "  hi" with an input method manager; the cursor has
been moved behind the "h" (position 3) and its position is to be updated. -/
def imfControl : Impl :=
  { editableControl with mLogicalModel := indentedModel, mEventData := some imfData }

/-- "hello" laid out on two lines, "hel" and "lo", each 20 high, in a control of 100 by
40. -/
def twoLineLayout : VisualModel :=
  { helloLayout with
    mControlSize := ⟨100, 40⟩, layoutSize := ⟨30, 40⟩,
    mGlyphPositions := bufferOf [⟨0, 0⟩, ⟨10, 0⟩, ⟨20, 0⟩, ⟨0, 0⟩, ⟨10, 0⟩] ⟨0, 0⟩,
    mLines := bufferOf [⟨⟨0, 3⟩, 15, -5, 0, false⟩, ⟨⟨3, 2⟩, 15, -5, 0, false⟩]
      ⟨⟨0, 0⟩, 0, 0, 0, false⟩,
    GetLineOfCharacter := fun character => if character < 3 then 0 else 1,
    GetNumberOfLines := fun glyph count =>
      (if glyph < 3 then 0 else 1, if glyph < 3 ∧ 3 < glyph + count then 2 else 1) }

/-- The text library on the two lines of `twoLineLayout`: the characters are 10 wide, the
first line holds the cursor positions 0 to 3, the second one the positions 3 to 5. -/
def twoLineServices : Services :=
  { helloServices with
    GetClosestCursorIndex := fun x y =>
      let column := if x < 5 then 0 else if x < 15 then 1 else if x < 25 then 2 else 3
      if y < 20 then column else min 5 (3 + column),
    GetCursorPosition := fun i =>
      if i ≤ 3 then ⟨⟨10 * i, 0⟩, ⟨0, 0⟩, 0, 20, 20, 0, false⟩
      else ⟨⟨10 * (i - 3 : Nat), 20⟩, ⟨0, 0⟩, 20, 20, 20, 0, false⟩,
    CalculateLineOffset := fun line => 20 * line }

/-- Event data in the state `EDITING`, the cursor at the end of the text (position 5) and
a cursor-up key event queued. -/
def cursorUpData : EventData :=
  { newEventData with
    mState := .EDITING, mPrimaryCursorPosition := 5, mCursorHookPositionX := 20,
    mEventQueue := [⟨.CURSOR_KEY_EVENT, 111, 0, 0⟩] }

/-- An editing control on the two lines of `twoLineLayout`, with the cursor-up key of
`cursorUpData` queued. -/
def cursorUpQueued : Impl :=
  { editableControl with
    mVisualModel := twoLineLayout, services := twoLineServices,
    mEventData := some cursorUpData }

/-- Event data in the state `EDITING` with a cursor-right key event and a single tap at
(25, 5) queued. -/
def rightThenTapData : EventData :=
  { newEventData with
    mState := .EDITING,
    mEventQueue := [⟨.CURSOR_KEY_EVENT, 114, 0, 0⟩, ⟨.TAP_EVENT, 1, 25, 5⟩] }

/-- An editing control on "hello" with the events of `rightThenTapData` queued. -/
def rightThenTap : Impl :=
  { editableControl with mEventData := some rightThenTapData }

/-- Event data in the state `SELECTING`: the selection runs from the second character of
"hello" (position 1) to its end (position 5). -/
def twoLineSelectionData : EventData :=
  { newEventData with
    mState := .SELECTING, mLeftSelectionPosition := 1, mRightSelectionPosition := 5 }

/-- A control on the two lines of `twoLineLayout` with the selection of
`twoLineSelectionData`, which spans both lines. -/
def twoLineSelection : Impl :=
  { editableControl with
    mVisualModel := twoLineLayout, services := twoLineServices,
    mEventData := some twoLineSelectionData }

/-- The control of `twoLineSelection` laid out in multi-line mode. -/
def multiLineControl : Impl :=
  { twoLineSelection with multiLineLayout := true }

/-- "hello" laid out on two lines of different heights, "hel" 20 high and "lo" 30 high, in
a control of 100 by 50. -/
def unevenLayout : VisualModel :=
  { twoLineLayout with
    mControlSize := ⟨100, 50⟩, layoutSize := ⟨30, 50⟩,
    mLines := bufferOf [⟨⟨0, 3⟩, 15, -5, 0, false⟩, ⟨⟨3, 2⟩, 25, -5, 0, false⟩]
      ⟨⟨0, 0⟩, 0, 0, 0, false⟩ }

/-- The text library on the two lines of `unevenLayout`. -/
def unevenServices : Services :=
  { twoLineServices with
    GetCursorPosition := fun i =>
      if i ≤ 3 then ⟨⟨10 * i, 0⟩, ⟨0, 0⟩, 0, 20, 20, 0, false⟩
      else ⟨⟨10 * (i - 3 : Nat), 20⟩, ⟨0, 0⟩, 20, 30, 30, 0, false⟩ }

/-- A control on the two lines of `unevenLayout` with the selection of
`twoLineSelectionData`, which spans both lines. -/
def unevenSelection : Impl :=
  { twoLineSelection with mVisualModel := unevenLayout, services := unevenServices }

/-- The text "hello" with its vector of character directions filled: one entry per
character, all left to right. -/
def directedModel : LogicalModel :=
  { helloModel with mCharacterDirections := bufferOf (List.replicate 5 false) false }

/-- Event data in the state `SELECTING` with crossed handles: the left handle stands at the
end of "hello" (position 5), the right one before its third character (position 2). -/
def crossedSelectionData : EventData :=
  { newEventData with
    mState := .SELECTING, mLeftSelectionPosition := 5, mRightSelectionPosition := 2 }

/-- A control on `directedModel` with the selection of `crossedSelectionData`. -/
def crossedSelection : Impl :=
  { editableControl with
    mLogicalModel := directedModel, mEventData := some crossedSelectionData }

/-- The text "a", two line feeds and "b": the second of its three paragraphs is empty. -/
def gapModel : LogicalModel :=
  { mText := [97, 10, 10, 98], mCharacterDirections := emptyBuffer false,
    GetScript := fun _ => 0 }

/-- One glyph per character of `gapModel`, the glyphs of the letters 10 wide and the ones
of the line feeds without extent, on three lines each 20 high in a control of 100 by 60:
the first line holds "a" and a line feed, the second one a line feed only, the third one
"b". -/
def gapLayout : VisualModel :=
  { mControlSize := ⟨100, 60⟩, layoutSize := ⟨10, 60⟩,
    mGlyphs := bufferOf [⟨10, 0⟩, ⟨0, 0⟩, ⟨0, 0⟩, ⟨10, 0⟩] ⟨0, 0⟩,
    mGlyphPositions := bufferOf [⟨0, 0⟩, ⟨10, 0⟩, ⟨0, 0⟩, ⟨0, 0⟩] ⟨0, 0⟩,
    mCharactersToGlyph := bufferOf [0, 1, 2, 3] 0,
    mGlyphsPerCharacter := bufferOf [1, 1, 1, 1] 0,
    mCharactersPerGlyph := bufferOf [1, 1, 1, 1] 0,
    mGlyphsToCharacters := bufferOf [0, 1, 2, 3] 0,
    mLines := bufferOf [⟨⟨0, 2⟩, 15, -5, 0, false⟩, ⟨⟨2, 1⟩, 15, -5, 0, false⟩,
      ⟨⟨3, 1⟩, 15, -5, 0, false⟩] ⟨⟨0, 0⟩, 0, 0, 0, false⟩,
    GetLineOfCharacter := fun character => if character < 2 then 0 else if character < 3 then 1 else 2,
    GetNumberOfLines := fun glyph count =>
      let line : Nat → Nat := fun g => if g < 2 then 0 else if g < 3 then 1 else 2
      (line glyph, line (glyph + count - 1) + 1 - line glyph) }

/-- The text library on the three lines of `gapLayout`. -/
def gapServices : Services :=
  { helloServices with
    GetCursorPosition := fun i =>
      if i ≤ 1 then ⟨⟨10 * i, 0⟩, ⟨0, 0⟩, 0, 20, 20, 0, false⟩
      else if i = 2 then ⟨⟨0, 20⟩, ⟨0, 0⟩, 20, 20, 20, 0, false⟩
      else ⟨⟨10 * (i - 3 : Nat), 40⟩, ⟨0, 0⟩, 40, 20, 20, 0, false⟩,
    CalculateLineOffset := fun line => 20 * line }

/-- Event data in the state `SELECTING`: the whole of the four characters of `gapModel` is
selected. -/
def gapSelectionData : EventData :=
  { newEventData with
    mState := .SELECTING, mLeftSelectionPosition := 0, mRightSelectionPosition := 4 }

/-- A control on the three lines of `gapLayout` with the selection of `gapSelectionData`. -/
def gapSelection : Impl :=
  { editableControl with
    mLogicalModel := gapModel, mVisualModel := gapLayout, services := gapServices,
    mEventData := some gapSelectionData }

/-- The control of `ligatureControl` with the cursor between the two characters of the
ligature. -/
def insideLigatureControl : Impl :=
  { ligatureControl with
    mEventData := some { newEventData with mPrimaryCursorPosition := 1 } }

/-- The control of "hello" once its five characters have been laid out as one paragraph and
a character is being added at the end of the text, which does not end with a new paragraph
character. -/
def appendedToHello : Impl :=
  { editableControl with
    mLogicalModel := { helloModel with mParagraphInfo := bufferOf [⟨⟨0, 5⟩⟩] ⟨⟨0, 0⟩⟩ },
    mTextUpdateInfo :=
      { mCharacterIndex := 5, mNumberOfCharactersToAdd := 1, mPreviousNumberOfCharacters := 5,
        mClearAll := false, mFullRelayoutNeeded := false,
        mIsLastCharacterNewParagraph := false } }

/-- The same update when the last character of the previous text is a new paragraph
character. -/
def appendedAfterNewParagraph : Impl :=
  { appendedToHello with
    mTextUpdateInfo :=
      { appendedToHello.mTextUpdateInfo with mIsLastCharacterNewParagraph := true } }

/-- The control of "hello" with the line break info and the word break info of its five
characters. -/
def brokenIntoWords : Impl :=
  { editableControl with
    mLogicalModel := { helloModel with
      mLineBreakInfo := bufferOf [2, 2, 2, 2, 0] 0,
      mWordBreakInfo := bufferOf [1, 1, 1, 1, 0] 0 } }

/-- Event data in the state `SELECTING` whose right handle stands past the end of "hello":
the selection runs from position 2 to position 7. -/
def overlongSelectionData : EventData :=
  { newEventData with
    mState := .SELECTING, mLeftSelectionPosition := 2, mRightSelectionPosition := 7 }

/-- The control of "hello" with the selection of `overlongSelectionData`. -/
def overlongSelection : Impl :=
  { editableControl with mEventData := some overlongSelectionData }

/-- The control of "hello" while its second and third characters are being replaced: the
update starts at the glyph of the second character. -/
def clearingHello : Impl :=
  { editableControl with
    mTextUpdateInfo :=
      { mCharacterIndex := 1, mNumberOfCharactersToRemove := 2, mPreviousNumberOfCharacters := 5,
        mStartGlyphIndex := 1, mClearAll := false, mFullRelayoutNeeded := false } }

/-- The event data of `twoLineSelectionData` with a cursor 1 wide. -/
def thinCursorSelectionData : EventData :=
  { twoLineSelectionData with mDecorator := { idleDecorator with cursorWidth := 1 } }

/-- A multi-line control 100 wide with a cursor 1 wide, on the two lines of
`twoLineLayout`. -/
def thinCursorMultiLine : Impl :=
  { multiLineControl with mEventData := some thinCursorSelectionData }

/-- A multi-line control 16777220 wide with a cursor 1 wide, whose layout engine places
every cursor on the second line at x = 16777220, the right edge of the control. -/
def wideMultiLineControl : Impl :=
  { multiLineControl with
    mVisualModel := { twoLineLayout with mControlSize := ⟨16777220, 40⟩ },
    services := { twoLineServices with
      GetCursorPosition := fun _ => ⟨⟨16777220, 20⟩, ⟨0, 0⟩, 20, 20, 20, 0, false⟩ },
    mEventData := some thinCursorSelectionData }

/-- The text "abc" followed by the Hebrew letters alef and bet: three characters left to
right, then two right to left. -/
def bidiModel : LogicalModel :=
  { mText := [97, 98, 99, 1488, 1489],
    mCharacterDirections := bufferOf [false, false, false, true, true] false,
    GetScript := fun _ => 0 }

/-- The text of `bidiModel` laid out on two lines, "abc" left to right and the two Hebrew
letters right to left: on the second line the glyph of alef stands at x = 10 and the glyph
of bet at x = 0. -/
def bidiLayout : VisualModel :=
  { twoLineLayout with
    mGlyphPositions := bufferOf [⟨0, 0⟩, ⟨10, 0⟩, ⟨20, 0⟩, ⟨10, 0⟩, ⟨0, 0⟩] ⟨0, 0⟩,
    mLines := bufferOf [⟨⟨0, 3⟩, 15, -5, 0, false⟩, ⟨⟨3, 2⟩, 15, -5, 0, true⟩]
      ⟨⟨0, 0⟩, 0, 0, 0, false⟩ }

/-- A control on the two lines of `bidiLayout` with the selection from "b" (position 1),
where the left handle is, to the position between the Hebrew letters (position 4), where
the right handle is. -/
def bidiSelection : Impl :=
  { twoLineSelection with
    mLogicalModel := bidiModel, mVisualModel := bidiLayout,
    mEventData := some { twoLineSelectionData with
      mLeftSelectionPosition := 1, mRightSelectionPosition := 4 } }

/-- The control of `bidiSelection` with "a" selected (left handle at 0, right handle at 1)
and, in the queue, the left selection handle pressed at (10, 30), which is the position
between the Hebrew letters on the second line. -/
def bidiHandleDragged : Impl :=
  { bidiSelection with
    mEventData := some { twoLineSelectionData with
      mLeftSelectionPosition := 0, mRightSelectionPosition := 1,
      mEventQueue := [⟨.LEFT_SELECTION_HANDLE_EVENT, 1, 10, 30⟩] } }

/-- The control showing "hello" with a cursor 1 wide. -/
def thinCursorControl : Impl :=
  { editableControl with
    mEventData := some { newEventData with mDecorator := { idleDecorator with cursorWidth := 1 } } }

/-- A control 1 wide whose text has been scrolled far to the left. -/
def farScrolled : Impl :=
  { editableControl with
    mVisualModel := { helloLayout with mControlSize := ⟨1, 20⟩ },
    mScrollPosition := ⟨-1000000000, 0⟩ }

/-- A content 16777220 wide and 20 high, a long line of text. -/
def hugeContent : Size := ⟨16777220, 20⟩

/-- A content of 150 by 30, larger than the control of `helloLayout`. -/
def wideContent : Size := ⟨150, 30⟩

/-- The grab handle is shown: `editableControl` after `ChangeState( EDITING_WITH_GRAB_HANDLE )`. -/
def grabHandleShown : Impl :=
  ChangeState .EDITING_WITH_GRAB_HANDLE editableControl

end Text

/-! # Properties of the visual registry -/

namespace Control

/-! ## Searching and erasing -/

theorem FindVisual_some {i : Int} {l : RegisteredVisualContainer} {it : Iterator}
    (h : FindVisual i l = some it) : it.2.index = i ∧ l[it.1]? = some it.2 := by
  induction l generalizing it with
  | nil => simp [FindVisual] at h
  | cons rv rest ih =>
    unfold FindVisual at h
    split at h
    · cases h
      simp [*]
    · cases hr : FindVisual i rest with
      | none => simp [hr] at h
      | some found =>
        simp only [hr, Option.map_some', Option.some.injEq] at h
        subst h
        simpa using ih hr

theorem FindObject_some {object : VisualId} {l : RegisteredVisualContainer} {it : Iterator}
    (h : FindObject object l = some it) : it.2.visual = object ∧ l[it.1]? = some it.2 := by
  induction l generalizing it with
  | nil => simp [FindObject] at h
  | cons rv rest ih =>
    unfold FindObject at h
    split at h
    · cases h
      simp [*]
    · cases hr : FindObject object rest with
      | none => simp [hr] at h
      | some found =>
        simp only [hr, Option.map_some', Option.some.injEq] at h
        subst h
        simpa using ih hr

theorem FindVisual_none_iff (i : Int) (l : RegisteredVisualContainer) :
    FindVisual i l = none ↔ countIndex i l = 0 := by
  induction l with
  | nil => simp [FindVisual, countIndex]
  | cons rv rest ih =>
    unfold FindVisual
    by_cases hrv : rv.index = i
    · simp [hrv, countIndex]
    · simp only [hrv, if_false, Option.map_eq_none', ih]
      simp [countIndex, List.countP_cons, hrv]

theorem countIndex_append (i : Int) (l m : RegisteredVisualContainer) :
    countIndex i (l ++ m) = countIndex i l + countIndex i m := by
  simp [countIndex, List.countP_append]

theorem countIndex_singleton (i : Int) (rv : RegisteredVisual) :
    countIndex i [rv] = if rv.index = i then 1 else 0 := by
  by_cases h : rv.index = i <;> simp [countIndex, List.countP_cons, h]

theorem countIndex_erase_found {i : Int} {l : RegisteredVisualContainer} {it : Iterator}
    (h : FindVisual i l = some it) (j : Int) :
    countIndex j (l.eraseIdx it.1) = if j = i then countIndex i l - 1 else countIndex j l := by
  induction l generalizing it with
  | nil => simp [FindVisual] at h
  | cons rv rest ih =>
    unfold FindVisual at h
    by_cases hrv : rv.index = i
    · simp only [hrv, if_true, Option.some.injEq] at h
      subst h
      by_cases hj : j = i
      · subst hj
        simp [countIndex, List.countP_cons, hrv]
      · have : ¬ rv.index = j := fun e => hj (by rw [← e, hrv])
        simp [countIndex, List.countP_cons, hj, this]
    · simp only [hrv, if_false] at h
      cases hr : FindVisual i rest with
      | none => simp [hr] at h
      | some found =>
        simp only [hr, Option.map_some', Option.some.injEq] at h
        subst h
        have hrec := ih hr
        by_cases hj : j = i
        · subst hj
          have hpos : countIndex j rest ≠ 0 := by
            intro hz
            rw [← FindVisual_none_iff] at hz
            simp [hz] at hr
          simp only [if_true] at hrec
          simp only [List.eraseIdx_cons_succ, if_true]
          simp only [countIndex, List.countP_cons, hrv, decide_False] at hrec hpos ⊢
          simp only [Bool.false_eq_true, if_false, Nat.add_zero]
          exact hrec
        · simp only [hj, if_false] at hrec
          simp only [List.eraseIdx_cons_succ, hj, if_false]
          simp only [countIndex, List.countP_cons] at hrec ⊢
          rw [hrec]

theorem countIndex_set_same {l : RegisteredVisualContainer} {p : Nat} {old new : RegisteredVisual}
    (hp : l[p]? = some old) (hidx : new.index = old.index) (j : Int) :
    countIndex j (l.set p new) = countIndex j l := by
  induction l generalizing p with
  | nil => simp
  | cons rv rest ih =>
    cases p with
    | zero =>
      simp only [List.getElem?_cons_zero, Option.some.injEq] at hp
      subst hp
      simp [countIndex, List.countP_cons, hidx]
    | succ q =>
      simp only [List.getElem?_cons_succ] at hp
      have := ih hp
      simp only [countIndex, List.set_cons_succ, List.countP_cons] at this ⊢
      rw [this]

/-! ## Frame properties of the operations on a visual object -/

@[simp] theorem updateVisual_mVisuals (v : VisualId) (f : VisualBase → VisualBase) (s : Impl) :
    (updateVisual v f s).mVisuals = s.mVisuals := rfl

@[simp] theorem updateVisual_mRemoveVisuals (v : VisualId) (f : VisualBase → VisualBase) (s : Impl) :
    (updateVisual v f s).mRemoveVisuals = s.mRemoveVisuals := rfl

@[simp] theorem updateVisual_connectedToScene (v : VisualId) (f : VisualBase → VisualBase) (s : Impl) :
    (updateVisual v f s).connectedToScene = s.connectedToScene := rfl

@[simp] theorem updateVisual_resourceReadySignals (v : VisualId) (f : VisualBase → VisualBase) (s : Impl) :
    (updateVisual v f s).resourceReadySignals = s.resourceReadySignals := rfl

@[simp] theorem updateVisual_mIsEmitting (v : VisualId) (f : VisualBase → VisualBase) (s : Impl) :
    (updateVisual v f s).mIsEmittingResourceReadySignal = s.mIsEmittingResourceReadySignal := rfl

@[simp] theorem updateVisual_visuals (v : VisualId) (f : VisualBase → VisualBase) (s : Impl)
    (k : VisualId) :
    (updateVisual v f s).visuals k = if k = v then f (s.visuals k) else s.visuals k := rfl

@[simp] theorem RelayoutRequestIfConnected_mVisuals (s : Impl) :
    (RelayoutRequestIfConnected s).mVisuals = s.mVisuals := by
  unfold RelayoutRequestIfConnected
  split <;> rfl

@[simp] theorem RelayoutRequestIfConnected_mRemoveVisuals (s : Impl) :
    (RelayoutRequestIfConnected s).mRemoveVisuals = s.mRemoveVisuals := by
  unfold RelayoutRequestIfConnected
  split <;> rfl

@[simp] theorem RelayoutRequestIfConnected_visuals (s : Impl) :
    (RelayoutRequestIfConnected s).visuals = s.visuals := by
  unfold RelayoutRequestIfConnected
  split <;> rfl

@[simp] theorem RelayoutRequestIfConnected_resourceReadySignals (s : Impl) :
    (RelayoutRequestIfConnected s).resourceReadySignals = s.resourceReadySignals := by
  unfold RelayoutRequestIfConnected
  split <;> rfl

@[simp] theorem RelayoutRequestIfConnected_mIsEmitting (s : Impl) :
    (RelayoutRequestIfConnected s).mIsEmittingResourceReadySignal
      = s.mIsEmittingResourceReadySignal := by
  unfold RelayoutRequestIfConnected
  split <;> rfl

/-! ## The uniqueness invariant -/

theorem RegistryInv_of_containers {I : List Int} {s t : Impl} (hv : t.mVisuals = s.mVisuals)
    (hr : t.mRemoveVisuals = s.mRemoveVisuals) (h : RegistryInv I s) : RegistryInv I t := by
  unfold RegistryInv at h ⊢
  rw [hv, hr]
  exact h

theorem RegistryInv_tail {i : Int} {I : List Int} {s : Impl} (h : RegistryInv (i :: I) s) :
    RegistryInv I s :=
  ⟨h.1, h.2.1, fun k hk => h.2.2 k (List.mem_cons_of_mem i hk)⟩

theorem swapReadyVisual_of_not_found {object : VisualId} {s : Impl}
    (h : FindObject object s.mVisuals = none) : swapReadyVisual object s = s := by
  simp only [swapReadyVisual, h]

theorem swapReadyVisual_of_no_removal {object : VisualId} {s : Impl} {registeredIter : Iterator}
    (h : FindObject object s.mVisuals = some registeredIter)
    (hrem : FindVisual registeredIter.2.index s.mRemoveVisuals = none) :
    swapReadyVisual object s = s := by
  simp only [swapReadyVisual, h, hrem]

theorem swapReadyVisual_of_removal {object : VisualId} {s : Impl}
    {registeredIter visualToRemoveIter : Iterator}
    (h : FindObject object s.mVisuals = some registeredIter)
    (hrem : FindVisual registeredIter.2.index s.mRemoveVisuals = some visualToRemoveIter) :
    swapReadyVisual object s =
      { SetOffScene visualToRemoveIter.2.visual s with
        mVisuals := s.mVisuals.set registeredIter.1 { (registeredIter.2) with pending := false }
        mRemoveVisuals := s.mRemoveVisuals.eraseIdx visualToRemoveIter.1 } := by
  simp only [swapReadyVisual, h, hrem]
  rfl

theorem swapReadyVisual_countIndex_mVisuals (object : VisualId) (s : Impl) (j : Int) :
    countIndex j (swapReadyVisual object s).mVisuals = countIndex j s.mVisuals := by
  cases hobj : FindObject object s.mVisuals with
  | none => rw [swapReadyVisual_of_not_found hobj]
  | some registeredIter =>
    cases hrem : FindVisual registeredIter.2.index s.mRemoveVisuals with
    | none => rw [swapReadyVisual_of_no_removal hobj hrem]
    | some visualToRemoveIter =>
      rw [swapReadyVisual_of_removal hobj hrem]
      exact countIndex_set_same (FindObject_some hobj).2
        (show ({ (registeredIter.2) with pending := false } : RegisteredVisual).index
          = registeredIter.2.index from rfl) j

theorem swapReadyVisual_countIndex_mRemoveVisuals (object : VisualId) (s : Impl) (j : Int) :
    countIndex j (swapReadyVisual object s).mRemoveVisuals ≤ countIndex j s.mRemoveVisuals := by
  cases hobj : FindObject object s.mVisuals with
  | none => rw [swapReadyVisual_of_not_found hobj]
  | some registeredIter =>
    cases hrem : FindVisual registeredIter.2.index s.mRemoveVisuals with
    | none => rw [swapReadyVisual_of_no_removal hobj hrem]
    | some visualToRemoveIter =>
      rw [swapReadyVisual_of_removal hobj hrem]
      show countIndex j (s.mRemoveVisuals.eraseIdx visualToRemoveIter.1) ≤ _
      rw [countIndex_erase_found hrem j]
      split
      · rename_i hj
        subst hj
        exact Nat.sub_le _ _
      · exact Nat.le_refl _

theorem swapReadyVisual_inv {I : List Int} {s : Impl} (object : VisualId)
    (h : RegistryInv I s) : RegistryInv I (swapReadyVisual object s) := by
  refine ⟨fun j => ?_, fun j => ?_, fun i hi => ?_⟩
  · rw [swapReadyVisual_countIndex_mVisuals]
    exact h.1 j
  · exact Nat.le_trans (swapReadyVisual_countIndex_mRemoveVisuals object s j) (h.2.1 j)
  · rw [swapReadyVisual_countIndex_mVisuals]
    exact h.2.2 i hi

theorem EmitResourceReadySignal_inv {I : List Int} {slots : Impl → Impl} {s : Impl}
    (hslots : ∀ t, RegistryInv I t → RegistryInv I (slots t)) (h : RegistryInv I s) :
    RegistryInv I (EmitResourceReadySignal slots s) := by
  unfold EmitResourceReadySignal
  split
  · have hs := hslots { s with mIsEmittingResourceReadySignal := true,
                               resourceReadySignals := s.resourceReadySignals + 1 }
      (RegistryInv_of_containers rfl rfl h)
    refine RegistryInv_of_containers ?_ ?_ hs
    · dsimp only
      split <;> [split; skip] <;> rfl
    · dsimp only
      split <;> [split; skip] <;> rfl
  · exact RegistryInv_of_containers rfl rfl h

theorem ResourceReady_inv {I : List Int} {slots : Impl → Impl} {s : Impl} (object : VisualId)
    (hslots : ∀ t, RegistryInv I t → RegistryInv I (slots t)) (h : RegistryInv I s) :
    RegistryInv I (ResourceReady slots object s) := by
  have h1 := swapReadyVisual_inv object h
  have h2 : RegistryInv I (RelayoutRequestIfConnected (swapReadyVisual object s)) :=
    RegistryInv_of_containers (RelayoutRequestIfConnected_mVisuals _)
      (RelayoutRequestIfConnected_mRemoveVisuals _) h1
  unfold ResourceReady
  dsimp only
  split
  · exact EmitResourceReadySignal_inv hslots (RegistryInv_of_containers rfl rfl h2)
  · exact h2

theorem replaceCurrent_mVisuals (index : Int) (enabled : Bool) (it : Iterator) (s : Impl) :
    (replaceCurrent index enabled it s).mVisuals = s.mVisuals.eraseIdx it.1 := by
  unfold replaceCurrent
  dsimp only
  split
  · split <;> rfl
  · rfl

theorem replaceCurrent_mRemoveVisuals (index : Int) (enabled : Bool) (it : Iterator) (s : Impl) :
    (replaceCurrent index enabled it s).mRemoveVisuals =
      if (s.connectedToScene && enabled) = true ∧ FindVisual index s.mRemoveVisuals = none
      then s.mRemoveVisuals ++ [it.2] else s.mRemoveVisuals := by
  unfold replaceCurrent
  dsimp only
  by_cases hc : (s.connectedToScene && enabled) = true
  · have hc1 : ((StopObservingVisual it.2.visual s).connectedToScene && enabled) = true := hc
    rw [if_pos hc1]
    cases hrem : FindVisual index s.mRemoveVisuals with
    | none =>
      have hrem1 : FindVisual index (StopObservingVisual it.2.visual s).mRemoveVisuals = none := hrem
      simp only [hrem1, hc, and_self, if_true]
      rfl
    | some found =>
      have hrem1 : FindVisual index (StopObservingVisual it.2.visual s).mRemoveVisuals
          = some found := hrem
      simp only [hrem1, hc, true_and, if_false]
      rfl
  · have hc1 : ¬ ((StopObservingVisual it.2.visual s).connectedToScene && enabled) = true := hc
    rw [if_neg hc1, if_neg (fun h => hc h.1)]
    rfl

theorem pushNewVisual_mVisuals (index : Int) (visual : VisualId) (enabled set : Bool)
    (depth : Int) (s : Impl) :
    (pushNewVisual index visual enabled set depth s).mVisuals =
      (match FindVisual index s.mVisuals with
        | some it => s.mVisuals.eraseIdx it.1
        | none => s.mVisuals)
      ++ [⟨index, visual, enabled, (FindVisual index s.mVisuals).isSome && enabled⟩] := by
  unfold pushNewVisual
  cases hf : FindVisual index s.mVisuals with
  | none => rfl
  | some it =>
    simp only [StartObservingVisual, SetDepthIndex, SetNameFromProperty, updateVisual_mVisuals,
      replaceCurrent_mVisuals]

theorem pushNewVisual_mRemoveVisuals (index : Int) (visual : VisualId) (enabled set : Bool)
    (depth : Int) (s : Impl) :
    (pushNewVisual index visual enabled set depth s).mRemoveVisuals =
      match FindVisual index s.mVisuals with
      | some it =>
        if (s.connectedToScene && enabled) = true ∧ FindVisual index s.mRemoveVisuals = none
        then s.mRemoveVisuals ++ [it.2] else s.mRemoveVisuals
      | none => s.mRemoveVisuals := by
  unfold pushNewVisual
  cases hf : FindVisual index s.mVisuals with
  | none => rfl
  | some it =>
    simp only [StartObservingVisual, SetDepthIndex, SetNameFromProperty,
      updateVisual_mRemoveVisuals, replaceCurrent_mRemoveVisuals]

theorem pushNewVisual_inv {I : List Int} {s : Impl} (index : Int) (visual : VisualId)
    (enabled set : Bool) (depth : Int) (h : RegistryInv I s) :
    RegistryInv (index :: I) (pushNewVisual index visual enabled set depth s) := by
  have hcount : ∀ j, countIndex j (pushNewVisual index visual enabled set depth s).mVisuals =
      if j = index then 1 else countIndex j s.mVisuals := by
    intro j
    rw [pushNewVisual_mVisuals, countIndex_append, countIndex_singleton]
    cases hf : FindVisual index s.mVisuals with
    | none =>
      have hz := (FindVisual_none_iff index s.mVisuals).1 hf
      by_cases hj : j = index
      · subst hj
        simp [hz]
      · have hj2 : ¬ index = j := fun e => hj e.symm
        simp [hj, hj2]
    | some it =>
      dsimp only
      rw [countIndex_erase_found hf j]
      by_cases hj : j = index
      · subst hj
        have := h.1 j
        simp only [if_true]
        omega
      · have hj2 : ¬ index = j := fun e => hj e.symm
        simp [hj, hj2]
  refine ⟨fun j => ?_, fun j => ?_, fun i hi => ?_⟩
  · rw [hcount]
    split
    · exact Nat.le_refl 1
    · exact h.1 j
  · rw [pushNewVisual_mRemoveVisuals]
    cases hf : FindVisual index s.mVisuals with
    | none => exact h.2.1 j
    | some it =>
      dsimp only
      split
      · rename_i hc
        rw [countIndex_append, countIndex_singleton, (FindVisual_some hf).1]
        by_cases hj : index = j
        · subst hj
          rw [(FindVisual_none_iff index s.mRemoveVisuals).1 hc.2]
          simp
        · simp only [hj, if_false, Nat.add_zero]
          exact h.2.1 j
      · exact h.2.1 j
  · rw [hcount]
    split
    · rfl
    · rcases List.mem_cons.1 hi with hi | hi
      · contradiction
      · exact h.2.2 i hi

theorem RegisterVisual_inv {I : List Int} {slots : Impl → Impl} {s : Impl} (index : Int)
    (visual : VisualId) (enabled set : Bool) (depth : Int)
    (hslots : ∀ t, RegistryInv (index :: I) t → RegistryInv (index :: I) (slots t))
    (h : RegistryInv I s) :
    RegistryInv (index :: I) (RegisterVisual slots index visual enabled set depth s) := by
  have h5 := pushNewVisual_inv index visual enabled set depth h
  unfold RegisterVisual
  dsimp only
  split
  · exact RegistryInv_of_containers rfl rfl h5
  · split
    · exact ResourceReady_inv visual hslots h5
    · exact h5

theorem registerWith_inv {I : List Int} {slots : Impl → Impl} {s : Impl} (a : RegisterArgs)
    (hslots : ∀ t, RegistryInv (a.index :: I) t → RegistryInv (a.index :: I) (slots t))
    (h : RegistryInv I s) : RegistryInv (a.index :: I) (registerWith slots a s) := by
  unfold registerWith
  exact RegisterVisual_inv a.index a.visual a.enabled a.depthIndexValueSet a.depthIndex hslots
    (RegistryInv_of_containers rfl rfl h)

theorem reentrantSlots_inv {I : List Int} (nested : List RegisterArgs) (s : Impl)
    (h : RegistryInv I s) : RegistryInv I (reentrantSlots nested s) := by
  unfold reentrantSlots
  induction nested generalizing s with
  | nil => exact h
  | cons a rest ih =>
    rw [List.foldl_cons]
    exact ih _ (RegistryInv_tail (registerWith_inv a (fun t ht => ht) h))

theorem registerAll_inv (calls : List RegisterCall) {I : List Int} {s : Impl}
    (h : RegistryInv I s) :
    RegistryInv ((calls.map (fun c => c.args.index)).reverse ++ I) (registerAll calls s) := by
  unfold registerAll
  induction calls generalizing I s with
  | nil => simpa using h
  | cons c rest ih =>
    rw [List.foldl_cons]
    have hstep := registerWith_inv c.args (fun t ht => reentrantSlots_inv c.nested t ht) h
    have := ih hstep
    simpa [List.map_cons, List.reverse_cons, List.append_assoc] using this

/-! ## Uniqueness of the registered index -/

/-- C1. Starting from an empty registry, after any sequence of `RegisterVisual` calls
(any indices and visuals, enabled or disabled, with or without a depth index, control on
or off scene at each call, the slots of the resource-ready signal registering further
visuals in turn), every index that has been registered has exactly one entry in
`mVisuals` and at most one entry in `mRemoveVisuals`; and no index at all has more than
one entry in either container. -/
theorem RegisterVisual_one_visual_per_index (s : Impl) (calls : List RegisterCall) (i : Int)
    (hv : s.mVisuals = []) (hr : s.mRemoveVisuals = [])
    (hi : i ∈ calls.map (fun c => c.args.index)) :
    countIndex i (registerAll calls s).mVisuals = 1 ∧
    countIndex i (registerAll calls s).mRemoveVisuals ≤ 1 ∧
    ∀ j, countIndex j (registerAll calls s).mVisuals ≤ 1 ∧
         countIndex j (registerAll calls s).mRemoveVisuals ≤ 1 := by
  have h0 : RegistryInv [] s := by
    refine ⟨fun j => ?_, fun j => ?_, fun k hk => ?_⟩
    · simp [hv, countIndex]
    · simp [hr, countIndex]
    · cases hk
  have h := registerAll_inv calls h0
  refine ⟨h.2.2 i ?_, h.2.1 i, fun j => ⟨h.1 j, h.2.1 j⟩⟩
  simpa using hi

/-- The scenario of the specification satisfies the hypotheses of C1: visual 0 then visual 1
registered at index 1 of an empty control on scene. -/
theorem RegisterVisual_one_visual_per_index_witness :
    (emptyControl true onlyFirstReady).mVisuals = [] ∧
    (emptyControl true onlyFirstReady).mRemoveVisuals = [] ∧
    (1 : Int) ∈ replaceOnScene.map (fun c => c.args.index) ∧
    (countIndex 1 (registerAll replaceOnScene (emptyControl true onlyFirstReady)).mVisuals = 1 ∧
     countIndex 1 (registerAll replaceOnScene (emptyControl true onlyFirstReady)).mRemoveVisuals ≤ 1 ∧
     ∀ j, countIndex j (registerAll replaceOnScene (emptyControl true onlyFirstReady)).mVisuals ≤ 1 ∧
          countIndex j (registerAll replaceOnScene (emptyControl true onlyFirstReady)).mRemoveVisuals
            ≤ 1) :=
  ⟨rfl, rfl, by decide,
    RegisterVisual_one_visual_per_index (emptyControl true onlyFirstReady) replaceOnScene 1
      rfl rfl (by decide)⟩

/-! ## Replacement of a registered visual -/

theorem entriesAt_append (i : Int) (l m : RegisteredVisualContainer) :
    entriesAt i (l ++ m) = entriesAt i l ++ entriesAt i m := by
  simp [entriesAt]

theorem entriesAt_singleton (i : Int) (rv : RegisteredVisual) :
    entriesAt i [rv] = if rv.index = i then [rv] else [] := by
  by_cases h : rv.index = i <;> simp [entriesAt, h]

theorem FindVisual_of_entriesAt {i : Int} {l : RegisteredVisualContainer}
    {A : RegisteredVisual} {rest : RegisteredVisualContainer}
    (h : entriesAt i l = A :: rest) : ∃ p, FindVisual i l = some (p, A) := by
  induction l with
  | nil => simp [entriesAt] at h
  | cons rv tl ih =>
    unfold FindVisual
    by_cases hrv : rv.index = i
    · simp only [entriesAt, List.filter_cons, hrv, decide_True, if_true, List.cons.injEq] at h
      exact ⟨0, by rw [if_pos hrv, h.1]⟩
    · simp only [entriesAt, List.filter_cons, hrv, decide_False, Bool.false_eq_true,
        if_false] at h
      obtain ⟨p, hp⟩ := ih h
      exact ⟨p + 1, by simp [hrv, hp]⟩

theorem FindVisual_none_of_forall {i : Int} {l : RegisteredVisualContainer}
    (h : ∀ rv ∈ l, rv.index ≠ i) : FindVisual i l = none := by
  rw [FindVisual_none_iff, countIndex, List.countP_eq_zero]
  intro rv hrv
  simpa using h rv hrv

theorem entriesAt_erase_found {i : Int} {l : RegisteredVisualContainer} {it : Iterator}
    (h : FindVisual i l = some it) (j : Int) :
    entriesAt j (l.eraseIdx it.1) = if j = i then (entriesAt i l).tail else entriesAt j l := by
  induction l generalizing it with
  | nil => simp [FindVisual] at h
  | cons rv rest ih =>
    unfold FindVisual at h
    by_cases hrv : rv.index = i
    · simp only [hrv, if_true, Option.some.injEq] at h
      subst h
      by_cases hj : j = i
      · subst hj
        simp [entriesAt, hrv]
      · have : ¬ rv.index = j := fun e => hj (by rw [← e, hrv])
        simp [entriesAt, hj, this]
    · simp only [hrv, if_false] at h
      cases hr : FindVisual i rest with
      | none => simp [hr] at h
      | some found =>
        simp only [hr, Option.map_some', Option.some.injEq] at h
        subst h
        have hrec := ih hr
        by_cases hj : j = i
        · subst hj
          simp only [if_true] at hrec
          simp only [List.eraseIdx_cons_succ, if_true]
          simp only [entriesAt, List.filter_cons, hrv, decide_False, Bool.false_eq_true,
            if_false] at hrec ⊢
          exact hrec
        · simp only [hj, if_false] at hrec
          simp only [List.eraseIdx_cons_succ, hj, if_false]
          simp only [entriesAt, List.filter_cons] at hrec ⊢
          rw [hrec]

theorem replaceCurrent_onScene (index : Int) (enabled : Bool) (it : Iterator) (s : Impl)
    (v : VisualId) :
    ((replaceCurrent index enabled it s).visuals v).onScene =
      if (s.connectedToScene && enabled) = true ∧ (FindVisual index s.mRemoveVisuals).isSome = true
          ∧ v = it.2.visual
      then false else (s.visuals v).onScene := by
  unfold replaceCurrent
  dsimp only
  by_cases hc : (s.connectedToScene && enabled) = true
  · have hc1 : ((StopObservingVisual it.2.visual s).connectedToScene && enabled) = true := hc
    rw [if_pos hc1]
    cases hrem : FindVisual index s.mRemoveVisuals with
    | none =>
      have hrem1 : FindVisual index (StopObservingVisual it.2.visual s).mRemoveVisuals = none := hrem
      simp only [hrem1, hc, Option.isSome_none, Bool.false_eq_true, false_and, and_false, if_false]
      simp only [StopObservingVisual, updateVisual_visuals]
      split <;> rfl
    | some found =>
      have hrem1 : FindVisual index (StopObservingVisual it.2.visual s).mRemoveVisuals
          = some found := hrem
      simp only [hrem1, hc, Option.isSome_some, true_and]
      simp only [SetOffScene, StopObservingVisual, updateVisual_visuals]
      split <;> rfl
  · have hc1 : ¬ ((StopObservingVisual it.2.visual s).connectedToScene && enabled) = true := hc
    rw [if_neg hc1, if_neg (fun h => hc h.1)]
    simp only [StopObservingVisual, updateVisual_visuals]
    split <;> rfl

theorem pushNewVisual_onScene (index : Int) (visual : VisualId) (enabled set : Bool)
    (depth : Int) (s : Impl) (v : VisualId) :
    ((pushNewVisual index visual enabled set depth s).visuals v).onScene =
      match FindVisual index s.mVisuals with
      | some it => ((replaceCurrent index enabled it s).visuals v).onScene
      | none => (s.visuals v).onScene := by
  unfold pushNewVisual
  cases hf : FindVisual index s.mVisuals with
  | none =>
    simp only [StartObservingVisual, SetDepthIndex, SetNameFromProperty, updateVisual_visuals]
    split <;> rfl
  | some it =>
    simp only [StartObservingVisual, SetDepthIndex, SetNameFromProperty, updateVisual_visuals]
    split <;> rfl

theorem pushNewVisual_connectedToScene (index : Int) (visual : VisualId) (enabled set : Bool)
    (depth : Int) (s : Impl) :
    (pushNewVisual index visual enabled set depth s).connectedToScene = s.connectedToScene := by
  unfold pushNewVisual
  cases hf : FindVisual index s.mVisuals with
  | none => rfl
  | some it =>
    simp only [StartObservingVisual, SetDepthIndex, SetNameFromProperty,
      updateVisual_connectedToScene]
    unfold replaceCurrent
    dsimp only
    split
    · split <;> rfl
    · rfl

theorem RegisterVisual_on_scene_enabled (slots : Impl → Impl) (index : Int) (visual : VisualId)
    (set : Bool) (depth : Int) (s : Impl) (hscene : s.connectedToScene = true) :
    RegisterVisual slots index visual true set depth s =
      SetOnScene visual (pushNewVisual index visual true set depth s) := by
  unfold RegisterVisual
  simp only [pushNewVisual_connectedToScene, hscene, Bool.and_self, if_true]

theorem FindVisual_isSome_of_exists {i : Int} {l : RegisteredVisualContainer}
    (h : ∃ rv ∈ l, rv.index = i) : (FindVisual i l).isSome = true := by
  cases hf : FindVisual i l with
  | some it => rfl
  | none =>
    exfalso
    rw [FindVisual_none_iff, countIndex, List.countP_eq_zero] at hf
    obtain ⟨rv, hrv, hidx⟩ := h
    have := hf rv hrv
    simp [hidx] at this

/-- C2. No visible gap on replacement: when the control is on scene, `A` is the visual
registered at index `i`, no entry of `mRemoveVisuals` has index `i`, and an enabled
visual `b` that is not ready yet is registered at `i`, then afterwards `A` has not been
set off scene (if it was on scene it still is), the entry of `A` is in `mRemoveVisuals`,
and the only entry of `mVisuals` at `i` is the new one, holding `b`, enabled and
pending. -/
theorem RegisterVisual_no_gap_on_replacement (slots : Impl → Impl) (s : Impl) (i : Int)
    (A : RegisteredVisual) (b : VisualId) (set : Bool) (depth : Int)
    (hscene : s.connectedToScene = true)
    (hA : entriesAt i s.mVisuals = [A])
    (hnone : ∀ rv ∈ s.mRemoveVisuals, rv.index ≠ i)
    (hB : (s.visuals b).resourceReady = false) :
    ((s.visuals A.visual).onScene = true →
      ((RegisterVisual slots i b true set depth s).visuals A.visual).onScene = true) ∧
    A ∈ (RegisterVisual slots i b true set depth s).mRemoveVisuals ∧
    entriesAt i (RegisterVisual slots i b true set depth s).mVisuals = [⟨i, b, true, true⟩] := by
  have _ := hB
  obtain ⟨p, hp⟩ := FindVisual_of_entriesAt hA
  have hrem := FindVisual_none_of_forall hnone
  rw [RegisterVisual_on_scene_enabled slots i b set depth s hscene]
  refine ⟨fun hon => ?_, ?_, ?_⟩
  · simp only [SetOnScene, updateVisual_visuals]
    split
    · rfl
    · rw [pushNewVisual_onScene, hp]
      dsimp only
      rw [replaceCurrent_onScene, hrem]
      simpa using hon
  · simp only [SetOnScene, updateVisual_mRemoveVisuals]
    rw [pushNewVisual_mRemoveVisuals, hp]
    simp [hscene, hrem]
  · simp only [SetOnScene, updateVisual_mVisuals]
    rw [pushNewVisual_mVisuals, hp]
    dsimp only
    rw [entriesAt_append, entriesAt_erase_found hp i, hA, entriesAt_singleton]
    simp

/-- The hypotheses of C2 hold when visual 0 is on scene at index 1 and visual 1, still
loading, is registered there. -/
theorem RegisterVisual_no_gap_on_replacement_witness :
    oneOnScene.connectedToScene = true ∧
    entriesAt 1 oneOnScene.mVisuals = [⟨1, 0, true, false⟩] ∧
    (∀ rv ∈ oneOnScene.mRemoveVisuals, rv.index ≠ 1) ∧
    (oneOnScene.visuals 1).resourceReady = false ∧
    (oneOnScene.visuals 0).onScene = true ∧
    (((oneOnScene.visuals 0).onScene = true →
      ((RegisterVisual id 1 1 true false 0 oneOnScene).visuals 0).onScene = true) ∧
     (⟨1, 0, true, false⟩ : RegisteredVisual) ∈
       (RegisterVisual id 1 1 true false 0 oneOnScene).mRemoveVisuals ∧
     entriesAt 1 (RegisterVisual id 1 1 true false 0 oneOnScene).mVisuals
       = [⟨1, 1, true, true⟩]) :=
  ⟨rfl, by decide, by decide, rfl, rfl,
    RegisterVisual_no_gap_on_replacement id oneOnScene 1 ⟨1, 0, true, false⟩ 1 false 0
      rfl (by decide) (by decide) rfl⟩

/-- C5. Latest request wins: when an enabled visual `c` is registered at index `i` on an
on-scene control while `mRemoveVisuals` already holds an entry for `i` (so the visual `B`
registered at `i` is itself a replacement that has not been swapped in yet), `B` is set
off scene and erased at once, `mRemoveVisuals` is left as it is, and the only entry of
`mVisuals` at `i` is the new one, holding `c`, which is put on scene. -/
theorem RegisterVisual_latest_request_wins (slots : Impl → Impl) (s : Impl) (i : Int)
    (B : RegisteredVisual) (c : VisualId) (set : Bool) (depth : Int)
    (hscene : s.connectedToScene = true)
    (hB : entriesAt i s.mVisuals = [B])
    (hpending : ∃ rv ∈ s.mRemoveVisuals, rv.index = i) :
    (c ≠ B.visual → ((RegisterVisual slots i c true set depth s).visuals B.visual).onScene = false) ∧
    (RegisterVisual slots i c true set depth s).mRemoveVisuals = s.mRemoveVisuals ∧
    entriesAt i (RegisterVisual slots i c true set depth s).mVisuals = [⟨i, c, true, true⟩] ∧
    ((RegisterVisual slots i c true set depth s).visuals c).onScene = true := by
  obtain ⟨p, hp⟩ := FindVisual_of_entriesAt hB
  have hrem := FindVisual_isSome_of_exists hpending
  rw [RegisterVisual_on_scene_enabled slots i c set depth s hscene]
  refine ⟨fun hne => ?_, ?_, ?_, ?_⟩
  · simp only [SetOnScene, updateVisual_visuals]
    rw [if_neg (fun e => hne e.symm), pushNewVisual_onScene, hp]
    dsimp only
    rw [replaceCurrent_onScene, hrem]
    simp [hscene]
  · simp only [SetOnScene, updateVisual_mRemoveVisuals]
    rw [pushNewVisual_mRemoveVisuals, hp]
    dsimp only
    rw [if_neg]
    intro h
    rw [h.2] at hrem
    cases hrem
  · simp only [SetOnScene, updateVisual_mVisuals]
    rw [pushNewVisual_mVisuals, hp]
    dsimp only
    rw [entriesAt_append, entriesAt_erase_found hp i, hB, entriesAt_singleton]
    simp
  · simp [SetOnScene]

/-- The hypotheses of C5 hold when visual 0 waits for removal at index 1, visual 1 is its
replacement and visual 2 is registered there. -/
theorem RegisterVisual_latest_request_wins_witness :
    replacementPending.connectedToScene = true ∧
    entriesAt 1 replacementPending.mVisuals = [⟨1, 1, true, true⟩] ∧
    (∃ rv ∈ replacementPending.mRemoveVisuals, rv.index = 1) ∧
    (((2 : VisualId) ≠ 1 →
      ((RegisterVisual id 1 2 true false 0 replacementPending).visuals 1).onScene = false) ∧
     (RegisterVisual id 1 2 true false 0 replacementPending).mRemoveVisuals
       = replacementPending.mRemoveVisuals ∧
     entriesAt 1 (RegisterVisual id 1 2 true false 0 replacementPending).mVisuals
       = [⟨1, 2, true, true⟩] ∧
     ((RegisterVisual id 1 2 true false 0 replacementPending).visuals 2).onScene = true) :=
  ⟨rfl, by decide, ⟨⟨1, 0, true, false⟩, by decide, rfl⟩,
    RegisterVisual_latest_request_wins id replacementPending 1 ⟨1, 1, true, true⟩ 2 false 0
      rfl (by decide) ⟨⟨1, 0, true, false⟩, by decide, rfl⟩⟩

/-! ## Readiness of a visual -/

/-- The state in which the slots run: the guard flag is set and the emission counted. -/
theorem EmitResourceReadySignal_dispatch (slots : Impl → Impl) (s : Impl)
    (h : s.mIsEmittingResourceReadySignal = false) :
    (EmitResourceReadySignal slots s).mVisuals
      = (slots { s with mIsEmittingResourceReadySignal := true,
                        resourceReadySignals := s.resourceReadySignals + 1 }).mVisuals ∧
    (EmitResourceReadySignal slots s).mRemoveVisuals
      = (slots { s with mIsEmittingResourceReadySignal := true,
                        resourceReadySignals := s.resourceReadySignals + 1 }).mRemoveVisuals ∧
    (EmitResourceReadySignal slots s).visuals
      = (slots { s with mIsEmittingResourceReadySignal := true,
                        resourceReadySignals := s.resourceReadySignals + 1 }).visuals ∧
    (EmitResourceReadySignal slots s).resourceReadySignals
      = (slots { s with mIsEmittingResourceReadySignal := true,
                        resourceReadySignals := s.resourceReadySignals + 1 }).resourceReadySignals := by
  unfold EmitResourceReadySignal
  rw [if_pos (by simp [h])]
  dsimp only
  refine ⟨?_, ?_, ?_, ?_⟩ <;> (split <;> [split; skip] <;> rfl)

theorem EmitResourceReadySignal_nested (slots : Impl → Impl) (s : Impl)
    (h : s.mIsEmittingResourceReadySignal = true) :
    EmitResourceReadySignal slots s = { s with mNeedToEmitResourceReady := true } := by
  unfold EmitResourceReadySignal
  rw [if_neg (by simp [h])]

theorem EmitResourceReadySignal_frame {slots : Impl → Impl} (s : Impl)
    (hslots : ∀ t, (slots t).mVisuals = t.mVisuals ∧ (slots t).mRemoveVisuals = t.mRemoveVisuals ∧
      (slots t).visuals = t.visuals) :
    (EmitResourceReadySignal slots s).mVisuals = s.mVisuals ∧
    (EmitResourceReadySignal slots s).mRemoveVisuals = s.mRemoveVisuals ∧
    (EmitResourceReadySignal slots s).visuals = s.visuals := by
  cases h : s.mIsEmittingResourceReadySignal with
  | false =>
    obtain ⟨h1, h2, h3, _⟩ := EmitResourceReadySignal_dispatch slots s h
    have hs := hslots { s with mIsEmittingResourceReadySignal := true,
                               resourceReadySignals := s.resourceReadySignals + 1 }
    exact ⟨h1.trans hs.1, h2.trans hs.2.1, h3.trans hs.2.2⟩
  | true =>
    rw [EmitResourceReadySignal_nested slots s h]
    exact ⟨rfl, rfl, rfl⟩

theorem ResourceReady_frame {slots : Impl → Impl} (object : VisualId) (s : Impl)
    (hslots : ∀ t, (slots t).mVisuals = t.mVisuals ∧ (slots t).mRemoveVisuals = t.mRemoveVisuals ∧
      (slots t).visuals = t.visuals) :
    (ResourceReady slots object s).mVisuals = (swapReadyVisual object s).mVisuals ∧
    (ResourceReady slots object s).mRemoveVisuals = (swapReadyVisual object s).mRemoveVisuals ∧
    (ResourceReady slots object s).visuals = (swapReadyVisual object s).visuals := by
  unfold ResourceReady
  dsimp only
  split
  · have h := EmitResourceReadySignal_frame
      { RelayoutRequestIfConnected (swapReadyVisual object s) with
        mNeedToEmitResourceReady := false } hslots
    refine ⟨h.1.trans ?_, h.2.1.trans ?_, h.2.2.trans ?_⟩
    · exact RelayoutRequestIfConnected_mVisuals _
    · exact RelayoutRequestIfConnected_mRemoveVisuals _
    · exact RelayoutRequestIfConnected_visuals _
  · exact ⟨RelayoutRequestIfConnected_mVisuals _, RelayoutRequestIfConnected_mRemoveVisuals _,
      RelayoutRequestIfConnected_visuals _⟩

theorem entriesAt_set_other {l : RegisteredVisualContainer} {p : Nat}
    {old new : RegisteredVisual} {j : Int} (hp : l[p]? = some old) (hold : old.index ≠ j)
    (hnew : new.index ≠ j) : entriesAt j (l.set p new) = entriesAt j l := by
  induction l generalizing p with
  | nil => simp
  | cons rv rest ih =>
    cases p with
    | zero =>
      simp only [List.getElem?_cons_zero, Option.some.injEq] at hp
      subst hp
      simp [entriesAt, hold, hnew]
    | succ q =>
      simp only [List.getElem?_cons_succ] at hp
      have := ih hp
      simp only [entriesAt, List.set_cons_succ, List.filter_cons] at this ⊢
      rw [this]

/-- C3 as stated fails.  In `sharedVisual` the visual 5 is active at index 2 (the entry
`FindVisual` finds at 2 holds it) while `mRemoveVisuals` holds visual 6 with the same
index 2, on scene.  `ResourceReady( 5 )` leaves visual 6 on scene and in `mRemoveVisuals`,
and the entry of visual 5 at index 2 stays pending: the search loop stops at the first
entry of `mVisuals` that holds visual 5, the one at index 1, for which nothing waits. -/
theorem ResourceReady_stops_at_first_entry :
    sharedVisual.mVisuals = [⟨1, 5, true, false⟩, ⟨2, 5, true, true⟩] ∧
    FindVisual 2 sharedVisual.mVisuals = some (1, ⟨2, 5, true, true⟩) ∧
    FindVisual 2 sharedVisual.mRemoveVisuals = some (0, ⟨2, 6, true, false⟩) ∧
    (sharedVisual.visuals 6).onScene = true ∧
    ((ResourceReady id 5 sharedVisual).visuals 6).onScene = true ∧
    (ResourceReady id 5 sharedVisual).mRemoveVisuals = [⟨2, 6, true, false⟩] ∧
    (ResourceReady id 5 sharedVisual).mVisuals =
      [⟨1, 5, true, false⟩, ⟨2, 5, true, true⟩] := by
  decide

/-- C3, amended.  The swap happens at readiness: when `ResourceReady( b )` is called for a
visual `b` that is active at index `i` and held by no entry of `mVisuals` before that one
(the first entry of `mVisuals` that holds `b`, the one the search loop stops at, has index
`i`), while `mRemoveVisuals` holds an entry `A` with index `i` (the one `FindVisual` stops
at), then `A` is set off scene and erased from `mRemoveVisuals`, the entry of `b` stays
where it is in `mVisuals` with its pending flag cleared, and the entries at every other
index are the same as before in both containers.  The slots connected to the
resource-ready signal are taken not to touch the registry. -/
theorem ResourceReady_swaps_at_readiness (slots : Impl → Impl) (s : Impl) (b : VisualId)
    (i : Int) (itB itA : Iterator)
    (hslots : ∀ t, (slots t).mVisuals = t.mVisuals ∧ (slots t).mRemoveVisuals = t.mRemoveVisuals ∧
      (slots t).visuals = t.visuals)
    (hB : FindObject b s.mVisuals = some itB) (hi : itB.2.index = i)
    (hA : FindVisual i s.mRemoveVisuals = some itA) :
    ((ResourceReady slots b s).visuals itA.2.visual).onScene = false ∧
    (ResourceReady slots b s).mRemoveVisuals = s.mRemoveVisuals.eraseIdx itA.1 ∧
    (ResourceReady slots b s).mVisuals
      = s.mVisuals.set itB.1 { (itB.2) with pending := false } ∧
    ∀ j, j ≠ i →
      entriesAt j (ResourceReady slots b s).mVisuals = entriesAt j s.mVisuals ∧
      entriesAt j (ResourceReady slots b s).mRemoveVisuals = entriesAt j s.mRemoveVisuals := by
  subst hi
  obtain ⟨hv, hr, hh⟩ := ResourceReady_frame b s hslots
  have hswap := swapReadyVisual_of_removal hB hA
  rw [hv, hr, hh, hswap]
  refine ⟨?_, rfl, rfl, fun j hj => ⟨?_, ?_⟩⟩
  · simp [SetOffScene]
  · exact entriesAt_set_other (FindObject_some hB).2 (fun e => hj e.symm) (fun e => hj e.symm)
  · show entriesAt j (s.mRemoveVisuals.eraseIdx itA.1) = _
    rw [entriesAt_erase_found hA j, if_neg hj]

/-- C3, witness.  The hypotheses hold when visual 1 reports ready while visual 0 waits for
removal at the same index. -/
theorem ResourceReady_swaps_at_readiness_witness :
    (∀ t : Impl, (id t).mVisuals = t.mVisuals ∧ (id t).mRemoveVisuals = t.mRemoveVisuals ∧
      (id t).visuals = t.visuals) ∧
    FindObject 1 replacementPending.mVisuals = some (0, ⟨1, 1, true, true⟩) ∧
    FindVisual 1 replacementPending.mRemoveVisuals = some (0, ⟨1, 0, true, false⟩) ∧
    (replacementPending.visuals 0).onScene = true ∧
    (((ResourceReady id 1 replacementPending).visuals 0).onScene = false ∧
     (ResourceReady id 1 replacementPending).mRemoveVisuals
       = replacementPending.mRemoveVisuals.eraseIdx 0 ∧
     (ResourceReady id 1 replacementPending).mVisuals
       = replacementPending.mVisuals.set 0 ⟨1, 1, true, false⟩ ∧
     ∀ j, j ≠ 1 →
       entriesAt j (ResourceReady id 1 replacementPending).mVisuals
         = entriesAt j replacementPending.mVisuals ∧
       entriesAt j (ResourceReady id 1 replacementPending).mRemoveVisuals
         = entriesAt j replacementPending.mRemoveVisuals) :=
  ⟨fun _ => ⟨rfl, rfl, rfl⟩, by decide, by decide, rfl,
    ResourceReady_swaps_at_readiness id replacementPending 1 1 (0, ⟨1, 1, true, true⟩)
      (0, ⟨1, 0, true, false⟩) (fun _ => ⟨rfl, rfl, rfl⟩) (by decide) rfl (by decide)⟩

/-! ## The aggregate resource-ready signal -/

theorem allEnabledReady_iff (visuals : VisualId → VisualBase) (l : RegisteredVisualContainer) :
    allEnabledReady visuals l = true ↔
      ∀ rv ∈ l, rv.enabled = true → (visuals rv.visual).resourceReady = true := by
  induction l with
  | nil => simp [allEnabledReady]
  | cons rv rest ih =>
    unfold allEnabledReady
    cases hr : (visuals rv.visual).resourceReady <;> cases he : rv.enabled <;>
      simp [hr, he, ih]

theorem allEnabledReady_set_same (visuals : VisualId → VisualBase)
    {l : RegisteredVisualContainer} {p : Nat} {old new : RegisteredVisual}
    (hp : l[p]? = some old) (hv : new.visual = old.visual) (he : new.enabled = old.enabled) :
    allEnabledReady visuals (l.set p new) = allEnabledReady visuals l := by
  induction l generalizing p with
  | nil => simp
  | cons rv rest ih =>
    cases p with
    | zero =>
      simp only [List.getElem?_cons_zero, Option.some.injEq] at hp
      subst hp
      simp [allEnabledReady, hv, he]
    | succ q =>
      simp only [List.getElem?_cons_succ] at hp
      simp only [List.set_cons_succ, allEnabledReady, ih hp]

theorem allEnabledReady_congr {v w : VisualId → VisualBase}
    (h : ∀ k, (v k).resourceReady = (w k).resourceReady) (l : RegisteredVisualContainer) :
    allEnabledReady v l = allEnabledReady w l := by
  induction l with
  | nil => rfl
  | cons rv rest ih => simp only [allEnabledReady, h, ih]

theorem swapReadyVisual_flags (object : VisualId) (s : Impl) :
    (swapReadyVisual object s).mIsEmittingResourceReadySignal = s.mIsEmittingResourceReadySignal ∧
    (swapReadyVisual object s).resourceReadySignals = s.resourceReadySignals := by
  cases hobj : FindObject object s.mVisuals with
  | none => rw [swapReadyVisual_of_not_found hobj]; exact ⟨rfl, rfl⟩
  | some registeredIter =>
    cases hrem : FindVisual registeredIter.2.index s.mRemoveVisuals with
    | none => rw [swapReadyVisual_of_no_removal hobj hrem]; exact ⟨rfl, rfl⟩
    | some visualToRemoveIter =>
      rw [swapReadyVisual_of_removal hobj hrem]
      exact ⟨rfl, rfl⟩

theorem swapReadyVisual_IsResourceReady (object : VisualId) (s : Impl) :
    IsResourceReady (swapReadyVisual object s) = IsResourceReady s := by
  cases hobj : FindObject object s.mVisuals with
  | none => rw [swapReadyVisual_of_not_found hobj]
  | some registeredIter =>
    cases hrem : FindVisual registeredIter.2.index s.mRemoveVisuals with
    | none => rw [swapReadyVisual_of_no_removal hobj hrem]
    | some visualToRemoveIter =>
      rw [swapReadyVisual_of_removal hobj hrem]
      unfold IsResourceReady
      show allEnabledReady (SetOffScene visualToRemoveIter.2.visual s).visuals
        (s.mVisuals.set registeredIter.1 { (registeredIter.2) with pending := false }) = _
      rw [allEnabledReady_set_same _ (FindObject_some hobj).2
        (show ({ (registeredIter.2) with pending := false } : RegisteredVisual).visual
          = registeredIter.2.visual from rfl)
        (show ({ (registeredIter.2) with pending := false } : RegisteredVisual).enabled
          = registeredIter.2.enabled from rfl)]
      apply allEnabledReady_congr
      intro k
      simp only [SetOffScene, updateVisual_visuals]
      split <;> rfl

/-- C6. Aggregate ready signal: a call to `ResourceReady` made while no emission is in
progress emits the resource-ready signal of the control exactly once when every enabled
entry of `mVisuals` holds a ready visual (disabled entries do not count, an empty registry
is ready), and does not emit it when some enabled entry holds a visual that is not ready.
The slots connected to the signal act on the control through its own methods, which emit
nothing while the emission is in progress. -/
theorem ResourceReady_emits_once_when_all_ready (slots : Impl → Impl) (s : Impl)
    (object : VisualId)
    (hidle : s.mIsEmittingResourceReadySignal = false)
    (hslots : ∀ t, t.mIsEmittingResourceReadySignal = true →
      (slots t).resourceReadySignals = t.resourceReadySignals) :
    (ResourceReady slots object s).resourceReadySignals =
      if ∀ rv ∈ s.mVisuals, rv.enabled = true → (s.visuals rv.visual).resourceReady = true
      then s.resourceReadySignals + 1 else s.resourceReadySignals := by
  have hready : IsResourceReady (RelayoutRequestIfConnected (swapReadyVisual object s))
      = IsResourceReady s := by
    rw [← swapReadyVisual_IsResourceReady object s]
    unfold IsResourceReady
    rw [RelayoutRequestIfConnected_mVisuals, RelayoutRequestIfConnected_visuals]
  unfold ResourceReady
  dsimp only
  rw [hready]
  by_cases hall : ∀ rv ∈ s.mVisuals, rv.enabled = true → (s.visuals rv.visual).resourceReady = true
  · have hr : IsResourceReady s = true := (allEnabledReady_iff _ _).2 hall
    rw [if_pos hall, if_pos hr]
    have hflag : ({ RelayoutRequestIfConnected (swapReadyVisual object s) with
        mNeedToEmitResourceReady := false } : Impl).mIsEmittingResourceReadySignal = false := by
      show (RelayoutRequestIfConnected (swapReadyVisual object s)).mIsEmittingResourceReadySignal
        = false
      rw [RelayoutRequestIfConnected_mIsEmitting, (swapReadyVisual_flags object s).1, hidle]
    rw [(EmitResourceReadySignal_dispatch slots _ hflag).2.2.2, hslots _ rfl]
    show (RelayoutRequestIfConnected (swapReadyVisual object s)).resourceReadySignals + 1 = _
    rw [RelayoutRequestIfConnected_resourceReadySignals, (swapReadyVisual_flags object s).2]
  · have hr : ¬ IsResourceReady s = true := fun h => hall ((allEnabledReady_iff _ _).1 h)
    rw [if_neg hall, if_neg hr]
    rw [RelayoutRequestIfConnected_resourceReadySignals, (swapReadyVisual_flags object s).2]

/-- The hypotheses of C6 hold for a control whose only visual is ready, with a slot that
asks for the signal again during the emission. -/
theorem ResourceReady_emits_once_when_all_ready_witness :
    oneOnScene.mIsEmittingResourceReadySignal = false ∧
    (∀ t : Impl, t.mIsEmittingResourceReadySignal = true →
      (requestAgain t).resourceReadySignals = t.resourceReadySignals) ∧
    (∀ rv ∈ oneOnScene.mVisuals, rv.enabled = true →
      (oneOnScene.visuals rv.visual).resourceReady = true) ∧
    (ResourceReady requestAgain 0 oneOnScene).resourceReadySignals =
      (if ∀ rv ∈ oneOnScene.mVisuals, rv.enabled = true →
            (oneOnScene.visuals rv.visual).resourceReady = true
       then oneOnScene.resourceReadySignals + 1 else oneOnScene.resourceReadySignals) :=
  ⟨rfl, fun t ht => by rw [requestAgain, EmitResourceReadySignal_nested id t ht], by decide,
    ResourceReady_emits_once_when_all_ready requestAgain oneOnScene 0 rfl
      (fun t ht => by rw [requestAgain, EmitResourceReadySignal_nested id t ht])⟩

/-- C7, evaluated where it fails.  An idle callback is pending (`idleScheduled`).  When it
runs, `OnIdleCallback` emits the signal (a second emission is counted), and a slot asks for
the signal again during that emission.  The request is recorded in
`mNeedToEmitResourceReady`, but `mIdleCallback` is still set when `EmitResourceReadySignal`
tests it, so `AddIdle` is not called (the number of calls stays at 1), and `OnIdleCallback`
then resets `mIdleCallback`: no idle callback is left to emit the signal again. -/
theorem OnIdleCallback_schedules_no_idle_for_nested_request :
    idleScheduled.mIdleCallback = true ∧ idleScheduled.mNeedToEmitResourceReady = true ∧
    idleScheduled.idleCallbacksAdded = 1 ∧ idleScheduled.resourceReadySignals = 1 ∧
    (OnIdleCallback requestAgain idleScheduled).resourceReadySignals = 2 ∧
    (OnIdleCallback requestAgain idleScheduled).mNeedToEmitResourceReady = true ∧
    (OnIdleCallback requestAgain idleScheduled).mIdleCallback = false ∧
    (OnIdleCallback requestAgain idleScheduled).idleCallbacksAdded = 1 := by
  decide

/-! ## Depth index of a new registration -/

theorem wrapInt_of_range {x : Int} (hlo : INT_MIN ≤ x) (hhi : x ≤ INT_MAX) : wrapInt x = x := by
  unfold wrapInt
  unfold INT_MIN at hlo
  unfold INT_MAX at hhi
  omega

theorem foldl_depth_ge_init (visuals : VisualId → VisualBase) (l : RegisteredVisualContainer)
    (init : Int) :
    init ≤ l.foldl (fun m rv => if (visuals rv.visual).depthIndex > m
      then (visuals rv.visual).depthIndex else m) init := by
  induction l generalizing init with
  | nil => exact Int.le_refl _
  | cons rv rest ih =>
    rw [List.foldl_cons]
    refine Int.le_trans ?_ (ih _)
    split <;> omega

theorem foldl_depth_ge_mem (visuals : VisualId → VisualBase) (l : RegisteredVisualContainer)
    (init : Int) :
    ∀ rv ∈ l, (visuals rv.visual).depthIndex ≤ l.foldl (fun m rv =>
      if (visuals rv.visual).depthIndex > m then (visuals rv.visual).depthIndex else m) init := by
  induction l generalizing init with
  | nil => intro rv hrv; cases hrv
  | cons hd rest ih =>
    intro rv hrv
    rw [List.foldl_cons]
    rcases List.mem_cons.1 hrv with h | h
    · subst h
      refine Int.le_trans ?_ (foldl_depth_ge_init visuals rest _)
      split <;> omega
    · exact ih _ rv h

theorem foldl_depth_attained (visuals : VisualId → VisualBase) (l : RegisteredVisualContainer)
    (init : Int) :
    l.foldl (fun m rv => if (visuals rv.visual).depthIndex > m
      then (visuals rv.visual).depthIndex else m) init = init ∨
    ∃ rv ∈ l, (visuals rv.visual).depthIndex = l.foldl (fun m rv =>
      if (visuals rv.visual).depthIndex > m then (visuals rv.visual).depthIndex else m) init := by
  induction l generalizing init with
  | nil => exact Or.inl rfl
  | cons hd rest ih =>
    rw [List.foldl_cons]
    rcases ih (if (visuals hd.visual).depthIndex > init then (visuals hd.visual).depthIndex
      else init) with h | ⟨rv, hrv, h⟩
    · rw [h]
      split
      · exact Or.inr ⟨hd, List.mem_cons_self _ _, rfl⟩
      · exact Or.inl rfl
    · exact Or.inr ⟨rv, List.mem_cons_of_mem _ hrv, h⟩

theorem maxDepthIndex_eq_greatest (visuals : VisualId → VisualBase)
    (l : RegisteredVisualContainer) (m : Int)
    (hlow : ∀ rv ∈ l, INT_MIN ≤ (visuals rv.visual).depthIndex)
    (hmem : ∃ rv ∈ l, (visuals rv.visual).depthIndex = m)
    (hmax : ∀ rv ∈ l, (visuals rv.visual).depthIndex ≤ m) : maxDepthIndex visuals l = m := by
  unfold maxDepthIndex
  obtain ⟨rv, hrv, hm⟩ := hmem
  apply Int.le_antisymm
  · rcases foldl_depth_attained visuals l INT_MIN with h | ⟨w, hw, h⟩
    · rw [h, ← hm]
      exact hlow rv hrv
    · rw [← h]
      exact hmax w hw
  · rw [← hm]
    exact foldl_depth_ge_mem visuals l INT_MIN rv hrv

theorem swapReadyVisual_depthIndex (object : VisualId) (s : Impl) (k : VisualId) :
    ((swapReadyVisual object s).visuals k).depthIndex = (s.visuals k).depthIndex := by
  cases hobj : FindObject object s.mVisuals with
  | none => rw [swapReadyVisual_of_not_found hobj]
  | some registeredIter =>
    cases hrem : FindVisual registeredIter.2.index s.mRemoveVisuals with
    | none => rw [swapReadyVisual_of_no_removal hobj hrem]
    | some visualToRemoveIter =>
      rw [swapReadyVisual_of_removal hobj hrem]
      show ((SetOffScene visualToRemoveIter.2.visual s).visuals k).depthIndex = _
      simp only [SetOffScene, updateVisual_visuals]
      split <;> rfl

theorem EmitResourceReadySignal_depthIndex {slots : Impl → Impl} (s : Impl) (k : VisualId)
    (hslots : ∀ t, ((slots t).visuals k).depthIndex = (t.visuals k).depthIndex) :
    ((EmitResourceReadySignal slots s).visuals k).depthIndex = (s.visuals k).depthIndex := by
  cases hflag : s.mIsEmittingResourceReadySignal with
  | false => rw [(EmitResourceReadySignal_dispatch slots s hflag).2.2.1, hslots]
  | true => rw [EmitResourceReadySignal_nested slots s hflag]

theorem ResourceReady_depthIndex {slots : Impl → Impl} (object : VisualId) (s : Impl)
    (k : VisualId)
    (hslots : ∀ t, ((slots t).visuals k).depthIndex = (t.visuals k).depthIndex) :
    ((ResourceReady slots object s).visuals k).depthIndex = (s.visuals k).depthIndex := by
  unfold ResourceReady
  dsimp only
  split
  · rw [EmitResourceReadySignal_depthIndex _ k hslots]
    show ((RelayoutRequestIfConnected (swapReadyVisual object s)).visuals k).depthIndex = _
    rw [RelayoutRequestIfConnected_visuals, swapReadyVisual_depthIndex]
  · rw [RelayoutRequestIfConnected_visuals, swapReadyVisual_depthIndex]

theorem pushNewVisual_depthIndex (index : Int) (visual : VisualId) (enabled set : Bool)
    (depth : Int) (s : Impl) :
    ((pushNewVisual index visual enabled set depth s).visuals visual).depthIndex
      = requiredDepthIndex index visual set depth s := by
  unfold pushNewVisual
  simp [StartObservingVisual, SetDepthIndex]

theorem RegisterVisual_depthIndex {slots : Impl → Impl} (index : Int) (visual : VisualId)
    (enabled set : Bool) (depth : Int) (s : Impl)
    (hslots : ∀ t, ((slots t).visuals visual).depthIndex = (t.visuals visual).depthIndex) :
    ((RegisterVisual slots index visual enabled set depth s).visuals visual).depthIndex
      = requiredDepthIndex index visual set depth s := by
  unfold RegisterVisual
  dsimp only
  split
  · simp only [SetOnScene, updateVisual_visuals, if_true]
    exact pushNewVisual_depthIndex index visual enabled set depth s
  · split
    · rw [ResourceReady_depthIndex visual _ visual hslots]
      exact pushNewVisual_depthIndex index visual enabled set depth s
    · exact pushNewVisual_depthIndex index visual enabled set depth s

/-- C4 as stated fails.  Visual 0 is registered with depth index -100 and is the only
registered visual, so the maximum depth index is -100; index 2 has no visual; visual 1 has
no depth index of its own and is registered at index 2 without an explicit depth index.
It is given the depth index 0, not -100 + 1. -/
theorem RegisterVisual_depth_index_not_max_plus_one :
    (∀ rv ∈ backgroundOnly.mVisuals, rv.index ≠ 2) ∧
    (backgroundOnly.visuals 1).depthIndex = 0 ∧
    backgroundOnly.mVisuals.map (fun rv => (backgroundOnly.visuals rv.visual).depthIndex)
      = [-100] ∧
    ((RegisterVisual id 2 1 true false 0 backgroundOnly).visuals 1).depthIndex = 0 ∧
    ((RegisterVisual id 2 1 true false 0 backgroundOnly).visuals 1).depthIndex ≠ -100 + 1 := by
  decide

/-- C4, amended.  When `RegisterVisual` is called for an index with no visual registered,
the depth index given to the visual is the explicit depth index if one was passed;
otherwise the depth index of the visual itself if that is not 0; otherwise 0 if nothing is
registered yet, and `max( 0, m + 1 )` if `m` is the greatest depth index of the registered
visuals.  Depth indices are `int`s below `INT_MAX`; the slots connected to the
resource-ready signal are taken not to change the depth index of the visual. -/
theorem RegisterVisual_depth_index_of_new_registration (slots : Impl → Impl) (s : Impl)
    (index : Int) (visual : VisualId) (enabled set : Bool) (depth : Int)
    (hslots : ∀ t, ((slots t).visuals visual).depthIndex = (t.visuals visual).depthIndex)
    (hnew : ∀ rv ∈ s.mVisuals, rv.index ≠ index)
    (hrange : ∀ rv ∈ s.mVisuals, INT_MIN ≤ (s.visuals rv.visual).depthIndex ∧
      (s.visuals rv.visual).depthIndex < INT_MAX) :
    (set = true →
      ((RegisterVisual slots index visual enabled set depth s).visuals visual).depthIndex
        = depth) ∧
    (set = false → (s.visuals visual).depthIndex ≠ 0 →
      ((RegisterVisual slots index visual enabled set depth s).visuals visual).depthIndex
        = (s.visuals visual).depthIndex) ∧
    (set = false → (s.visuals visual).depthIndex = 0 → s.mVisuals = [] →
      ((RegisterVisual slots index visual enabled set depth s).visuals visual).depthIndex = 0) ∧
    (set = false → (s.visuals visual).depthIndex = 0 →
      ∀ m, (∃ rv ∈ s.mVisuals, (s.visuals rv.visual).depthIndex = m) →
        (∀ rv ∈ s.mVisuals, (s.visuals rv.visual).depthIndex ≤ m) →
        ((RegisterVisual slots index visual enabled set depth s).visuals visual).depthIndex
          = max 0 (m + 1)) := by
  rw [RegisterVisual_depthIndex index visual enabled set depth s hslots]
  unfold requiredDepthIndex
  rw [FindVisual_none_of_forall hnew]
  dsimp only
  refine ⟨fun hset => ?_, fun hset hown => ?_, fun hset hown hempty => ?_,
    fun hset hown m hmem hmax => ?_⟩
  · simp [hset]
  · simp [hset, hown]
  · simp [hset, hown, hempty]
  · have hpos : s.mVisuals.length > 0 := by
      obtain ⟨rv, hrv, _⟩ := hmem
      exact List.length_pos_of_mem hrv
    have hm := maxDepthIndex_eq_greatest s.visuals s.mVisuals m (fun rv hrv => (hrange rv hrv).1)
      hmem hmax
    have hwrap : wrapInt (m + 1) = m + 1 := by
      obtain ⟨rv, hrv, hd⟩ := hmem
      have hr := hrange rv hrv
      rw [hd] at hr
      apply wrapInt_of_range
      · omega
      · have := hr.2
        unfold INT_MAX at this ⊢
        omega
    simp [hset, hown, hpos, hm, hwrap]

/-- The hypotheses of the amended C4 hold for a control whose only visual lies at depth
index -100. -/
theorem RegisterVisual_depth_index_of_new_registration_witness :
    (∀ t : Impl, ((id t).visuals 1).depthIndex = (t.visuals 1).depthIndex) ∧
    (∀ rv ∈ backgroundOnly.mVisuals, rv.index ≠ 2) ∧
    (∀ rv ∈ backgroundOnly.mVisuals, INT_MIN ≤ (backgroundOnly.visuals rv.visual).depthIndex ∧
      (backgroundOnly.visuals rv.visual).depthIndex < INT_MAX) ∧
    ((false = true →
      ((RegisterVisual id 2 1 true false 0 backgroundOnly).visuals 1).depthIndex = 0) ∧
     (false = false → (backgroundOnly.visuals 1).depthIndex ≠ 0 →
      ((RegisterVisual id 2 1 true false 0 backgroundOnly).visuals 1).depthIndex
        = (backgroundOnly.visuals 1).depthIndex) ∧
     (false = false → (backgroundOnly.visuals 1).depthIndex = 0 → backgroundOnly.mVisuals = [] →
      ((RegisterVisual id 2 1 true false 0 backgroundOnly).visuals 1).depthIndex = 0) ∧
     (false = false → (backgroundOnly.visuals 1).depthIndex = 0 →
      ∀ m, (∃ rv ∈ backgroundOnly.mVisuals, (backgroundOnly.visuals rv.visual).depthIndex = m) →
        (∀ rv ∈ backgroundOnly.mVisuals, (backgroundOnly.visuals rv.visual).depthIndex ≤ m) →
        ((RegisterVisual id 2 1 true false 0 backgroundOnly).visuals 1).depthIndex
          = max 0 (m + 1))) :=
  ⟨fun _ => rfl, by decide, by decide,
    RegisterVisual_depth_index_of_new_registration id backgroundOnly 2 1 true false 0
      (fun _ => rfl) (by decide) (by decide)⟩

/-! ## Operations on an index that is not registered -/

/-- C8. Operations on an unknown index are no-ops: when no entry of `mVisuals` or
`mRemoveVisuals` has index `i`, `UnregisterVisual( i )` and `DoAction( i, ... )` leave the
whole state as it is, `EnableVisual( i, e )` changes nothing but the number of warnings
reported (so both containers, the enabled flags and the scene status of every visual are
unchanged), `GetVisual( i )` returns an empty handle and `IsVisualEnabled( i )` returns
false. -/
theorem unknown_index_is_no_op (s : Impl) (i : Int) (e : Bool) (actionId : Int)
    (hv : ∀ rv ∈ s.mVisuals, rv.index ≠ i) (hr : ∀ rv ∈ s.mRemoveVisuals, rv.index ≠ i) :
    UnregisterVisual i s = s ∧
    EnableVisual i e s = { s with warnings := s.warnings + 1 } ∧
    DoAction i actionId s = s ∧
    GetVisual i s = none ∧
    IsVisualEnabled i s = false := by
  have h1 := FindVisual_none_of_forall hv
  have h2 := FindVisual_none_of_forall hr
  refine ⟨?_, ?_, ?_, ?_, ?_⟩
  · simp only [UnregisterVisual, h1, h2]
  · simp only [EnableVisual, h1]
  · simp only [DoAction, h1]
  · simp only [GetVisual, h1]
  · simp only [IsVisualEnabled, h1]

/-- The hypotheses of C8 hold for index 7 of a control that only uses index 1. -/
theorem unknown_index_is_no_op_witness :
    (∀ rv ∈ replacementPending.mVisuals, rv.index ≠ 7) ∧
    (∀ rv ∈ replacementPending.mRemoveVisuals, rv.index ≠ 7) ∧
    (UnregisterVisual 7 replacementPending = replacementPending ∧
     EnableVisual 7 true replacementPending
       = { replacementPending with warnings := replacementPending.warnings + 1 } ∧
     DoAction 7 0 replacementPending = replacementPending ∧
     GetVisual 7 replacementPending = none ∧
     IsVisualEnabled 7 replacementPending = false) :=
  ⟨by decide, by decide,
    unknown_index_is_no_op replacementPending 7 true 0 (by decide) (by decide)⟩

/-! ## Visuals left on scene -/

/-- C28. No leaked on-scene visual.  On a control that is on scene, starting from an empty
registry with visual 0 off scene, `RegisterVisual( 1, visual 0, ENABLED )` puts visual 0
on scene, and `RegisterVisual( 1, visual 1, DISABLED )` then erases the entry of visual 0
without setting it off scene: visual 0 is still on scene, and neither `mVisuals`, which
holds the entry of visual 1 alone, nor `mRemoveVisuals`, which is empty, holds it. -/
theorem RegisterVisual_disabled_replacement_leaves_on_scene :
    (emptyControl true onlyFirstReady).mVisuals = [] ∧
    (emptyControl true onlyFirstReady).mRemoveVisuals = [] ∧
    ((emptyControl true onlyFirstReady).visuals 0).onScene = false ∧
    (oneOnScene.visuals 0).onScene = true ∧
    oneOnScene.mVisuals = [⟨1, 0, true, false⟩] ∧
    (disabledReplacement.visuals 0).onScene = true ∧
    disabledReplacement.mVisuals = [⟨1, 1, false, false⟩] ∧
    disabledReplacement.mRemoveVisuals = [] ∧
    ∀ rv ∈ disabledReplacement.mVisuals ++ disabledReplacement.mRemoveVisuals, rv.visual ≠ 0 := by
  decide

end Control

/-! # Properties of the editing state machine -/

namespace Text

@[simp] theorem decorate_mState (c : DecoratorCommand) (e : EventData) :
    (decorate c e).mState = e.mState := rfl

@[simp] theorem setHandles_mState (g l r : Bool) (e : EventData) :
    (setHandles g l r e).mState = e.mState := rfl

@[simp] theorem startBlinkIfEnabled_mState (e : EventData) :
    (startBlinkIfEnabled e).mState = e.mState := by
  unfold startBlinkIfEnabled
  split <;> rfl

@[simp] theorem hidePopupIfEnabled_mState (e : EventData) :
    (hidePopupIfEnabled e).mState = e.mState := by
  unfold hidePopupIfEnabled
  split <;> rfl

@[simp] theorem showPopupIfEnabled_mState (s : Impl) (e : EventData) :
    (showPopupIfEnabled s e).mState = e.mState := by
  unfold showPopupIfEnabled
  split <;> rfl

theorem enterState_mState (s : Impl) (e : EventData) : (enterState s e).1.mState = e.mState := by
  unfold enterState
  split <;> simp
  split <;> simp

@[simp] theorem HideClipboard_mEventData (s : Impl) :
    (HideClipboard s).mEventData = s.mEventData := by
  unfold HideClipboard
  split <;> rfl

theorem ChangeState_of_current {s : Impl} {e : EventData} (h : s.mEventData = some e) :
    ChangeState e.mState s = s := by
  simp [ChangeState, h]

theorem ChangeState_reaches (newState : State) (s : Impl) (e : EventData)
    (h : s.mEventData = some e) :
    ∃ e1, (ChangeState newState s).mEventData = some e1 ∧ e1.mState = newState := by
  by_cases hcur : e.mState = newState
  · exact ⟨e, by rw [← hcur, ChangeState_of_current h]; exact h, hcur⟩
  · refine ⟨(enterState s { e with mState := newState }).1, ?_, ?_⟩
    · simp only [ChangeState, h, ne_eq, hcur, not_false_eq_true, if_true]
      split <;> simp
    · rw [enterState_mState]

/-- C9. `ChangeState` is idempotent on repeat: `ChangeState( X )` called when the current
state is already `X` leaves the whole controller as it is (the decorator receives no
command, the clipboard is not hidden, `mState` and `mDecoratorUpdated` keep their values);
hence `ChangeState( X )` followed by `ChangeState( X )` has exactly the effects of one
`ChangeState( X )`, from any state and with or without event data. -/
theorem ChangeState_idempotent (s : Impl) (e : EventData) (X : State) :
    ChangeState e.mState { s with mEventData := some e } = { s with mEventData := some e } ∧
    ChangeState X (ChangeState X s) = ChangeState X s := by
  refine ⟨ChangeState_of_current rfl, ?_⟩
  cases h : s.mEventData with
  | none => simp [ChangeState, h]
  | some e0 =>
    obtain ⟨e1, h1, h2⟩ := ChangeState_reaches X s e0 h
    have hrepeat := ChangeState_of_current h1
    rw [h2] at hrepeat
    exact hrepeat

/-- C10. The `SELECTING` and `EDITING` rows of the `ChangeState` table.  A transition
into `SELECTING` from any other state makes both selection handles active and the grab
handle inactive, sets the active cursor to none and stops the cursor blink.  A transition
into `EDITING` from any other state sets the active cursor to the primary cursor only and
makes the grab handle and both selection handles inactive.  Both store the new state and
mark the decorator as updated. -/
theorem ChangeState_SELECTING_and_EDITING (s : Impl) (e : EventData)
    (h : s.mEventData = some e) :
    (e.mState ≠ State.SELECTING →
      ∃ e1, (ChangeState State.SELECTING s).mEventData = some e1 ∧
        e1.mState = State.SELECTING ∧
        e1.mDecorator.leftSelectionHandleActive = true ∧
        e1.mDecorator.rightSelectionHandleActive = true ∧
        e1.mDecorator.grabHandleActive = false ∧
        e1.mDecorator.activeCursor = ActiveCursor.ACTIVE_CURSOR_NONE ∧
        e1.mDecorator.cursorBlinking = false ∧
        e1.mDecoratorUpdated = true) ∧
    (e.mState ≠ State.EDITING →
      ∃ e1, (ChangeState State.EDITING s).mEventData = some e1 ∧
        e1.mState = State.EDITING ∧
        e1.mDecorator.activeCursor = ActiveCursor.ACTIVE_CURSOR_PRIMARY ∧
        e1.mDecorator.grabHandleActive = false ∧
        e1.mDecorator.leftSelectionHandleActive = false ∧
        e1.mDecorator.rightSelectionHandleActive = false ∧
        e1.mDecoratorUpdated = true) := by
  constructor
  · intro hne
    refine ⟨(enterState s { e with mState := State.SELECTING }).1, ?_, ?_⟩
    · simp [ChangeState, h, hne, enterState]
    · simp only [enterState, showPopupIfEnabled, SetPopupButtons, setHandles, decorate,
        Decorator.receive]
      split <;> simp
  · intro hne
    refine ⟨(enterState s { e with mState := State.EDITING }).1, ?_, ?_⟩
    · simp [ChangeState, h, hne, enterState]
    · simp only [enterState, hidePopupIfEnabled, startBlinkIfEnabled, setHandles, decorate,
        Decorator.receive]
      split <;> split <;> simp

/-- The hypotheses of C10 hold for a control whose event data is in the state `INACTIVE`. -/
theorem ChangeState_SELECTING_and_EDITING_witness :
    editableControl.mEventData = some newEventData ∧
    newEventData.mState ≠ State.SELECTING ∧ newEventData.mState ≠ State.EDITING ∧
    ((newEventData.mState ≠ State.SELECTING →
      ∃ e1, (ChangeState State.SELECTING editableControl).mEventData = some e1 ∧
        e1.mState = State.SELECTING ∧
        e1.mDecorator.leftSelectionHandleActive = true ∧
        e1.mDecorator.rightSelectionHandleActive = true ∧
        e1.mDecorator.grabHandleActive = false ∧
        e1.mDecorator.activeCursor = ActiveCursor.ACTIVE_CURSOR_NONE ∧
        e1.mDecorator.cursorBlinking = false ∧
        e1.mDecoratorUpdated = true) ∧
     (newEventData.mState ≠ State.EDITING →
      ∃ e1, (ChangeState State.EDITING editableControl).mEventData = some e1 ∧
        e1.mState = State.EDITING ∧
        e1.mDecorator.activeCursor = ActiveCursor.ACTIVE_CURSOR_PRIMARY ∧
        e1.mDecorator.grabHandleActive = false ∧
        e1.mDecorator.leftSelectionHandleActive = false ∧
        e1.mDecorator.rightSelectionHandleActive = false ∧
        e1.mDecoratorUpdated = true)) :=
  ⟨rfl, by decide, by decide,
    ChangeState_SELECTING_and_EDITING editableControl newEventData rfl⟩

/-- C11 as stated fails.  The control is in the state `EDITING_WITH_GRAB_HANDLE`, the grab
handle is active and selection is enabled.  After the transition into `EDITING_WITH_POPUP`
the grab handle is still active. -/
theorem ChangeState_EDITING_WITH_POPUP_keeps_grab_handle :
    (grabHandleShown.mEventData.map (fun e => e.mState)) = some State.EDITING_WITH_GRAB_HANDLE ∧
    (grabHandleShown.mEventData.map (fun e => e.mSelectionEnabled)) = some true ∧
    ((ChangeState State.EDITING_WITH_POPUP grabHandleShown).mEventData.map
      (fun e => e.mState)) = some State.EDITING_WITH_POPUP ∧
    ((ChangeState State.EDITING_WITH_POPUP grabHandleShown).mEventData.map
      (fun e => e.mDecorator.grabHandleActive)) = some true := by
  decide

/-- C11, amended.  After a transition into `EDITING_WITH_POPUP` from any other state: if
selection is enabled, both selection handles are inactive and the grab handle is as it was
before the transition; if selection is disabled, the grab handle is active. -/
theorem ChangeState_EDITING_WITH_POPUP (s : Impl) (e : EventData)
    (h : s.mEventData = some e) (hne : e.mState ≠ State.EDITING_WITH_POPUP) :
    ∃ e1, (ChangeState State.EDITING_WITH_POPUP s).mEventData = some e1 ∧
      e1.mState = State.EDITING_WITH_POPUP ∧
      (e.mSelectionEnabled = true →
        e1.mDecorator.leftSelectionHandleActive = false ∧
        e1.mDecorator.rightSelectionHandleActive = false ∧
        e1.mDecorator.grabHandleActive = e.mDecorator.grabHandleActive) ∧
      (e.mSelectionEnabled = false → e1.mDecorator.grabHandleActive = true) := by
  refine ⟨(enterState s { e with mState := State.EDITING_WITH_POPUP }).1, ?_, ?_, ?_, ?_⟩
  · simp [ChangeState, h, hne, enterState]
  · rw [enterState_mState]
  · intro hsel
    cases hb : e.mCursorBlinkEnabled <;> cases hp : e.mGrabHandlePopupEnabled <;>
      simp [enterState, showPopupIfEnabled, SetPopupButtons, startBlinkIfEnabled, decorate,
        Decorator.receive, hsel, hb, hp]
  · intro hsel
    cases hb : e.mCursorBlinkEnabled <;> cases hp : e.mGrabHandlePopupEnabled <;>
      simp [enterState, showPopupIfEnabled, SetPopupButtons, startBlinkIfEnabled, decorate,
        Decorator.receive, hsel, hb, hp]

/-- The hypotheses of the amended C11 hold for a control in the state `INACTIVE`. -/
theorem ChangeState_EDITING_WITH_POPUP_witness :
    editableControl.mEventData = some newEventData ∧
    newEventData.mState ≠ State.EDITING_WITH_POPUP ∧
    ∃ e1, (ChangeState State.EDITING_WITH_POPUP editableControl).mEventData = some e1 ∧
      e1.mState = State.EDITING_WITH_POPUP ∧
      (newEventData.mSelectionEnabled = true →
        e1.mDecorator.leftSelectionHandleActive = false ∧
        e1.mDecorator.rightSelectionHandleActive = false ∧
        e1.mDecorator.grabHandleActive = newEventData.mDecorator.grabHandleActive) ∧
      (newEventData.mSelectionEnabled = false → e1.mDecorator.grabHandleActive = true) :=
  ⟨rfl, by decide, ChangeState_EDITING_WITH_POPUP editableControl newEventData rfl (by decide)⟩

/-! ## Moving the cursor -/

theorem uadd_of_lt {a b : Nat} (h : a + b < UINT_RANGE) : uadd a b = a + b := by
  unfold uadd
  exact Nat.mod_eq_of_lt h

theorem usub_of_le {a b : Nat} (hb : b ≤ a) (ha : a < UINT_RANGE) : usub a b = a - b := by
  unfold usub
  unfold UINT_RANGE at ha ⊢
  omega

theorem cursorStep_of_ligature (s : Impl) (index n : Nat)
    (hn : s.mVisualModel.mCharactersPerGlyph.read (s.mVisualModel.mCharactersToGlyph.read index)
      = n) (hlig : 1 < n) :
    cursorStep index s =
      some (if s.services.HasLigatureMustBreak (s.mLogicalModel.GetScript index) then 1 else n) := by
  unfold cursorStep
  dsimp only
  rw [hn, if_pos hlig]
  split <;> rfl

theorem CalculateNewCursorIndex_of_step {s : Impl} {e : EventData} {index k : Nat}
    (h : s.mEventData = some e) (hstep : cursorStep index s = some k) :
    CalculateNewCursorIndex index s =
      some (if index < e.mPrimaryCursorPosition then usub e.mPrimaryCursorPosition k
            else uadd e.mPrimaryCursorPosition k,
        { s with mEventData := some { e with mUpdateCursorHookPosition := true } }) := by
  simp only [CalculateNewCursorIndex, h, hstep]

theorem CalculateNewCursorIndex_backward {t : Impl} {e1 : EventData} {c k : Nat}
    (h : t.mEventData = some e1) (hc : e1.mPrimaryCursorPosition = c) (hpos : 0 < c)
    (hstep : cursorStep (c - 1) t = some k) (hk : k ≤ c) (hr : c < UINT_RANGE) :
    ∃ s2, CalculateNewCursorIndex (c - 1) t = some (c - k, s2) := by
  rw [CalculateNewCursorIndex_of_step h hstep, hc, if_pos (by omega), usub_of_le hk hr]
  exact ⟨_, rfl⟩

/-- C19 as stated fails.  The two characters of "fi" form one glyph (2 characters per
glyph) and their script is flagged as one whose ligatures must break.  With the cursor at
0, `CalculateNewCursorIndex( 0 )` returns 1: the cursor enters the ligature instead of
moving over its 2 characters. -/
theorem CalculateNewCursorIndex_enters_ligature :
    ligatureControl.mVisualModel.mCharactersPerGlyph.read
      (ligatureControl.mVisualModel.mCharactersToGlyph.read 0) = 2 ∧
    ligatureControl.services.HasLigatureMustBreak (ligatureControl.mLogicalModel.GetScript 0)
      = true ∧
    (ligatureControl.mEventData.map (fun e => e.mPrimaryCursorPosition)) = some 0 ∧
    (CalculateNewCursorIndex 0 ligatureControl).map (fun r => r.1) = some 1 ∧
    (CalculateNewCursorIndex 0 ligatureControl).map (fun r => r.1) ≠ some (0 + 2) := by
  decide

/-- C19, amended.  For a cluster whose glyph has `charactersPerGlyph = n > 1`:
when its script is flagged "ligature must break", `CalculateNewCursorIndex` moves the
cursor by one character, into the ligature; when the script is not flagged, it moves the
cursor over the cluster as a unit, that is by `n`.  The move is backwards when the index
is before the primary cursor position and forwards otherwise. -/
theorem CalculateNewCursorIndex_ligature (s : Impl) (e : EventData) (index n : Nat)
    (h : s.mEventData = some e)
    (hn : s.mVisualModel.mCharactersPerGlyph.read (s.mVisualModel.mCharactersToGlyph.read index)
      = n)
    (hlig : 1 < n) (hrange : e.mPrimaryCursorPosition + n < UINT_RANGE) :
    ∃ r s1, CalculateNewCursorIndex index s = some (r, s1) ∧
      (s.services.HasLigatureMustBreak (s.mLogicalModel.GetScript index) = true →
        (index < e.mPrimaryCursorPosition → r + 1 = e.mPrimaryCursorPosition) ∧
        (e.mPrimaryCursorPosition ≤ index → r = e.mPrimaryCursorPosition + 1)) ∧
      (s.services.HasLigatureMustBreak (s.mLogicalModel.GetScript index) = false →
        (index < e.mPrimaryCursorPosition → n ≤ e.mPrimaryCursorPosition →
          r + n = e.mPrimaryCursorPosition) ∧
        (e.mPrimaryCursorPosition ≤ index → r = e.mPrimaryCursorPosition + n)) := by
  have hstep := cursorStep_of_ligature s index n hn hlig
  refine ⟨_, _, CalculateNewCursorIndex_of_step h hstep, fun hmb => ⟨fun hlt => ?_, fun hle => ?_⟩,
    fun hmb => ⟨fun hlt hge => ?_, fun hle => ?_⟩⟩
  · rw [if_pos hlt, if_pos hmb, usub_of_le (by omega) (by omega)]
    omega
  · rw [if_neg (by omega), if_pos hmb, uadd_of_lt (by omega)]
  · rw [if_pos hlt, if_neg (by simp [hmb]), usub_of_le hge (by omega)]
    omega
  · rw [if_neg (by omega), if_neg (by simp [hmb]), uadd_of_lt hrange]

/-- The hypotheses of the amended C19 hold for the ligature "fi" with the cursor at 0. -/
theorem CalculateNewCursorIndex_ligature_witness :
    ligatureControl.mEventData = some newEventData ∧
    ligatureControl.mVisualModel.mCharactersPerGlyph.read
      (ligatureControl.mVisualModel.mCharactersToGlyph.read 0) = 2 ∧
    1 < 2 ∧ newEventData.mPrimaryCursorPosition + 2 < UINT_RANGE ∧
    ∃ r s1, CalculateNewCursorIndex 0 ligatureControl = some (r, s1) ∧
      (ligatureControl.services.HasLigatureMustBreak (ligatureControl.mLogicalModel.GetScript 0)
          = true →
        (0 < newEventData.mPrimaryCursorPosition → r + 1 = newEventData.mPrimaryCursorPosition) ∧
        (newEventData.mPrimaryCursorPosition ≤ 0 → r = newEventData.mPrimaryCursorPosition + 1)) ∧
      (ligatureControl.services.HasLigatureMustBreak (ligatureControl.mLogicalModel.GetScript 0)
          = false →
        (0 < newEventData.mPrimaryCursorPosition → 2 ≤ newEventData.mPrimaryCursorPosition →
          r + 2 = newEventData.mPrimaryCursorPosition) ∧
        (newEventData.mPrimaryCursorPosition ≤ 0 → r = newEventData.mPrimaryCursorPosition + 2)) :=
  ⟨rfl, by decide, by decide, by decide,
    CalculateNewCursorIndex_ligature ligatureControl newEventData 0 2 rfl (by decide) (by decide)
      (by decide)⟩

/-- C18. Cursor step round trip.  The glyph tables are consistent on the cluster: the
glyph of the character `p` has `n > 1` characters, the `n` characters from `p` on all map
to that glyph and belong to one script.  With the primary cursor at `p`, moving forward
(`cursor := CalculateNewCursorIndex( p )`) and then backward
(`cursor := CalculateNewCursorIndex( cursor - 1 )`) returns the cursor to `p`. -/
theorem CalculateNewCursorIndex_round_trip (s : Impl) (e : EventData) (p n : Nat)
    (h : s.mEventData = some e) (hp : e.mPrimaryCursorPosition = p)
    (hn : s.mVisualModel.mCharactersPerGlyph.read (s.mVisualModel.mCharactersToGlyph.read p) = n)
    (hlig : 1 < n)
    (hcluster : ∀ k, k < n →
      s.mVisualModel.mCharactersToGlyph.read (p + k) = s.mVisualModel.mCharactersToGlyph.read p)
    (hscript : ∀ k, k < n → s.mLogicalModel.GetScript (p + k) = s.mLogicalModel.GetScript p)
    (hrange : p + n < UINT_RANGE) :
    ∃ c s1 s2, CalculateNewCursorIndex p s = some (c, s1) ∧ p < c ∧
      CalculateNewCursorIndex (c - 1) (setPrimaryCursorPosition c s1) = some (p, s2) := by
  subst hp
  have hfwd := CalculateNewCursorIndex_of_step h
    (cursorStep_of_ligature s e.mPrimaryCursorPosition n hn hlig)
  rw [if_neg (Nat.lt_irrefl _)] at hfwd
  by_cases hmb : s.services.HasLigatureMustBreak
      (s.mLogicalModel.GetScript e.mPrimaryCursorPosition) = true
  · rw [if_pos hmb, uadd_of_lt (by omega)] at hfwd
    have hstep : cursorStep (e.mPrimaryCursorPosition + 1 - 1) s = some 1 := by
      rw [Nat.add_sub_cancel, cursorStep_of_ligature s e.mPrimaryCursorPosition n hn hlig,
        if_pos hmb]
    obtain ⟨s2, hback⟩ := @CalculateNewCursorIndex_backward
      (setPrimaryCursorPosition (e.mPrimaryCursorPosition + 1)
        { s with mEventData := some { e with mUpdateCursorHookPosition := true } })
      { e with mUpdateCursorHookPosition := true,
               mPrimaryCursorPosition := e.mPrimaryCursorPosition + 1 }
      (e.mPrimaryCursorPosition + 1) 1 rfl rfl (by omega) hstep (by omega) (by omega)
    exact ⟨_, _, s2, hfwd, by omega, by rw [hback, Nat.add_sub_cancel]⟩
  · rw [if_neg hmb, uadd_of_lt hrange] at hfwd
    have hlast : e.mPrimaryCursorPosition + n - 1 = e.mPrimaryCursorPosition + (n - 1) := by omega
    have hstep : cursorStep (e.mPrimaryCursorPosition + n - 1) s = some n := by
      rw [cursorStep_of_ligature s (e.mPrimaryCursorPosition + n - 1) n
        (by rw [hlast, hcluster (n - 1) (by omega), hn]) hlig, hlast,
        hscript (n - 1) (by omega), if_neg hmb]
    obtain ⟨s2, hback⟩ := @CalculateNewCursorIndex_backward
      (setPrimaryCursorPosition (e.mPrimaryCursorPosition + n)
        { s with mEventData := some { e with mUpdateCursorHookPosition := true } })
      { e with mUpdateCursorHookPosition := true,
               mPrimaryCursorPosition := e.mPrimaryCursorPosition + n }
      (e.mPrimaryCursorPosition + n) n rfl rfl (by omega) hstep (by omega) (by omega)
    exact ⟨_, _, s2, hfwd, by omega, by rw [hback, Nat.add_sub_cancel]⟩

/-- The hypotheses of C18 hold for the ligature "fi" (in a script whose ligatures are not
broken) with the cursor at its first character. -/
theorem CalculateNewCursorIndex_round_trip_witness :
    unbrokenLigatureControl.mEventData = some newEventData ∧
    newEventData.mPrimaryCursorPosition = 0 ∧
    unbrokenLigatureControl.mVisualModel.mCharactersPerGlyph.read
      (unbrokenLigatureControl.mVisualModel.mCharactersToGlyph.read 0) = 2 ∧
    (∀ k, k < 2 → unbrokenLigatureControl.mVisualModel.mCharactersToGlyph.read (0 + k)
      = unbrokenLigatureControl.mVisualModel.mCharactersToGlyph.read 0) ∧
    (∀ k, k < 2 → unbrokenLigatureControl.mLogicalModel.GetScript (0 + k)
      = unbrokenLigatureControl.mLogicalModel.GetScript 0) ∧
    ∃ c s1 s2, CalculateNewCursorIndex 0 unbrokenLigatureControl = some (c, s1) ∧ 0 < c ∧
      CalculateNewCursorIndex (c - 1) (setPrimaryCursorPosition c s1) = some (0, s2) :=
  ⟨rfl, rfl, by decide, by decide, fun _ _ => rfl,
    CalculateNewCursorIndex_round_trip unbrokenLigatureControl newEventData 0 2 rfl rfl
      (by decide) (by decide) (by decide) (fun _ _ => rfl) (by decide)⟩


/-! ## What the geometry functions leave pending -/

theorem updateEventData_some {f : EventData → EventData} {s t : Impl}
    (h : updateEventData f s = some t) :
    ∃ e, s.mEventData = some e ∧ t = { s with mEventData := some (f e) } := by
  unfold updateEventData at h
  split at h
  · cases h
  · rename_i e he
    exact ⟨e, he, (Option.some.inj h).symm⟩

theorem updateEventData_pending {f : EventData → EventData} {s t : Impl}
    (h : updateEventData f s = some t) (hf : ∀ e, (f e).requests = e.requests) :
    t.pending = s.pending ∧ t.cursorPositionCalls = s.cursorPositionCalls := by
  obtain ⟨e, he, rfl⟩ := updateEventData_some h
  simp [Impl.pending, he, hf]

theorem decorate_requests (c : DecoratorCommand) (e : EventData) :
    (decorate c e).requests = e.requests := rfl

theorem enterState_requests (s : Impl) (e : EventData) :
    (enterState s e).1.requests = e.requests := by
  unfold enterState
  cases e.mState <;>
    simp only [showPopupIfEnabled, hidePopupIfEnabled, startBlinkIfEnabled, SetPopupButtons,
      setHandles] <;>
    (repeat' split) <;> rfl

theorem HideClipboard_pending (s : Impl) :
    (HideClipboard s).pending = s.pending ∧
      (HideClipboard s).cursorPositionCalls = s.cursorPositionCalls := by
  unfold HideClipboard
  split <;> exact ⟨rfl, rfl⟩

theorem ChangeState_pending (newState : State) (s : Impl) :
    (ChangeState newState s).pending = s.pending ∧
      (ChangeState newState s).cursorPositionCalls = s.cursorPositionCalls := by
  unfold ChangeState
  split
  · exact ⟨rfl, rfl⟩
  · rename_i e he
    split
    · have hr := enterState_requests s { e with mState := newState }
      have hp : ({ s with mEventData := some (enterState s { e with mState := newState }).1 } :
          Impl).pending = s.pending := by
        simp [Impl.pending, he, hr]
        rfl
      dsimp only
      split
      · exact ⟨(HideClipboard_pending _).1.trans hp, (HideClipboard_pending _).2⟩
      · exact ⟨hp, rfl⟩
    · exact ⟨rfl, rfl⟩

theorem updateEventData_requests {f : EventData → EventData} {s t : Impl} {e : EventData}
    (he : s.mEventData = some e) (h : updateEventData f s = some t) :
    t.mEventData = some (f e) ∧
    t.pending = { s.pending with requests := some (f e).requests } ∧
      t.cursorPositionCalls = s.cursorPositionCalls := by
  obtain ⟨e1, he1, rfl⟩ := updateEventData_some h
  rw [he] at he1
  cases he1
  exact ⟨rfl, rfl, rfl⟩

theorem ClampHorizontalScroll_pending {actualSize : Size} {s t : Impl}
    (h : ClampHorizontalScroll actualSize s = some t) :
    t.pending = s.pending ∧ t.cursorPositionCalls = s.cursorPositionCalls := by
  unfold ClampHorizontalScroll at h
  split at h
  · dsimp only at h
    have p := updateEventData_pending h (fun _ => rfl)
    exact p
  · cases h
    exact ⟨rfl, rfl⟩

theorem ClampVerticalScroll_pending {actualSize : Size} {s t : Impl}
    (h : ClampVerticalScroll actualSize s = some t) :
    t.pending = s.pending ∧ t.cursorPositionCalls = s.cursorPositionCalls := by
  unfold ClampVerticalScroll at h
  split at h
  · dsimp only at h
    have p := updateEventData_pending h (fun _ => rfl)
    exact p
  · cases h
    exact ⟨rfl, rfl⟩

theorem ScrollToMakePositionVisible_pending {position : Vector2} {lineHeight : float} {s t : Impl}
    (h : ScrollToMakePositionVisible position lineHeight s = some t) :
    t.pending = s.pending ∧ t.cursorPositionCalls = s.cursorPositionCalls := by
  unfold ScrollToMakePositionVisible at h
  split at h
  · cases h
  · cases h
    exact ⟨rfl, rfl⟩

theorem ScrollTextToMatchCursor_pending {cursorInfo : CursorInfo} {s t : Impl}
    (h : ScrollTextToMatchCursor cursorInfo s = some t) :
    t.pending = s.pending ∧ t.cursorPositionCalls = s.cursorPositionCalls := by
  unfold ScrollTextToMatchCursor at h
  split at h
  · cases h
  · obtain ⟨s2, h2, h⟩ := Option.bind_eq_some.mp h
    obtain ⟨s3, h3, h⟩ := Option.bind_eq_some.mp h
    have p2 := ClampHorizontalScroll_pending h2
    have p3 := ClampVerticalScroll_pending h3
    have p4 := ScrollToMakePositionVisible_pending h
    exact ⟨p4.1.trans (p3.1.trans p2.1), p4.2.trans (p3.2.trans p2.2)⟩

theorem GetCursorPosition_some {logical : Nat} {s : Impl} {r : CursorInfo × Impl}
    (h : GetCursorPosition logical s = some r) :
    r.2 = { s with cursorPositionCalls := s.cursorPositionCalls ++ [logical] } := by
  unfold GetCursorPosition at h
  split at h
  · cases h
  · cases h
    rfl

theorem GetCursorPosition_pending {logical : Nat} {s : Impl} {r : CursorInfo × Impl}
    (h : GetCursorPosition logical s = some r) :
    r.2.mEventData = s.mEventData ∧ r.2.pending = s.pending ∧
      r.2.cursorPositionCalls = s.cursorPositionCalls ++ [logical] := by
  rw [GetCursorPosition_some h]
  exact ⟨rfl, rfl, rfl⟩

theorem positionCursor_requests (cursorInfo : CursorInfo) (scroll : Vector2) (e : EventData) :
    (positionCursor cursorInfo scroll e).requests = e.requests := by
  unfold positionCursor
  dsimp only
  (repeat' split) <;> rfl

theorem UpdateCursorPosition_pending (cursorInfo : CursorInfo) (s : Impl) :
    (UpdateCursorPosition cursorInfo s).pending = s.pending ∧
      (UpdateCursorPosition cursorInfo s).cursorPositionCalls = s.cursorPositionCalls := by
  unfold UpdateCursorPosition
  split
  · exact ⟨rfl, rfl⟩
  · rename_i e he
    simp [Impl.pending, he, positionCursor_requests]

theorem UpdateCursorPosition_mEventData {cursorInfo : CursorInfo} {s : Impl} {e : EventData}
    (he : s.mEventData = some e) :
    (UpdateCursorPosition cursorInfo s).mEventData =
      some (positionCursor cursorInfo s.mScrollPosition e) := by
  simp [UpdateCursorPosition, he]

theorem UpdateSelectionHandle_pending {handleType : HandleType} {cursorInfo : CursorInfo}
    {s t : Impl} (h : UpdateSelectionHandle handleType cursorInfo s = some t) :
    t.pending = s.pending ∧ t.cursorPositionCalls = s.cursorPositionCalls := by
  unfold UpdateSelectionHandle at h
  split at h
  · cases h
    exact ⟨rfl, rfl⟩
  · split at h
    · cases h
    · rename_i e he
      cases h
      simp [Impl.pending, he]
      rfl

theorem SetPopupButtons_requests (s : Impl) (e : EventData) :
    (SetPopupButtons s e).requests = e.requests := rfl

theorem resolveSelectionHandle_pending {handleType : HandleType} {info : CursorInfo}
    {s t : Impl} (h : resolveSelectionHandle handleType info s = some t) :
    t.pending = s.pending ∧ t.cursorPositionCalls = s.cursorPositionCalls := by
  unfold resolveSelectionHandle at h
  obtain ⟨s1, h1, h⟩ := Option.bind_eq_some.mp h
  have p1 := UpdateSelectionHandle_pending h1
  have p2 := updateEventData_pending h (fun _ => rfl)
  exact ⟨p2.1.trans p1.1, p2.2.trans p1.2⟩

theorem placeSelectionHandle_pending {handleType : HandleType} {position : Nat} {s t : Impl}
    (h : placeSelectionHandle handleType position s = some t) :
    t.pending = s.pending := by
  unfold placeSelectionHandle at h
  obtain ⟨r, h1, h⟩ := Option.bind_eq_some.mp h
  exact (updateEventData_pending h (fun _ => rfl)).1.trans (GetCursorPosition_pending h1).2.1

theorem finishSelection_pending {swapped : Bool} {s t : Impl}
    (h : finishSelection swapped s = some t) : t.pending = s.pending := by
  unfold finishSelection at h
  split at h
  · cases h
  · obtain ⟨s1, h1, h⟩ := Option.bind_eq_some.mp h
    have p2 := (updateEventData_pending h (fun _ => rfl)).1
    split at h1
    · obtain ⟨s0, h0, h1⟩ := Option.bind_eq_some.mp h1
      exact p2.trans ((placeSelectionHandle_pending h1).trans (placeSelectionHandle_pending h0))
    · cases h1
      exact p2

theorem RepositionSelectionHandles_pending {s t : Impl}
    (h : RepositionSelectionHandles s = some t) : t.pending = s.pending := by
  unfold RepositionSelectionHandles at h
  split at h
  · cases h
  · rename_i e he
    split at h
    · cases h
      rfl
    · split at h
      · cases h
      · refine (finishSelection_pending h).trans ?_
        simp [Impl.pending, he, highlightSelection]
        rfl

theorem updateEventData_pending_map {f : EventData → EventData} {s t : Impl}
    (g : Requests → Requests) (h : updateEventData f s = some t)
    (hf : ∀ e, (f e).requests = g e.requests) :
    t.pending = { s.pending with requests := s.pending.requests.map g } ∧
      t.cursorPositionCalls = s.cursorPositionCalls := by
  obtain ⟨e, he, rfl⟩ := updateEventData_some h
  simp [Impl.pending, he, hf]

theorem pending_requests {s : Impl} {e : EventData} (he : s.mEventData = some e) :
    s.pending.requests = some e.requests := by
  simp [Impl.pending, he]

/-! ## The resolution of the update requests -/

theorem resolveCursorPosition_spec {s t : Impl} {e : EventData} (he : s.mEventData = some e)
    (h : resolveCursorPosition s = some t) :
    t.pending = { s.pending with requests := some { e.requests with
      mUpdateCursorPosition := false, mUpdateGrabHandlePosition := false,
      mScrollAfterUpdatePosition := false, mScrollAfterDelete := false } } ∧
    t.cursorPositionCalls = s.cursorPositionCalls ++ [e.mPrimaryCursorPosition] := by
  unfold resolveCursorPosition at h
  rw [he] at h
  dsimp only at h
  obtain ⟨r, h1, h⟩ := Option.bind_eq_some.mp h
  obtain ⟨s1, h2, h⟩ := Option.bind_eq_some.mp h
  obtain ⟨s2, h3, h⟩ := Option.bind_eq_some.mp h
  obtain ⟨s3, h4, h⟩ := Option.bind_eq_some.mp h
  obtain ⟨s4, h5, h⟩ := Option.bind_eq_some.mp h
  have p1 := GetCursorPosition_pending h1
  have p2 := updateEventData_pending h2 (fun e1 => by split <;> rfl)
  have p3 : s2.pending = s1.pending ∧ s2.cursorPositionCalls = s1.cursorPositionCalls := by
    split at h3
    · exact ScrollTextToMatchCursor_pending h3
    · cases h3
      exact ⟨rfl, rfl⟩
  have p4 : s3.pending = s2.pending ∧ s3.cursorPositionCalls = s2.cursorPositionCalls := by
    split at h4
    · exact ScrollToMakePositionVisible_pending h4
    · cases h4
      exact ⟨rfl, rfl⟩
  have p5 := updateEventData_pending_map
    (fun q => { q with mScrollAfterUpdatePosition := false, mScrollAfterDelete := false })
    h5 (fun _ => rfl)
  have p6 := UpdateCursorPosition_pending r.1 s4
  have p7 := updateEventData_pending_map
    (fun q => { q with mUpdateCursorPosition := false, mUpdateGrabHandlePosition := false })
    h (fun _ => rfl)
  constructor
  · rw [p7.1, p6.1, p5.1, p4.1, p3.1, p2.1, p1.2.1, pending_requests he]
    rfl
  · rw [p7.2, p6.2, p5.2, p4.2, p3.2, p2.2, p1.2.2]

theorem selectionHandleInfos_pending {e : EventData} {s : Impl}
    {infos : CursorInfo × CursorInfo × Impl} (h : selectionHandleInfos e s = some infos) :
    infos.2.2.pending = s.pending := by
  unfold selectionHandleInfos at h
  split at h
  · obtain ⟨l, h1, h⟩ := Option.bind_eq_some.mp h
    obtain ⟨r, h2, h⟩ := Option.bind_eq_some.mp h
    obtain ⟨s1, h3, h⟩ := Option.bind_eq_some.mp h
    obtain ⟨s2, h4, h⟩ := Option.bind_eq_some.mp h
    cases h
    have p1 := (GetCursorPosition_pending h1).2.1
    have p2 := (GetCursorPosition_pending h2).2.1
    have p3 : s1.pending = r.2.pending := by
      split at h3
      · exact (ScrollToMakePositionVisible_pending h3).1
      · cases h3
        rfl
    have p4 : s2.pending = s1.pending := by
      split at h4
      · exact (ScrollToMakePositionVisible_pending h4).1
      · cases h4
        rfl
    exact p4.trans (p3.trans (p2.trans p1))
  · cases h
    rfl

theorem resolveSelection_spec {s t : Impl} {e : EventData} (he : s.mEventData = some e)
    (h : resolveSelection s = some t) :
    t.pending = { s.pending with requests := some { e.requests with
      mUpdateLeftSelectionPosition := false, mUpdateRightSelectionPosition := false,
      mUpdateHighlightBox := false, mScrollAfterUpdatePosition := false } } := by
  unfold resolveSelection at h
  rw [he] at h
  dsimp only at h
  obtain ⟨infos, h1, h⟩ := Option.bind_eq_some.mp h
  obtain ⟨s1, h2, h⟩ := Option.bind_eq_some.mp h
  obtain ⟨s2, h3, h⟩ := Option.bind_eq_some.mp h
  obtain ⟨s3, h4, h⟩ := Option.bind_eq_some.mp h
  have p1 := selectionHandleInfos_pending h1
  have p2 : s1.pending = { infos.2.2.pending with
      requests := infos.2.2.pending.requests.map (fun q => { q with
        mUpdateLeftSelectionPosition :=
          q.mUpdateLeftSelectionPosition && !e.mUpdateLeftSelectionPosition }) } := by
    split at h2
    · rename_i hl
      obtain ⟨s0, h0, h2⟩ := Option.bind_eq_some.mp h2
      rw [(updateEventData_pending_map
        (fun q => { q with mUpdateLeftSelectionPosition := false }) h2 (fun _ => rfl)).1,
        (resolveSelectionHandle_pending h0).1]
      simp [hl]
    · rename_i hl
      cases h2
      simp [hl]
  have p3 : s2.pending = { s1.pending with
      requests := s1.pending.requests.map (fun q => { q with
        mUpdateRightSelectionPosition :=
          q.mUpdateRightSelectionPosition && !e.mUpdateRightSelectionPosition }) } := by
    split at h3
    · rename_i hl
      obtain ⟨s0, h0, h3⟩ := Option.bind_eq_some.mp h3
      rw [(updateEventData_pending_map
        (fun q => { q with mUpdateRightSelectionPosition := false }) h3 (fun _ => rfl)).1,
        (resolveSelectionHandle_pending h0).1]
      simp [hl]
    · rename_i hl
      cases h3
      simp [hl]
  have p4 : s3.pending = { s2.pending with
      requests := s2.pending.requests.map (fun q => { q with
        mUpdateLeftSelectionPosition :=
          q.mUpdateLeftSelectionPosition && !e.mUpdateHighlightBox,
        mUpdateRightSelectionPosition :=
          q.mUpdateRightSelectionPosition && !e.mUpdateHighlightBox,
        mUpdateHighlightBox := q.mUpdateHighlightBox && !e.mUpdateHighlightBox }) } := by
    split at h4
    · rename_i hl
      obtain ⟨s0, h0, h4⟩ := Option.bind_eq_some.mp h4
      rw [(updateEventData_pending_map
        (fun q => { q with mUpdateLeftSelectionPosition := false,
                           mUpdateRightSelectionPosition := false,
                           mUpdateHighlightBox := false }) h4 (fun _ => rfl)).1,
        RepositionSelectionHandles_pending h0]
      simp [hl]
    · rename_i hl
      cases h4
      simp [hl]
  have p5 := updateEventData_pending_map
    (fun q => { q with mScrollAfterUpdatePosition := false }) h (fun _ => rfl)
  rw [p5.1, p4, p3, p2, p1, pending_requests he]
  simp [EventData.requests]


theorem mEventData_of_pending {s : Impl} {q : Requests} (h : s.pending.requests = some q) :
    ∃ e, s.mEventData = some e ∧ e.requests = q := by
  simpa [Impl.pending] using h

theorem resolveInputStyle_spec {s t : Impl} {e : EventData} (he : s.mEventData = some e)
    (h : resolveInputStyle s = some t) :
    t.pending = { s.pending with
      requests := some { e.requests with mUpdateInputStyle := false } } ∧
    t.cursorPositionCalls = s.cursorPositionCalls := by
  unfold resolveInputStyle at h
  rw [he] at h
  dsimp only at h
  split at h
  · cases h
    exact ⟨rfl, rfl⟩
  · rename_i hs
    cases h
    simp [Impl.pending, he, EventData.requests, hs]

theorem NotifyImfManager_mEventData (s : Impl) :
    (NotifyImfManager s).mEventData = s.mEventData := by
  unfold NotifyImfManager
  split
  · rfl
  · split <;> rfl

theorem NotifyImfManager_pending (s : Impl) :
    (NotifyImfManager s).pending =
      { s.pending with imfCursorPositions := (NotifyImfManager s).imfCursorPositions } ∧
    (NotifyImfManager s).cursorPositionCalls = s.cursorPositionCalls := by
  unfold NotifyImfManager
  split
  · exact ⟨rfl, rfl⟩
  · split <;> exact ⟨rfl, rfl⟩

theorem resolveUpdates_spec {s u : Impl} {e : EventData} (he : s.mEventData = some e)
    (h : resolveUpdates s = some u) :
    u.pending =
      { services := s.services,
        imfCursorPositions :=
          (if e.mUpdateCursorPosition || e.mUpdateHighlightBox then NotifyImfManager s
           else s).imfCursorPositions,
        requests := some
          (if e.mUpdateCursorPosition then
            { e.requests with
              mUpdateCursorPosition := false, mUpdateGrabHandlePosition := false,
              mScrollAfterUpdatePosition := false, mScrollAfterDelete := false,
              mUpdateInputStyle := false }
           else
            { e.requests with
              mUpdateLeftSelectionPosition := false, mUpdateRightSelectionPosition := false,
              mUpdateHighlightBox := false, mScrollAfterUpdatePosition := false,
              mUpdateInputStyle := false }) } := by
  unfold resolveUpdates at h
  rw [he] at h
  dsimp only at h
  obtain ⟨m, h1, h⟩ := Option.bind_eq_some.mp h
  have hs1 : (if (e.mUpdateCursorPosition || e.mUpdateHighlightBox) = true then NotifyImfManager s
      else s).mEventData = some e := by
    split
    · rw [NotifyImfManager_mEventData, he]
    · exact he
  have hp1 : (if (e.mUpdateCursorPosition || e.mUpdateHighlightBox) = true then NotifyImfManager s
      else s).pending = { s.pending with imfCursorPositions :=
        (if (e.mUpdateCursorPosition || e.mUpdateHighlightBox) = true then NotifyImfManager s
          else s).imfCursorPositions } := by
    split
    · exact (NotifyImfManager_pending s).1
    · rfl
  split at h1
  · rename_i hc
    have pm := (resolveCursorPosition_spec hs1 h1).1
    obtain ⟨em, hem, hq⟩ := mEventData_of_pending (congrArg Pending.requests pm)
    rw [(resolveInputStyle_spec hem h).1, pm, hp1, hq, if_pos hc]
    rfl
  · rename_i hc
    have pm := resolveSelection_spec hs1 h1
    obtain ⟨em, hem, hq⟩ := mEventData_of_pending (congrArg Pending.requests pm)
    rw [(resolveInputStyle_spec hem h).1, pm, hp1, hq, if_neg hc]
    rfl

theorem finishProcessing_some {u t : Impl} {r : Bool} (h : finishProcessing u = some (r, t)) :
    ∃ eu, u.mEventData = some eu ∧ r = eu.mDecoratorUpdated ∧
      t = { u with mEventData := some { eu with mEventQueue := [], mDecoratorUpdated := false } } := by
  unfold finishProcessing at h
  split at h
  · cases h
  · rename_i eu heu
    cases h
    exact ⟨eu, heu, rfl, rfl⟩

theorem ProcessInputEvents_some {s0 t : Impl} {e0 : EventData} {r : Bool}
    (h0 : s0.mEventData = some e0) (h : ProcessInputEvents s0 = some (r, t)) :
    ∃ s u, dispatchEvents e0.mEventQueue s0 = some s ∧ resolveUpdates s = some u ∧
      finishProcessing u = some (r, t) := by
  unfold ProcessInputEvents at h
  rw [h0] at h
  dsimp only at h
  obtain ⟨u, h1, h⟩ := Option.bind_eq_some.mp h
  obtain ⟨s, h2, h1⟩ := Option.bind_eq_some.mp h1
  exact ⟨s, u, h2, h1, h⟩

theorem resolveUpdates_mEventData {s u : Impl} (h : resolveUpdates s = some u) :
    ∃ e, s.mEventData = some e := by
  unfold resolveUpdates at h
  split at h
  · cases h
  · rename_i e he
    exact ⟨e, he⟩

/-! ## The transient state after a pass -/

/-- C12 as stated fails.  The queue of an editing control holds a select-all event, then a
single tap.  The select-all asks for the update of the two selection handles and of the
highlight box; the tap asks for the update of the cursor, so `ProcessInputEvents` takes the
branch of the cursor, which does not clear the three selection flags.  It returns (with
`true`), and the flags `mUpdateLeftSelectionPosition`, `mUpdateRightSelectionPosition` and
`mUpdateHighlightBox` are still set. -/
theorem ProcessInputEvents_keeps_selection_requests :
    (ProcessInputEvents selectAllThenTap).map (fun r => r.1) = some true ∧
    ((ProcessInputEvents selectAllThenTap).bind (fun r => r.2.mEventData)).map
      (fun e => (e.mEventQueue, e.mUpdateLeftSelectionPosition, e.mUpdateRightSelectionPosition,
        e.mUpdateHighlightBox)) = some ([], true, true, true) := by
  decide

/-- C12, amended.  When `ProcessInputEvents` returns, the event queue is empty and the
flags `mUpdateCursorPosition`, `mScrollAfterUpdatePosition`, `mUpdateInputStyle` and
`mDecoratorUpdated` are false.  When the update-cursor flag was set after the dispatch of
the events, `mUpdateGrabHandlePosition` and `mScrollAfterDelete` are false as well and the
three selection flags (`mUpdateLeftSelectionPosition`, `mUpdateRightSelectionPosition`,
`mUpdateHighlightBox`) keep the value they had after the dispatch; when it was not set,
the three selection flags are false and `mUpdateGrabHandlePosition` and
`mScrollAfterDelete` keep their value.  The value returned is the decorator-updated flag
as it stood before being cleared. -/
theorem ProcessInputEvents_clears_requests (s0 : Impl) (e0 : EventData) (r : Bool) (t : Impl)
    (h0 : s0.mEventData = some e0) (h : ProcessInputEvents s0 = some (r, t)) :
    ∃ s e u eu et, dispatchEvents e0.mEventQueue s0 = some s ∧ s.mEventData = some e ∧
      resolveUpdates s = some u ∧ u.mEventData = some eu ∧ r = eu.mDecoratorUpdated ∧
      t.mEventData = some et ∧ et.mEventQueue = [] ∧
      et.mUpdateCursorPosition = false ∧ et.mScrollAfterUpdatePosition = false ∧
      et.mUpdateInputStyle = false ∧ et.mDecoratorUpdated = false ∧
      (e.mUpdateCursorPosition = true →
        et.mUpdateGrabHandlePosition = false ∧ et.mScrollAfterDelete = false ∧
        et.mUpdateLeftSelectionPosition = e.mUpdateLeftSelectionPosition ∧
        et.mUpdateRightSelectionPosition = e.mUpdateRightSelectionPosition ∧
        et.mUpdateHighlightBox = e.mUpdateHighlightBox) ∧
      (e.mUpdateCursorPosition = false →
        et.mUpdateLeftSelectionPosition = false ∧ et.mUpdateRightSelectionPosition = false ∧
        et.mUpdateHighlightBox = false ∧
        et.mUpdateGrabHandlePosition = e.mUpdateGrabHandlePosition ∧
        et.mScrollAfterDelete = e.mScrollAfterDelete) := by
  obtain ⟨s, u, hd, hu, hf⟩ := ProcessInputEvents_some h0 h
  obtain ⟨e, he⟩ := resolveUpdates_mEventData hu
  obtain ⟨eu, heu, hr, rfl⟩ := finishProcessing_some hf
  have hq := congrArg Pending.requests (resolveUpdates_spec he hu)
  rw [pending_requests heu] at hq
  have hq := Option.some.inj hq
  refine ⟨s, e, u, eu, _, hd, he, hu, heu, hr, rfl, rfl, ?_, ?_, ?_, rfl, ?_, ?_⟩
  · have := congrArg Requests.mUpdateCursorPosition hq
    cases hc : e.mUpdateCursorPosition <;> simpa [hc, EventData.requests] using this
  · have := congrArg Requests.mScrollAfterUpdatePosition hq
    cases hc : e.mUpdateCursorPosition <;> simpa [hc, EventData.requests] using this
  · have := congrArg Requests.mUpdateInputStyle hq
    cases hc : e.mUpdateCursorPosition <;> simpa [hc, EventData.requests] using this
  · intro hc
    rw [hc] at hq
    exact ⟨congrArg Requests.mUpdateGrabHandlePosition hq,
      congrArg Requests.mScrollAfterDelete hq,
      congrArg Requests.mUpdateLeftSelectionPosition hq,
      congrArg Requests.mUpdateRightSelectionPosition hq,
      congrArg Requests.mUpdateHighlightBox hq⟩
  · intro hc
    rw [hc] at hq
    exact ⟨congrArg Requests.mUpdateLeftSelectionPosition hq,
      congrArg Requests.mUpdateRightSelectionPosition hq,
      congrArg Requests.mUpdateHighlightBox hq,
      congrArg Requests.mUpdateGrabHandlePosition hq,
      congrArg Requests.mScrollAfterDelete hq⟩


/-- The hypotheses of the amended C12 hold for the queue of `selectAllThenTap`, on which
`ProcessInputEvents` returns. -/
theorem ProcessInputEvents_clears_requests_witness :
    selectAllThenTap.mEventData = some selectAllThenTapData ∧
    ∃ r t, ProcessInputEvents selectAllThenTap = some (r, t) ∧
      ∃ s e u eu et, dispatchEvents selectAllThenTapData.mEventQueue selectAllThenTap = some s ∧
        s.mEventData = some e ∧
        resolveUpdates s = some u ∧ u.mEventData = some eu ∧ r = eu.mDecoratorUpdated ∧
        t.mEventData = some et ∧ et.mEventQueue = [] ∧
        et.mUpdateCursorPosition = false ∧ et.mScrollAfterUpdatePosition = false ∧
        et.mUpdateInputStyle = false ∧ et.mDecoratorUpdated = false ∧
        (e.mUpdateCursorPosition = true →
          et.mUpdateGrabHandlePosition = false ∧ et.mScrollAfterDelete = false ∧
          et.mUpdateLeftSelectionPosition = e.mUpdateLeftSelectionPosition ∧
          et.mUpdateRightSelectionPosition = e.mUpdateRightSelectionPosition ∧
          et.mUpdateHighlightBox = e.mUpdateHighlightBox) ∧
        (e.mUpdateCursorPosition = false →
          et.mUpdateLeftSelectionPosition = false ∧ et.mUpdateRightSelectionPosition = false ∧
          et.mUpdateHighlightBox = false ∧
          et.mUpdateGrabHandlePosition = e.mUpdateGrabHandlePosition ∧
          et.mScrollAfterDelete = e.mScrollAfterDelete) := by
  have hsome : (ProcessInputEvents selectAllThenTap).isSome = true := by decide
  obtain ⟨⟨r, t⟩, hp⟩ := Option.isSome_iff_exists.mp hsome
  exact ⟨rfl, r, t, hp,
    ProcessInputEvents_clears_requests selectAllThenTap selectAllThenTapData r t rfl hp⟩

/-! ## The notification of the input method manager -/

theorem countWhiteSpaces_eq (IsWhiteSpace : Nat → Bool) (l : List Nat) :
    countWhiteSpaces IsWhiteSpace l = (l.takeWhile IsWhiteSpace).length := by
  induction l with
  | nil => rfl
  | cons c rest ih =>
    unfold countWhiteSpaces
    cases hc : IsWhiteSpace c <;> simp [List.takeWhile, hc, ih]

theorem NotifyImfManager_position {s : Impl} {e : EventData} (he : s.mEventData = some e)
    (himf : e.mImfManager = true) (hrange : logicalCursorIndex e < UINT_RANGE) :
    (NotifyImfManager s).imfCursorPositions = s.imfCursorPositions ++
      [if logicalCursorIndex e < leadingWhiteSpaces s then 0
       else logicalCursorIndex e - leadingWhiteSpaces s] := by
  have hl : GetLogicalCursorPosition s = logicalCursorIndex e := by
    unfold GetLogicalCursorPosition logicalCursorIndex
    rw [he]
    dsimp only
    split
    · exact Nat.min_comm _ _
    · rfl
  have hw : GetNumberOfWhiteSpaces 0 s = leadingWhiteSpaces s := by
    unfold GetNumberOfWhiteSpaces leadingWhiteSpaces
    rw [List.drop_zero, countWhiteSpaces_eq]
  unfold NotifyImfManager
  rw [he]
  dsimp only
  rw [if_pos himf, hl, hw]
  dsimp only
  congr 2
  split
  · rfl
  · exact usub_of_le (by omega) hrange

/-- C15. Input-method notification.  When `ProcessInputEvents` finds the update-cursor or
the update-highlight flag set after the dispatch of the events and an input method
manager is present, one position is passed to `SetCursorPosition` from then on: the
logical cursor index (the smaller of the two selection handle positions in `SELECTING` or
`SELECTION_HANDLE_PANNING`, the primary cursor position otherwise) minus the number of
white-space characters at the start of the text, and 0 when the logical index is smaller
than that number. -/
theorem ProcessInputEvents_notifies_logical_position (s0 : Impl) (e0 : EventData) (s : Impl)
    (e : EventData) (r : Bool) (t : Impl)
    (h0 : s0.mEventData = some e0) (hd : dispatchEvents e0.mEventQueue s0 = some s)
    (he : s.mEventData = some e)
    (hflag : e.mUpdateCursorPosition = true ∨ e.mUpdateHighlightBox = true)
    (himf : e.mImfManager = true) (hrange : logicalCursorIndex e < UINT_RANGE)
    (h : ProcessInputEvents s0 = some (r, t)) :
    t.imfCursorPositions = s.imfCursorPositions ++
      [if logicalCursorIndex e < leadingWhiteSpaces s then 0
       else logicalCursorIndex e - leadingWhiteSpaces s] := by
  obtain ⟨s', u, hd', hu, hf⟩ := ProcessInputEvents_some h0 h
  rw [hd] at hd'
  cases hd'
  obtain ⟨eu, heu, hr, rfl⟩ := finishProcessing_some hf
  have hp := congrArg Pending.imfCursorPositions (resolveUpdates_spec he hu)
  have hc : (e.mUpdateCursorPosition || e.mUpdateHighlightBox) = true := by
    cases hflag with
    | inl h1 => simp [h1]
    | inr h1 => simp [h1]
  rw [if_pos hc] at hp
  exact hp.trans (NotifyImfManager_position he himf hrange)

/-- The hypotheses of C15 hold for `imfControl`: the cursor stands at 3 in "  hi", and the
position notified is 1. -/
theorem ProcessInputEvents_notifies_logical_position_witness :
    imfControl.mEventData = some imfData ∧
    dispatchEvents imfData.mEventQueue imfControl = some imfControl ∧
    (imfData.mUpdateCursorPosition = true ∨ imfData.mUpdateHighlightBox = true) ∧
    imfData.mImfManager = true ∧ logicalCursorIndex imfData < UINT_RANGE ∧
    (if logicalCursorIndex imfData < leadingWhiteSpaces imfControl then 0
      else logicalCursorIndex imfData - leadingWhiteSpaces imfControl) = 1 ∧
    ∃ r t, ProcessInputEvents imfControl = some (r, t) ∧
      t.imfCursorPositions = imfControl.imfCursorPositions ++
        [if logicalCursorIndex imfData < leadingWhiteSpaces imfControl then 0
         else logicalCursorIndex imfData - leadingWhiteSpaces imfControl] := by
  have hsome : (ProcessInputEvents imfControl).isSome = true := by decide
  obtain ⟨⟨r, t⟩, hp⟩ := Option.isSome_iff_exists.mp hsome
  exact ⟨rfl, rfl, Or.inl rfl, rfl, by decide, by decide, r, t, hp,
    ProcessInputEvents_notifies_logical_position imfControl imfData imfControl imfData r t
      rfl rfl rfl (Or.inl rfl) rfl (by decide) hp⟩

/-! ## The computations of the cursor geometry in a pass -/

theorem updateEventData_frame {f : EventData → EventData} {s t : Impl}
    (h : updateEventData f s = some t) :
    t.services = s.services ∧ t.cursorPositionCalls = s.cursorPositionCalls := by
  obtain ⟨e, _, rfl⟩ := updateEventData_some h
  exact ⟨rfl, rfl⟩

theorem ChangeState_frame (newState : State) (s : Impl) :
    (ChangeState newState s).services = s.services ∧
      (ChangeState newState s).cursorPositionCalls = s.cursorPositionCalls :=
  ⟨congrArg Pending.services (ChangeState_pending newState s).1, (ChangeState_pending newState s).2⟩

theorem moveCursorTo_frame {index : Nat} {s t : Impl} (h : moveCursorTo index s = some t) :
    t.services = s.services ∧ t.cursorPositionCalls = s.cursorPositionCalls := by
  unfold moveCursorTo at h
  obtain ⟨r, h1, h⟩ := Option.bind_eq_some.mp h
  cases h
  unfold CalculateNewCursorIndex at h1
  split at h1
  · cases h1
    exact ⟨rfl, rfl⟩
  · split at h1
    · cases h1
    · cases h1
      exact ⟨rfl, rfl⟩

theorem cursorUp_frame {e : EventData} {s t : Impl} (h : cursorUp e s = some t) :
    t.services = s.services ∧
      ∃ l : List Nat, t.cursorPositionCalls = s.cursorPositionCalls ++ l ∧ l.length ≤ 1 := by
  unfold cursorUp at h
  dsimp only at h
  generalize (if e.mPrimaryCursorPosition > 0 then e.mPrimaryCursorPosition - 1 else 0) =
    characterIndex at h
  split at h
  · obtain ⟨r, h1, h⟩ := Option.bind_eq_some.mp h
    have p1 := GetCursorPosition_pending h1
    have p2 := updateEventData_frame h
    exact ⟨p2.1.trans (congrArg Pending.services p1.2.1), [_], p2.2.trans p1.2.2, Nat.le_refl _⟩
  · cases h
    exact ⟨rfl, [], (List.append_nil _).symm, Nat.zero_le _⟩

theorem cursorDown_frame {e : EventData} {s t : Impl} (h : cursorDown e s = some t) :
    t.services = s.services ∧
      ∃ l : List Nat, t.cursorPositionCalls = s.cursorPositionCalls ++ l ∧ l.length ≤ 1 := by
  unfold cursorDown at h
  dsimp only at h
  generalize (if e.mPrimaryCursorPosition > 0 then e.mPrimaryCursorPosition - 1 else 0) =
    characterIndex at h
  split at h
  · obtain ⟨r, h1, h⟩ := Option.bind_eq_some.mp h
    have p1 := GetCursorPosition_pending h1
    have p2 := updateEventData_frame h
    exact ⟨p2.1.trans (congrArg Pending.services p1.2.1), [_], p2.2.trans p1.2.2, Nat.le_refl _⟩
  · cases h
    exact ⟨rfl, [], (List.append_nil _).symm, Nat.zero_le _⟩

theorem OnCursorKeyEvent_frame {event : Event} {s t : Impl}
    (h : OnCursorKeyEvent event s = some t) :
    t.services = s.services ∧
      ∃ l : List Nat, t.cursorPositionCalls = s.cursorPositionCalls ++ l ∧
        l.length ≤ (if s.services.DALI_KEY_CURSOR_UP = event.p1 ∨
          s.services.DALI_KEY_CURSOR_DOWN = event.p1 then 1 else 0) := by
  unfold OnCursorKeyEvent at h
  split at h
  · cases h
    exact ⟨rfl, [], (List.append_nil _).symm, Nat.zero_le _⟩
  · rename_i e he
    dsimp only at h
    obtain ⟨m, h1, h⟩ := Option.bind_eq_some.mp h
    have p2 := updateEventData_frame h
    have none_made : m.services = s.services ∧ m.cursorPositionCalls = s.cursorPositionCalls →
        t.services = s.services ∧
        ∃ l : List Nat, t.cursorPositionCalls = s.cursorPositionCalls ++ l ∧
          l.length ≤ (if s.services.DALI_KEY_CURSOR_UP = event.p1 ∨
            s.services.DALI_KEY_CURSOR_DOWN = event.p1 then 1 else 0) :=
      fun p1 => ⟨p2.1.trans p1.1, [], by rw [p2.2, p1.2, List.append_nil], Nat.zero_le _⟩
    split at h1
    · split at h1
      · exact none_made (moveCursorTo_frame h1)
      · cases h1
        exact none_made ⟨rfl, rfl⟩
    · split at h1
      · split at h1
        · exact none_made (moveCursorTo_frame h1)
        · cases h1
          exact none_made ⟨rfl, rfl⟩
      · split at h1
        · rename_i hup
          obtain ⟨p1, l, hl, hlen⟩ := cursorUp_frame h1
          exact ⟨p2.1.trans p1, l, by rw [p2.2, hl], by rw [if_pos (Or.inl hup)]; exact hlen⟩
        · split at h1
          · rename_i hdown
            obtain ⟨p1, l, hl, hlen⟩ := cursorDown_frame h1
            exact ⟨p2.1.trans p1, l, by rw [p2.2, hl], by rw [if_pos (Or.inr hdown)]; exact hlen⟩
          · cases h1
            exact none_made ⟨rfl, rfl⟩

theorem ite_some_frame {b : Prop} [Decidable b] {a c s t : Impl}
    (h : (if b then some a else some c) = some t)
    (ha : a.services = s.services ∧ a.cursorPositionCalls = s.cursorPositionCalls)
    (hc : c.services = s.services ∧ c.cursorPositionCalls = s.cursorPositionCalls) :
    t.services = s.services ∧ t.cursorPositionCalls = s.cursorPositionCalls := by
  split at h <;> cases h <;> assumption

theorem OnTapEvent_frame {event : Event} {s t : Impl} (h : OnTapEvent event s = some t) :
    t.services = s.services ∧ t.cursorPositionCalls = s.cursorPositionCalls := by
  unfold OnTapEvent at h
  split at h
  · cases h
    exact ⟨rfl, rfl⟩
  · split at h
    · exact ite_some_frame h ⟨rfl, rfl⟩ ⟨rfl, rfl⟩
    · cases h
      exact ⟨rfl, rfl⟩

theorem handlePressed_grab_frame {event : Event} {smooth : Bool} {s t : Impl}
    (ht : event.type = .GRAB_HANDLE_EVENT) (h : handlePressed event smooth s = some t) :
    t.services = s.services ∧ t.cursorPositionCalls = s.cursorPositionCalls := by
  unfold handlePressed at h
  rw [ht] at h
  dsimp only at h
  have p1 := updateEventData_frame h
  have p0 := ChangeState_frame .GRAB_HANDLE_PANNING s
  exact ⟨p1.1.trans p0.1, p1.2.trans p0.2⟩

theorem handleReleased_grab_frame {event : Event} {stop smooth : Bool} {s t : Impl}
    (ht : event.type = .GRAB_HANDLE_EVENT) (h : handleReleased event stop smooth s = some t) :
    t.services = s.services ∧ t.cursorPositionCalls = s.cursorPositionCalls := by
  unfold handleReleased at h
  rw [ht] at h
  dsimp only at h
  obtain ⟨m, h1, h⟩ := Option.bind_eq_some.mp h
  obtain ⟨s1, h2, h1⟩ := Option.bind_eq_some.mp h1
  have p1 := updateEventData_frame h2
  have p2 := updateEventData_frame h1
  have p3 := updateEventData_frame h
  have p0 : (if (!s1.clipboardEmpty) = true then ChangeState .EDITING_WITH_PASTE_POPUP s1
      else s1).services = s1.services ∧
      (if (!s1.clipboardEmpty) = true then ChangeState .EDITING_WITH_PASTE_POPUP s1
        else s1).cursorPositionCalls = s1.cursorPositionCalls := by
    split
    · exact ChangeState_frame _ s1
    · exact ⟨rfl, rfl⟩
  exact ⟨p3.1.trans (p2.1.trans (p0.1.trans p1.1)), p3.2.trans (p2.2.trans (p0.2.trans p1.2))⟩

theorem scrollGrabHandle_frame {event : Event} {smooth : Bool} {s t : Impl}
    (h : scrollGrabHandle event smooth s = some t) :
    t.services = s.services ∧ t.cursorPositionCalls = s.cursorPositionCalls := by
  unfold scrollGrabHandle at h
  dsimp only at h
  split at h
  · cases h
  · cases h
    exact ChangeState_frame .GRAB_HANDLE_PANNING s

theorem handleScrolling_grab_frame {event : Event} {smooth : Bool} {s t : Impl}
    (ht : event.type = .GRAB_HANDLE_EVENT) (h : handleScrolling event smooth s = some t) :
    t.services = s.services ∧ t.cursorPositionCalls = s.cursorPositionCalls := by
  unfold handleScrolling at h
  rw [ht] at h
  dsimp only at h
  obtain ⟨s1, h1, h⟩ := Option.bind_eq_some.mp h
  obtain ⟨s2, h2, h⟩ := Option.bind_eq_some.mp h
  obtain ⟨s3, h3, h⟩ := Option.bind_eq_some.mp h
  obtain ⟨s4, h4, h⟩ := Option.bind_eq_some.mp h
  have p1 := ClampHorizontalScroll_pending h1
  have p2 := ClampVerticalScroll_pending h2
  have p3 : s3.services = s2.services ∧ s3.cursorPositionCalls = s2.cursorPositionCalls := by
    split at h3
    · exact updateEventData_frame h3
    · cases h3
      exact ⟨rfl, rfl⟩
  have p4 := scrollGrabHandle_frame h4
  have p5 := updateEventData_frame h
  exact ⟨p5.1.trans (p4.1.trans (p3.1.trans ((congrArg Pending.services p2.1).trans
      (congrArg Pending.services p1.1)))),
    p5.2.trans (p4.2.trans (p3.2.trans (p2.2.trans p1.2)))⟩

theorem OnHandleEvent_grab_frame {event : Event} {s t : Impl}
    (ht : event.type = .GRAB_HANDLE_EVENT) (h : OnHandleEvent event s = some t) :
    t.services = s.services ∧ t.cursorPositionCalls = s.cursorPositionCalls := by
  unfold OnHandleEvent at h
  split at h
  · cases h
    exact ⟨rfl, rfl⟩
  · dsimp only at h
    split at h
    · exact handlePressed_grab_frame ht h
    · split at h
      · exact handleReleased_grab_frame ht h
      · split at h
        · exact handleScrolling_grab_frame ht h
        · cases h
          exact ⟨rfl, rfl⟩

theorem dispatchEvent_frame {event : Event} {s t : Impl}
    (ht : targetsPrimaryCursor event = true) (h : dispatchEvent event s = some t) :
    t.services = s.services ∧
      ∃ l : List Nat, t.cursorPositionCalls = s.cursorPositionCalls ++ l ∧
        l.length ≤ (if isVerticalKey s.services event = true then 1 else 0) := by
  have none_made : t.services = s.services ∧ t.cursorPositionCalls = s.cursorPositionCalls →
      t.services = s.services ∧
      ∃ l : List Nat, t.cursorPositionCalls = s.cursorPositionCalls ++ l ∧
        l.length ≤ (if isVerticalKey s.services event = true then 1 else 0) :=
    fun p => ⟨p.1, [], by rw [p.2, List.append_nil], Nat.zero_le _⟩
  unfold dispatchEvent at h
  unfold targetsPrimaryCursor at ht
  cases hty : event.type <;> rw [hty] at h ht <;> dsimp only at h
  · obtain ⟨p1, l, hl, hlen⟩ := OnCursorKeyEvent_frame h
    refine ⟨p1, l, hl, ?_⟩
    simpa [isVerticalKey, hty] using hlen
  · exact none_made (OnTapEvent_frame h)
  · simp at ht
  · simp at ht
  · exact none_made (OnHandleEvent_grab_frame hty h)
  · simp at ht
  · simp at ht
  · simp at ht
  · simp at ht

theorem dispatchEvents_frame (queue : List Event) {s t : Impl}
    (hq : ∀ event ∈ queue, targetsPrimaryCursor event = true)
    (h : dispatchEvents queue s = some t) :
    t.services = s.services ∧
      ∃ l : List Nat, t.cursorPositionCalls = s.cursorPositionCalls ++ l ∧
        l.length ≤ (queue.filter (isVerticalKey s.services)).length := by
  induction queue generalizing s with
  | nil =>
    cases h
    exact ⟨rfl, [], (List.append_nil _).symm, Nat.zero_le _⟩
  | cons event rest ih =>
    unfold dispatchEvents at h
    obtain ⟨m, h1, h⟩ := Option.bind_eq_some.mp h
    obtain ⟨p1, l1, hl1, hlen1⟩ := dispatchEvent_frame (hq event (List.mem_cons_self _ _)) h1
    obtain ⟨p2, l2, hl2, hlen2⟩ := ih (fun ev hev => hq ev (List.mem_cons_of_mem _ hev)) h
    refine ⟨p2.trans p1, l1 ++ l2, by rw [hl2, hl1, List.append_assoc], ?_⟩
    rw [p1] at hlen2
    rw [List.length_append, List.filter_cons]
    split
    · rename_i hv
      rw [if_pos hv] at hlen1
      rw [List.length_cons]
      omega
    · rename_i hv
      rw [if_neg hv] at hlen1
      omega

theorem resolveUpdates_calls {s u : Impl} {e : EventData} (he : s.mEventData = some e)
    (hc : e.mUpdateCursorPosition = true) (h : resolveUpdates s = some u) :
    u.cursorPositionCalls = s.cursorPositionCalls ++ [e.mPrimaryCursorPosition] := by
  unfold resolveUpdates at h
  rw [he] at h
  dsimp only at h
  rw [if_pos hc, if_pos (by simp [hc])] at h
  obtain ⟨m, h1, h⟩ := Option.bind_eq_some.mp h
  have hs1 : (NotifyImfManager s).mEventData = some e := by
    rw [NotifyImfManager_mEventData, he]
  have pm := resolveCursorPosition_spec hs1 h1
  obtain ⟨em, hem, _⟩ := mEventData_of_pending (congrArg Pending.requests pm.1)
  rw [(resolveInputStyle_spec hem h).2, pm.2, (NotifyImfManager_pending s).2]

/-- C13 as stated fails.  The queue holds one event, a cursor-up key, and the cursor
stands on the second of two lines.  The handler of the key computes the cursor geometry
itself (`GetCursorPosition` for the primary cursor index 5) to find the point to hit on
the line above, and the resolution of the update-cursor flag computes it again for the
new index 2: the geometry is computed twice in the pass. -/
theorem ProcessInputEvents_cursor_up_computes_twice :
    cursorUpQueued.mEventData = some cursorUpData ∧
    cursorUpData.mEventQueue.length = 1 ∧
    (∀ event ∈ cursorUpData.mEventQueue, targetsPrimaryCursor event = true) ∧
    cursorUpQueued.cursorPositionCalls = [] ∧
    (ProcessInputEvents cursorUpQueued).map (fun r => r.2.cursorPositionCalls) = some [5, 2] :=
  ⟨rfl, rfl, by decide, rfl, by decide!⟩

/-- C13, amended.  In one `ProcessInputEvents` pass over a queue of events that target the
primary cursor (cursor-key, tap or grab-handle events) whose dispatch leaves the
update-cursor flag set, the resolution of the flag computes the cursor geometry
(`GetCursorPosition` for the primary cursor index) exactly once, regardless of how many
such events were queued; the handlers of the events compute it at most once per cursor-up
or cursor-down key event of the queue, and not at all for the other events.  `l` is the
list of the indices for which the handlers have computed it. -/
theorem ProcessInputEvents_cursor_geometry (s0 : Impl) (e0 : EventData) (s : Impl)
    (e : EventData) (r : Bool) (t : Impl)
    (h0 : s0.mEventData = some e0)
    (hq : ∀ event ∈ e0.mEventQueue, targetsPrimaryCursor event = true)
    (hd : dispatchEvents e0.mEventQueue s0 = some s) (he : s.mEventData = some e)
    (hflag : e.mUpdateCursorPosition = true)
    (h : ProcessInputEvents s0 = some (r, t)) :
    ∃ l : List Nat, s.cursorPositionCalls = s0.cursorPositionCalls ++ l ∧
      t.cursorPositionCalls = s.cursorPositionCalls ++ [e.mPrimaryCursorPosition] ∧
      l.length ≤ (e0.mEventQueue.filter (isVerticalKey s0.services)).length := by
  obtain ⟨s', u, hd', hu, hf⟩ := ProcessInputEvents_some h0 h
  rw [hd] at hd'
  cases hd'
  obtain ⟨eu, heu, hr, rfl⟩ := finishProcessing_some hf
  obtain ⟨_, l, hl, hlen⟩ := dispatchEvents_frame e0.mEventQueue hq hd
  have hcalls := resolveUpdates_calls he hflag hu
  exact ⟨l, hl, hcalls, hlen⟩

/-- The hypotheses of the amended C13 hold for a cursor-right key followed by a single
tap: no cursor-up or cursor-down key is queued, and the geometry is computed once. -/
theorem ProcessInputEvents_cursor_geometry_witness :
    rightThenTap.mEventData = some rightThenTapData ∧
    (∀ event ∈ rightThenTapData.mEventQueue, targetsPrimaryCursor event = true) ∧
    (rightThenTapData.mEventQueue.filter (isVerticalKey rightThenTap.services)).length = 0 ∧
    ∃ s e r t, dispatchEvents rightThenTapData.mEventQueue rightThenTap = some s ∧
      s.mEventData = some e ∧ e.mUpdateCursorPosition = true ∧
      ProcessInputEvents rightThenTap = some (r, t) ∧
      ∃ l : List Nat, s.cursorPositionCalls = rightThenTap.cursorPositionCalls ++ l ∧
        t.cursorPositionCalls = s.cursorPositionCalls ++ [e.mPrimaryCursorPosition] ∧
        l.length ≤
          (rightThenTapData.mEventQueue.filter (isVerticalKey rightThenTap.services)).length := by
  have hflagged : ((dispatchEvents rightThenTapData.mEventQueue rightThenTap).bind
      fun s => s.mEventData).map (fun e => e.mUpdateCursorPosition) = some true := by decide
  obtain ⟨e, he, hflag⟩ := Option.map_eq_some'.mp hflagged
  obtain ⟨s, hd, he⟩ := Option.bind_eq_some.mp he
  have hsome : (ProcessInputEvents rightThenTap).isSome = true := by decide
  obtain ⟨⟨r, t⟩, hp⟩ := Option.isSome_iff_exists.mp hsome
  exact ⟨rfl, by decide, by decide, s, e, r, t, hd, he, hflag, hp,
    ProcessInputEvents_cursor_geometry rightThenTap rightThenTapData s e r t rfl (by decide)
      hd he hflag hp⟩


/-! ## The highlight of the selection -/

theorem receive_AddHighlights (quads : List Quad) (d : Decorator) :
    ((quads.map (fun q => DecoratorCommand.AddHighlight q.x1 q.y1 q.x2 q.y2)).foldl
      (fun d c => d.receive c) d).highlights = d.highlights ++ quads := by
  induction quads generalizing d with
  | nil => simp
  | cons q rest ih =>
    rw [List.map_cons, List.foldl_cons, ih]
    simp [Decorator.receive]

theorem highlightCommands_highlights (s : Impl) (e : EventData) (d : Decorator) :
    ((highlightCommands s e).foldl (fun d c => d.receive c) d).highlights =
      (traverseGlyphs s e).quads ++ boxifyQuads s e := by
  unfold highlightCommands
  rw [List.foldl_append, List.foldl_append]
  simp only [List.foldl_cons, List.foldl_nil]
  have h := receive_AddHighlights ((traverseGlyphs s e).quads ++ boxifyQuads s e)
    (Decorator.receive
      (.SetSelectionHandleFlipState (indicesSwapped e) (startDirection s e) (endDirection s e))
      (Decorator.receive .ClearHighlights d))
  simp only [Decorator.receive] at h ⊢
  rw [h]
  simp

theorem addGlyphQuad_quads_length (x y : float) (t : Traversal) :
    (addGlyphQuad x y t).quads.length = t.quads.length + 1 := by
  simp [addGlyphQuad]

theorem nextLine_quads (s : Impl) (e : EventData) (t : Traversal) :
    (nextLine s e t).quads = t.quads := by
  unfold nextLine
  dsimp only
  split <;> rfl

theorem traverseGlyph_quads_length (s : Impl) (e : EventData) (t : Traversal) (index : Nat) :
    (traverseGlyph s e t index).quads.length = t.quads.length + 1 := by
  unfold traverseGlyph
  dsimp only
  split
  · exact addGlyphQuad_quads_length _ _ t
  · split
    · exact addGlyphQuad_quads_length _ _ t
    · split
      · rw [nextLine_quads]
        exact addGlyphQuad_quads_length _ _ t
      · exact addGlyphQuad_quads_length _ _ t

theorem foldl_traverseGlyph_quads_length (s : Impl) (e : EventData) (glyphs : List Nat)
    (t : Traversal) :
    (glyphs.foldl (traverseGlyph s e) t).quads.length = t.quads.length + glyphs.length := by
  induction glyphs generalizing t with
  | nil => rfl
  | cons index rest ih =>
    rw [List.foldl_cons, ih, traverseGlyph_quads_length, List.length_cons]
    omega

theorem traverseGlyphs_quads_length (s : Impl) (e : EventData) :
    (traverseGlyphs s e).quads.length = glyphEnd s e + 1 - glyphStart s e := by
  unfold traverseGlyphs
  rw [foldl_traverseGlyph_quads_length, List.length_range']
  simp [startTraversal]

theorem cursorInfoAt_isSome {s : Impl} {e : EventData} (he : s.mEventData = some e)
    (logical : Nat) : ∃ c, cursorInfoAt logical s = some c := by
  unfold cursorInfoAt
  rw [he]
  dsimp only
  split
  · split <;> exact ⟨_, rfl⟩
  · split <;> exact ⟨_, rfl⟩

theorem placeSelectionHandle_highlights {s : Impl} {e : EventData} (he : s.mEventData = some e)
    (handleType : HandleType) (position : Nat) :
    ∃ t et, placeSelectionHandle handleType position s = some t ∧ t.mEventData = some et ∧
      et.mDecorator.highlights = e.mDecorator.highlights ∧
      et.mDecorator.smoothHandlePanEnabled = e.mDecorator.smoothHandlePanEnabled ∧
      et.mLeftSelectionPosition = e.mLeftSelectionPosition ∧
      et.mRightSelectionPosition = e.mRightSelectionPosition := by
  obtain ⟨c, hc⟩ := cursorInfoAt_isSome he position
  unfold placeSelectionHandle GetCursorPosition
  rw [hc]
  simp only [Option.bind, updateEventData, he]
  refine ⟨_, _, rfl, rfl, ?_, ?_, rfl, rfl⟩
  · cases handleType <;> simp [decorate, Decorator.receive]
  · cases handleType <;> simp [decorate, Decorator.receive]

theorem finishSelection_highlights {s : Impl} {e : EventData} (he : s.mEventData = some e)
    (swapped : Bool) :
    ∃ t et, finishSelection swapped s = some t ∧ t.mEventData = some et ∧
      et.mDecorator.highlights = e.mDecorator.highlights := by
  unfold finishSelection
  rw [he]
  dsimp only
  split
  · obtain ⟨t1, e1, h1, he1, hh1, _, _, _⟩ :=
      placeSelectionHandle_highlights he .LEFT_SELECTION_HANDLE e.mLeftSelectionPosition
    obtain ⟨t2, e2, h2, he2, hh2, _, _, _⟩ :=
      placeSelectionHandle_highlights he1 .RIGHT_SELECTION_HANDLE e.mRightSelectionPosition
    rw [h1]
    simp only [Option.bind, h2, updateEventData, he2]
    exact ⟨_, _, rfl, rfl, hh2.trans hh1⟩
  · simp only [Option.bind, updateEventData, he]
    exact ⟨_, _, rfl, rfl, rfl⟩


/-- The value of `startDirection` is the direction read at the left selection handle. -/
theorem startDirection_eq (s : Impl) (e : EventData) :
    startDirection s e =
      (if s.mLogicalModel.mCharacterDirections.Count ≠ 0 then
        s.mLogicalModel.mCharacterDirections.read e.mLeftSelectionPosition
      else false) := by
  unfold startDirection hasCharacterDirections
  by_cases h : s.mLogicalModel.mCharacterDirections.Count ≠ 0 <;> simp [h]

/-- The value of `endDirection` is the direction read at the right selection handle, one
character earlier when the handle is at or past the end of the text. -/
theorem endDirection_eq (s : Impl) (e : EventData) :
    endDirection s e =
      (if s.mLogicalModel.mCharacterDirections.Count ≠ 0 then
        s.mLogicalModel.mCharacterDirections.read
          (usub e.mRightSelectionPosition
            (if e.mRightSelectionPosition ≥ s.mLogicalModel.mText.length then 1 else 0))
      else false) := by
  unfold endDirection endDirectionIndex hasCharacterDirections Impl.numberOfCharacters
  by_cases h : s.mLogicalModel.mCharacterDirections.Count ≠ 0 <;> simp [h]

/-- C27. Highlight box height.  The selection of `unevenSelection` covers a line 20 high
and a line 30 high, 50 in all, from the offset 0 of the first line.
`RepositionSelectionHandles` passes to the decorator a highlight box at the offset of the
first line, but 60 high: in the loop over the selection boxes every line adds the height
of the box visited last, here the one of the second line, instead of its own. -/
theorem RepositionSelectionHandles_highlight_box_height :
    (selectedLines unevenSelection twoLineSelectionData) = (0, 2) ∧
    (unevenLayout.mLines.items.map (fun line => line.ascender - line.descender)) = [20, 30] ∧
    (firstSelectionBoxLineInfo unevenSelection twoLineSelectionData).lineOffset = 0 ∧
    ((RepositionSelectionHandles unevenSelection).bind (fun t => t.mEventData)).map
      (fun et => (et.mDecorator.highlightBoxPosition.y, et.mDecorator.highlightBoxSize.height)) =
      some (0, 60) := by
  decide!


/-! ## The reads of the character directions -/

/-- C30. In-range direction reads.  In `crossedSelection` the direction vector holds one
entry per character of "hello", five in all, and the two handles stand at distinct
positions of `[0, 5]`, the left one at the end of the text.  `RepositionSelectionHandles`
returns and has read the direction vector at the index 5, which is not smaller than the
number of characters: the direction at the left handle is read at the position of the
handle as it is, and only the read at the right handle steps back from the end of the
text. -/
theorem RepositionSelectionHandles_reads_direction_past_end :
    crossedSelection.mLogicalModel.mCharacterDirections.Count = crossedSelection.numberOfCharacters ∧
    crossedSelection.numberOfCharacters = 5 ∧
    crossedSelectionData.mLeftSelectionPosition ≤ crossedSelection.numberOfCharacters ∧
    crossedSelectionData.mRightSelectionPosition ≤ crossedSelection.numberOfCharacters ∧
    crossedSelectionData.mLeftSelectionPosition ≠ crossedSelectionData.mRightSelectionPosition ∧
    (RepositionSelectionHandles crossedSelection).map (fun t => t.directionReads) =
      some [5, 2] := by
  decide!


/-! ## The highlight of the central lines -/

/-- C21. Middle lines span the control.  The selection of `gapSelection` covers three
lines, and the only glyph of the middle line, the one of a line feed, starts and ends at
`x = 0`.  `RepositionSelectionHandles` adds for the middle line a rectangle from 0 to 0
and a rectangle which starts at `MIN_FLOAT`, not at 0, the maximum glyph x of the line:
the maximum of each line is accumulated from `MIN_FLOAT`, the smallest positive normal
value, so that a line which does not reach beyond `x = 0` keeps `MIN_FLOAT` as its
maximum, and the strip between 0 and `MIN_FLOAT` is not highlighted. -/
theorem RepositionSelectionHandles_middle_line_from_MIN_FLOAT :
    selectedLines gapSelection gapSelectionData = (0, 3) ∧
    (gapLayout.mLines.read 1).glyphRun = ⟨2, 1⟩ ∧
    (gapLayout.mLines.read 1).alignmentOffset + (gapLayout.mGlyphPositions.read 2).x -
      (gapLayout.mGlyphs.read 2).xBearing + gapSelection.mScrollPosition.x = 0 ∧
    (gapLayout.mGlyphs.read 2).advance = 0 ∧
    0 < MIN_FLOAT ∧
    ((RepositionSelectionHandles gapSelection).bind (fun t => t.mEventData)).map
      (fun et => et.mDecorator.highlights) =
      some [⟨0, 0, 10, 20⟩, ⟨10, 0, 10, 20⟩, ⟨0, 20, 0, 40⟩, ⟨0, 40, 10, 60⟩,
        ⟨10, 0, 100, 20⟩,
        ⟨0, 20, 0, 40⟩, ⟨MIN_FLOAT, 20, 100, 40⟩,
        ⟨0, 40, 0, 60⟩] := by
  decide!


/-! ## The cursor stays in the text -/

theorem firstNonZero_pos {l : List Nat} {n : Nat} (h : firstNonZero l = some n) : 0 < n := by
  induction l with
  | nil => cases h
  | cons a rest ih =>
    unfold firstNonZero at h
    split at h
    · exact ih h
    · cases h
      omega

theorem Buffer.read_of_lt {α : Type} (b : Buffer α) {i : Nat} (h : i < b.items.length) :
    b.read i = b.items[i] := by
  unfold Buffer.read
  rw [List.getElem?_eq_getElem h]

/-- The step computed by `CalculateNewCursorIndex` from a character of a cluster of `n`
characters is positive and at most `n`, and is 1 in a ligature that must break. -/
theorem cursorStep_of_cluster {s : Impl} {index n : Nat}
    (hg : s.mVisualModel.mCharactersToGlyph.read index < s.mVisualModel.mCharactersPerGlyph.Count)
    (hn : clusterCharacters s (s.mVisualModel.mCharactersToGlyph.read index) = some n) :
    ∃ k, cursorStep index s = some k ∧ 0 < k ∧ k ≤ n ∧
      (1 < s.mVisualModel.mCharactersPerGlyph.read (s.mVisualModel.mCharactersToGlyph.read index) →
        s.services.HasLigatureMustBreak (s.mLogicalModel.GetScript index) = true → k = 1) := by
  unfold Buffer.Count at hg
  have hread := Buffer.read_of_lt s.mVisualModel.mCharactersPerGlyph hg
  unfold clusterCharacters at hn
  rw [List.drop_eq_getElem_cons hg, firstNonZero, ← hread] at hn
  unfold cursorStep
  dsimp only
  generalize s.mVisualModel.mCharactersPerGlyph.read
    (s.mVisualModel.mCharactersToGlyph.read index) = a at hn ⊢
  by_cases h1 : a > 1
  · rw [if_pos h1]
    rw [if_neg (by omega)] at hn
    have hna : a = n := Option.some.inj hn
    by_cases hmb : s.services.HasLigatureMustBreak (s.mLogicalModel.GetScript index) = true
    · rw [if_pos hmb]
      exact ⟨1, rfl, by omega, by omega, fun _ _ => rfl⟩
    · rw [if_neg hmb]
      exact ⟨a, rfl, by omega, by omega, fun _ h => absurd h hmb⟩
  · rw [if_neg h1]
    by_cases h0 : a = 0
    · rw [if_pos h0]
      rw [if_pos h0] at hn
      exact ⟨n, hn, firstNonZero_pos hn, le_refl _, fun h => by omega⟩
    · rw [if_neg h0]
      rw [if_neg h0] at hn
      have hna : a = n := Option.some.inj hn
      exact ⟨a, rfl, by omega, by omega, fun h => by omega⟩

/-- Moving backward from a position on a cluster boundary or inside a ligature that must
break: the step is at most the position. -/
theorem cursorStep_backward {s : Impl} {p : Nat} (hc : ConsistentTables s) (hpos : 0 < p)
    (hp : p ≤ s.numberOfCharacters)
    (hb : OnClusterBoundary s p ∨ InsideMustBreakLigature s p) :
    ∃ k, cursorStep (p - 1) s = some k ∧ 0 < k ∧ k ≤ p := by
  obtain ⟨_, hglyph, _, hclusters⟩ := hc
  rcases hb with hb | ⟨start, _, n, _, ⟨_, _, hsame, hcount⟩, h1, h2, hlig, hmb⟩
  · obtain ⟨start, hs, n, hn, h1, h2, hcl⟩ := hclusters (p - 1) (by omega)
    have hend : start + n = p := by
      have := hb start hs n hn hcl
      omega
    obtain ⟨_, _, hsame, hcount⟩ := hcl
    have hg : s.mVisualModel.mCharactersToGlyph.read (p - 1) =
        s.mVisualModel.mCharactersToGlyph.read start := by
      have := hsame (p - 1 - start) (by omega)
      rwa [show start + (p - 1 - start) = p - 1 by omega] at this
    obtain ⟨k, hk, hk0, hkn, _⟩ := cursorStep_of_cluster (hglyph (p - 1) (by omega))
      (by rw [hg]; exact hcount)
    exact ⟨k, hk, hk0, by omega⟩
  · have hg : s.mVisualModel.mCharactersToGlyph.read (p - 1) =
        s.mVisualModel.mCharactersToGlyph.read start := by
      have := hsame (p - 1 - start) (by omega)
      rwa [show start + (p - 1 - start) = p - 1 by omega] at this
    obtain ⟨k, hk, hk0, _, hone⟩ := cursorStep_of_cluster (hglyph (p - 1) (by omega))
      (by rw [hg]; exact hcount)
    have hscript := hmb (p - 1 - start) (by omega)
    rw [show start + (p - 1 - start) = p - 1 by omega] at hscript
    have := hone (by rw [hg]; exact hlig) hscript
    exact ⟨k, hk, hk0, by omega⟩

/-- Moving forward from a position before the end of the text, on a cluster boundary or
inside a ligature that must break: the step does not go past the end of the text. -/
theorem cursorStep_forward {s : Impl} {p : Nat} (hc : ConsistentTables s)
    (hp : p < s.numberOfCharacters)
    (hb : OnClusterBoundary s p ∨ InsideMustBreakLigature s p) :
    ∃ k, cursorStep p s = some k ∧ 0 < k ∧ p + k ≤ s.numberOfCharacters := by
  obtain ⟨_, hglyph, _, hclusters⟩ := hc
  rcases hb with hb | ⟨start, _, n, _, ⟨_, hlen, hsame, hcount⟩, h1, h2, hlig, hmb⟩
  · obtain ⟨start, hs, n, hn, h1, h2, hcl⟩ := hclusters p hp
    have hstart : start = p := by
      have := hb start hs n hn hcl
      omega
    subst hstart
    obtain ⟨_, hlen, _, hcount⟩ := hcl
    obtain ⟨k, hk, hk0, hkn, _⟩ := cursorStep_of_cluster (hglyph start hp) hcount
    exact ⟨k, hk, hk0, by omega⟩
  · have hg : s.mVisualModel.mCharactersToGlyph.read p =
        s.mVisualModel.mCharactersToGlyph.read start := by
      have := hsame (p - start) (by omega)
      rwa [show start + (p - start) = p by omega] at this
    obtain ⟨k, hk, hk0, _, hone⟩ := cursorStep_of_cluster (hglyph p hp)
      (by rw [hg]; exact hcount)
    have hscript := hmb (p - start) (by omega)
    rw [show start + (p - start) = p by omega] at hscript
    have := hone (by rw [hg]; exact hlig) hscript
    exact ⟨k, hk, hk0, by omega⟩

/-- C29. Cursor stays in range.  With consistent glyph tables and the primary cursor at a
position of `[0, text length]` that is on a cluster boundary or inside a ligature that
must break, `OnCursorKeyEvent` returns for a CURSOR_LEFT and for a CURSOR_RIGHT key event
and leaves the primary cursor in `[0, text length]`.  CURSOR_LEFT leaves the cursor at 0
when it is there and moves it to a smaller position otherwise; CURSOR_RIGHT leaves the
cursor at the end of the text when it is there and moves it to a greater position
otherwise: no subtraction and no addition wraps around. -/
theorem OnCursorKeyEvent_in_range (s : Impl) (e : EventData) (event : Event)
    (h : s.mEventData = some e)
    (hcodes : s.services.DALI_KEY_CURSOR_LEFT ≠ s.services.DALI_KEY_CURSOR_RIGHT)
    (hkey : event.p1 = s.services.DALI_KEY_CURSOR_LEFT ∨
      event.p1 = s.services.DALI_KEY_CURSOR_RIGHT)
    (hlen : s.numberOfCharacters < UINT_RANGE)
    (hc : ConsistentTables s)
    (hp : e.mPrimaryCursorPosition ≤ s.numberOfCharacters)
    (hb : OnClusterBoundary s e.mPrimaryCursorPosition ∨
      InsideMustBreakLigature s e.mPrimaryCursorPosition) :
    ∃ t e1, OnCursorKeyEvent event s = some t ∧ t.mEventData = some e1 ∧
      e1.mPrimaryCursorPosition ≤ s.numberOfCharacters ∧
      (event.p1 = s.services.DALI_KEY_CURSOR_LEFT →
        (e.mPrimaryCursorPosition = 0 → e1.mPrimaryCursorPosition = 0) ∧
        (0 < e.mPrimaryCursorPosition → e1.mPrimaryCursorPosition < e.mPrimaryCursorPosition)) ∧
      (event.p1 = s.services.DALI_KEY_CURSOR_RIGHT →
        (e.mPrimaryCursorPosition = s.numberOfCharacters →
          e1.mPrimaryCursorPosition = s.numberOfCharacters) ∧
        (e.mPrimaryCursorPosition < s.numberOfCharacters →
          e.mPrimaryCursorPosition < e1.mPrimaryCursorPosition)) := by
  rcases hkey with hkey | hkey
  · by_cases hpos : e.mPrimaryCursorPosition > 0
    · obtain ⟨k, hk, hk0, hkp⟩ := cursorStep_backward hc hpos hp hb
      have hcalc := CalculateNewCursorIndex_of_step h hk
      rw [if_pos (by omega), usub_of_le hkp (by omega)] at hcalc
      simp only [OnCursorKeyEvent, h, hkey, if_pos hpos, moveCursorTo, hcalc, if_true,
        Option.some_bind, setPrimaryCursorPosition, updateEventData, Option.map_some']
      refine ⟨_, _, rfl, rfl, ?_, fun _ => ⟨fun h0 => ?_, fun _ => ?_⟩,
        fun hr => absurd hr hcodes⟩
      · dsimp only
        omega
      · omega
      · dsimp only
        omega
    · simp only [OnCursorKeyEvent, h, hkey, if_neg hpos, if_true, Option.some_bind,
        updateEventData]
      refine ⟨_, _, rfl, rfl, ?_, fun _ => ⟨fun h0 => ?_, fun h0 => ?_⟩,
        fun hr => absurd hr hcodes⟩
      · exact hp
      · exact h0
      · omega
  · by_cases hend : s.numberOfCharacters > e.mPrimaryCursorPosition
    · obtain ⟨k, hk, hk0, hkp⟩ := cursorStep_forward hc hend hb
      have hcalc := CalculateNewCursorIndex_of_step h hk
      rw [if_neg (by omega), uadd_of_lt (by omega)] at hcalc
      simp only [OnCursorKeyEvent, h, hkey, if_neg hcodes, if_pos hend, moveCursorTo, hcalc,
        if_true, Option.some_bind, setPrimaryCursorPosition, updateEventData,
        Option.map_some']
      refine ⟨_, _, rfl, rfl, ?_, fun hl => absurd hl.symm hcodes,
        fun _ => ⟨fun h0 => ?_, fun _ => ?_⟩⟩
      · dsimp only
        omega
      · omega
      · dsimp only
        omega
    · simp only [OnCursorKeyEvent, h, hkey, if_neg hcodes, if_neg hend, if_true,
        Option.some_bind, updateEventData]
      refine ⟨_, _, rfl, rfl, ?_, fun hl => absurd hl.symm hcodes,
        fun _ => ⟨fun h0 => ?_, fun h0 => ?_⟩⟩
      · exact hp
      · exact h0
      · omega

/-- C29, witness.  The tables of the ligature "fi" are consistent and the position 1 lies
inside the ligature, which must break; a CURSOR_LEFT key event moves the cursor from 1 to a
position of the text before it. -/
theorem OnCursorKeyEvent_in_range_witness :
    ConsistentTables insideLigatureControl ∧
    InsideMustBreakLigature insideLigatureControl 1 ∧
    ∃ t e1, OnCursorKeyEvent ⟨.CURSOR_KEY_EVENT, 113, 0, 0⟩ insideLigatureControl = some t ∧
      t.mEventData = some e1 ∧
      e1.mPrimaryCursorPosition ≤ insideLigatureControl.numberOfCharacters ∧
      e1.mPrimaryCursorPosition < 1 := by
  have hc : ConsistentTables insideLigatureControl := by
    unfold ConsistentTables ClusterAt clusterCharacters
    decide
  have hb : InsideMustBreakLigature insideLigatureControl 1 := by
    unfold InsideMustBreakLigature ClusterAt clusterCharacters
    decide
  obtain ⟨t, e1, ht, he1, hrange, hleft, _⟩ :=
    OnCursorKeyEvent_in_range insideLigatureControl
      { newEventData with mPrimaryCursorPosition := 1 } ⟨.CURSOR_KEY_EVENT, 113, 0, 0⟩
      rfl (by decide) (Or.inl rfl) (by decide) hc (by decide) (Or.inr hb)
  exact ⟨hc, hb, t, e1, ht, he1, hrange, (hleft rfl).2 (by decide)⟩

/-! ## The indices of a text update -/

/-- C24 as stated fails.  In `appendedToHello` a character is added at the end of the text
(`mCharacterIndex = mPreviousNumberOfCharacters = 5`) and the last character is not a new
paragraph character, yet `CalculateTextUpdateIndices` reports 5 characters, the whole of
the last paragraph, not zero. -/
theorem CalculateTextUpdateIndices_appending_clears_last_paragraph :
    appendedToHello.mTextUpdateInfo.mCharacterIndex ≥
      appendedToHello.mTextUpdateInfo.mPreviousNumberOfCharacters ∧
    appendedToHello.mTextUpdateInfo.mIsLastCharacterNewParagraph = false ∧
    (CalculateTextUpdateIndices appendedToHello).1 = 5 := by
  decide

/-- C24, amended.  When text is added at the end of the buffer
(`mCharacterIndex >= mPreviousNumberOfCharacters`) and the last existing character is a
paragraph break (`mIsLastCharacterNewParagraph` is true), `CalculateTextUpdateIndices`
reports zero characters to clear. -/
theorem CalculateTextUpdateIndices_after_new_paragraph (s : Impl)
    (hend : s.mTextUpdateInfo.mCharacterIndex ≥ s.mTextUpdateInfo.mPreviousNumberOfCharacters)
    (hflag : s.mTextUpdateInfo.mIsLastCharacterNewParagraph = true) :
    (CalculateTextUpdateIndices s).1 = 0 := by
  unfold CalculateTextUpdateIndices
  dsimp only
  split
  · rfl
  · rw [if_pos ⟨hend, hflag⟩]

/-- C24, witness: the update of `appendedAfterNewParagraph`. -/
theorem CalculateTextUpdateIndices_after_new_paragraph_witness :
    appendedAfterNewParagraph.mTextUpdateInfo.mCharacterIndex ≥
      appendedAfterNewParagraph.mTextUpdateInfo.mPreviousNumberOfCharacters ∧
    appendedAfterNewParagraph.mTextUpdateInfo.mIsLastCharacterNewParagraph = true ∧
    (CalculateTextUpdateIndices appendedAfterNewParagraph).1 = 0 :=
  ⟨by decide, rfl,
    CalculateTextUpdateIndices_after_new_paragraph appendedAfterNewParagraph (by decide) rfl⟩

/-! ## Clearing the whole model -/

/-- C25. Full clear.  `ClearFullModelData` with the mask `GET_WORD_BREAKS` leaves the
word break info of `brokenIntoWords` as it was, five entries, and empties the line break
info instead, which was not asked for: the branch of `GET_WORD_BREAKS` clears
`mLineBreakInfo`. -/
theorem ClearFullModelData_keeps_word_breaks :
    brokenIntoWords.mLogicalModel.mWordBreakInfo.items = [1, 1, 1, 1, 0] ∧
    brokenIntoWords.mLogicalModel.mLineBreakInfo.items = [2, 2, 2, 2, 0] ∧
    (ClearFullModelData { GET_WORD_BREAKS := true } brokenIntoWords).mLogicalModel.mWordBreakInfo.items
      = [1, 1, 1, 1, 0] ∧
    (ClearFullModelData { GET_WORD_BREAKS := true } brokenIntoWords).mLogicalModel.mLineBreakInfo.items
      = [] := by
  decide

/-! ## Retrieving the selection -/

theorem enterState_mPrimaryCursorPosition (s : Impl) (e : EventData) :
    (enterState s e).1.mPrimaryCursorPosition = e.mPrimaryCursorPosition := by
  unfold enterState
  cases e.mState <;>
    simp only [showPopupIfEnabled, hidePopupIfEnabled, startBlinkIfEnabled, SetPopupButtons,
      setHandles] <;>
    (repeat' split) <;> rfl

/-- `ChangeState` changes the event data and the count of the calls that hide the
clipboard, and in the event data it keeps the position of the primary cursor. -/
theorem ChangeState_eq (newState : State) (s : Impl) :
    ∃ eventData hidden, ChangeState newState s =
        { s with mEventData := eventData, clipboardHidden := hidden } ∧
      eventData.map (fun e => e.mPrimaryCursorPosition) =
        s.mEventData.map (fun e => e.mPrimaryCursorPosition) := by
  unfold ChangeState
  split
  · rename_i h
    exact ⟨none, s.clipboardHidden, by rw [← h], by rw [h]⟩
  · rename_i e h
    split
    · dsimp only
      refine ⟨some (enterState s { e with mState := newState }).1,
        (if (enterState s { e with mState := newState }).2 = true then
          (HideClipboard { s with
            mEventData := some (enterState s { e with mState := newState }).1 }).clipboardHidden
         else s.clipboardHidden), ?_, ?_⟩
      · split
        · unfold HideClipboard
          split <;> rfl
        · rfl
      · rw [h]
        exact congrArg some (enterState_mPrimaryCursorPosition s { e with mState := newState })
    · exact ⟨some e, s.clipboardHidden, by rw [← h], by rw [h]⟩

/-- The range check of `RetrieveSelection`: when the larger handle position exceeds the
number of characters nothing is done, whatever the string passed holds. -/
theorem RetrieveSelection_skips (s : Impl) (e : EventData) (selectedText : String)
    (deleteAfterRetrieval : Bool)
    (h : s.mEventData = some e)
    (hne : e.mLeftSelectionPosition ≠ e.mRightSelectionPosition)
    (hl : e.mLeftSelectionPosition < UINT_RANGE) (hr : e.mRightSelectionPosition < UINT_RANGE)
    (hout : s.numberOfCharacters < max e.mLeftSelectionPosition e.mRightSelectionPosition) :
    RetrieveSelection selectedText deleteAfterRetrieval s = some (selectedText, s) := by
  unfold RetrieveSelection
  rw [h]
  dsimp only
  rw [if_neg hne]
  by_cases hc : e.mLeftSelectionPosition > e.mRightSelectionPosition
  · have hmax : max e.mLeftSelectionPosition e.mRightSelectionPosition =
        e.mLeftSelectionPosition := max_eq_left (by omega)
    rw [hmax] at hout
    simp only [hc, decide_True, if_true]
    rw [usub_of_le (by omega) hl, uadd_of_lt (by omega), if_neg (by omega)]
  · have hmax : max e.mLeftSelectionPosition e.mRightSelectionPosition =
        e.mRightSelectionPosition := max_eq_right (by omega)
    rw [hmax] at hout
    simp only [hc, decide_False, if_false, Bool.false_eq_true]
    rw [usub_of_le (by omega) hr, uadd_of_lt (by omega), if_neg (by omega)]

/-- C22. Out-of-range retrieval.  When the two handles stand at distinct positions and the
larger one exceeds the number of characters, `RetrieveSelection`, called as the program
calls it (by `SendSelectionToClipboard`, with a string just constructed), returns with or
without `deleteAfterRetrieval`; the selected text it returns is empty and the state
afterwards is the state before: the text, the style runs, the update info and the primary
cursor are unchanged.  `SendSelectionToClipboard` then sends the empty string to the
clipboard and changes the state to `EDITING`, and still leaves the text, the log of the
calls on the style runs and the update info as they were. -/
theorem RetrieveSelection_out_of_range (s : Impl) (e : EventData)
    (deleteAfterRetrieval : Bool)
    (h : s.mEventData = some e)
    (hne : e.mLeftSelectionPosition ≠ e.mRightSelectionPosition)
    (hl : e.mLeftSelectionPosition < UINT_RANGE) (hr : e.mRightSelectionPosition < UINT_RANGE)
    (hout : s.numberOfCharacters < max e.mLeftSelectionPosition e.mRightSelectionPosition) :
    RetrieveSelection "" deleteAfterRetrieval s = some ("", s) ∧
    SendSelectionToClipboard deleteAfterRetrieval s =
      some (ChangeState .EDITING (CopyStringToClipboard "" s)) ∧
    ∃ t, SendSelectionToClipboard deleteAfterRetrieval s = some t ∧
      t.clipboardItems = (if s.mClipboard then s.clipboardItems ++ [""] else s.clipboardItems) ∧
      t.mLogicalModel.mText = s.mLogicalModel.mText ∧
      t.styleRunUpdates = s.styleRunUpdates ∧
      t.styleRetrievals = s.styleRetrievals ∧
      t.mTextUpdateInfo = s.mTextUpdateInfo ∧
      t.mEventData.map (fun et => et.mPrimaryCursorPosition) = some e.mPrimaryCursorPosition := by
  have key := RetrieveSelection_skips s e "" deleteAfterRetrieval h hne hl hr hout
  have hsend : SendSelectionToClipboard deleteAfterRetrieval s =
      some (ChangeState .EDITING (CopyStringToClipboard "" s)) := by
    unfold SendSelectionToClipboard
    rw [key]
    rfl
  refine ⟨key, hsend, _, hsend, ?_⟩
  obtain ⟨eventData, hidden, heq, hcursor⟩ :=
    ChangeState_eq .EDITING (CopyStringToClipboard "" s)
  have hcopy : (CopyStringToClipboard "" s).mEventData = s.mEventData := by
    unfold CopyStringToClipboard
    split <;> rfl
  rw [hcopy, h] at hcursor
  rw [heq]
  refine ⟨?_, ?_, ?_, ?_, ?_, hcursor⟩ <;>
    (unfold CopyStringToClipboard; split <;> simp_all)

/-- C22, witness.  The selection of `overlongSelection` runs from 2 to 7 in a text of 5
characters: the text retrieved is empty and the state is unchanged. -/
theorem RetrieveSelection_out_of_range_witness :
    overlongSelection.mEventData = some overlongSelectionData ∧
    overlongSelectionData.mLeftSelectionPosition ≠
      overlongSelectionData.mRightSelectionPosition ∧
    overlongSelection.numberOfCharacters <
      max overlongSelectionData.mLeftSelectionPosition
        overlongSelectionData.mRightSelectionPosition ∧
    RetrieveSelection "" true overlongSelection = some ("", overlongSelection) :=
  ⟨rfl, by decide, by decide,
    (RetrieveSelection_out_of_range overlongSelection overlongSelectionData true rfl
      (by decide) (by decide) (by decide) (by decide)).1⟩

/-! ## Clearing a range of glyphs -/

theorem Buffer.items_eq_read {α : Type} (b : Buffer α) {i : Nat} (h : i < b.items.length) :
    b.items[i]? = some (b.read i) := by
  rw [Buffer.read_of_lt b h, List.getElem?_eq_getElem h]

theorem Buffer.read_eq_of_items {α : Type} (b : Buffer α) {i : Nat} {a : α}
    (h : b.items[i]? = some a) : b.read i = a := by
  unfold Buffer.read
  rw [h]

/-- The entries of a list from which the range `[first, last)` has been erased and whose
entries behind the range have been changed by `f`. -/
theorem getElem?_take_append_map_drop {α : Type} (xs : List α) (f : α → α)
    (first last i : Nat) (hf : first ≤ last) (hl : last ≤ xs.length) :
    (xs.take first ++ (xs.drop last).map f)[i]? =
      if i < first then xs[i]? else (xs[i + (last - first)]?).map f := by
  have hlen : (xs.take first).length = first := by
    rw [List.length_take]
    omega
  by_cases h : i < first
  · rw [if_pos h, List.getElem?_append_left (by omega), List.getElem?_take_of_lt h]
  · rw [if_neg h, List.getElem?_append_right (by omega), hlen, List.getElem?_map,
      List.getElem?_drop]
    congr 2
    omega

theorem length_take_append_map_drop {α : Type} (xs : List α) (f : α → α)
    (first last : Nat) (hf : first ≤ last) (hl : last ≤ xs.length) :
    (xs.take first ++ (xs.drop last).map f).length + (last - first) = xs.length := by
  rw [List.length_append, List.length_take, List.length_map, List.length_drop]
  omega

theorem Buffer.Erase_of_le {α : Type} (b : Buffer α) {first last : Nat} (hf : first ≤ last)
    (hl : last ≤ b.items.length) :
    b.Erase first last =
      some { b with items := b.items.take first ++ (b.items.drop last).map id } := by
  unfold Buffer.Erase
  rw [if_pos ⟨hf, hl⟩, List.map_id]

/-- The loop that moves the indices behind the range down, followed by the erasure of the
range. -/
theorem subtractFrom_Erase (b : Buffer Nat) {first last : Nat} (n : Nat) (hf : first ≤ last)
    (hl : last ≤ b.items.length) :
    (subtractFrom b last n).bind (fun shifted => shifted.Erase first last) =
      some { b with
        items := b.items.take first ++ (b.items.drop last).map fun index => usub index n } := by
  unfold subtractFrom
  rw [if_pos hl, Option.some_bind]
  unfold Buffer.Erase
  have hlen : (b.items.take last).length = last := by
    rw [List.length_take]
    omega
  rw [if_pos ⟨hf, by
    dsimp only
    rw [List.length_append, List.length_take, List.length_map, List.length_drop]
    omega⟩]
  dsimp only
  rw [List.take_append_of_le_length (by omega), List.take_take,
    List.drop_append_of_le_length (by omega), Nat.min_eq_left hf]
  have hdrop : List.drop last (List.take last b.items) = [] := by
    rw [List.drop_eq_nil_iff]
    omega
  rw [hdrop, List.nil_append]

/-- The block of `SHAPE_TEXT` returns, and takes the two ranges out of the tables. -/
theorem clearShapedText_eq (s : Impl) (startIndex endIndex glyphEnd : Nat)
    (hge : endGlyphIndexPlusOne endIndex s = glyphEnd)
    (hse : startIndex ≤ endIndex)
    (hend : endIndex < s.mVisualModel.mCharactersToGlyph.Count)
    (hg : s.mTextUpdateInfo.mStartGlyphIndex ≤ glyphEnd)
    (hgl : glyphEnd ≤ s.mVisualModel.mGlyphs.Count)
    (h1 : s.mVisualModel.mGlyphsPerCharacter.Count = s.mVisualModel.mCharactersToGlyph.Count)
    (h2 : s.mVisualModel.mGlyphsToCharacters.Count = s.mVisualModel.mGlyphs.Count)
    (h3 : s.mVisualModel.mCharactersPerGlyph.Count = s.mVisualModel.mGlyphs.Count)
    (h4 : s.mVisualModel.mGlyphPositions.Count = s.mVisualModel.mGlyphs.Count)
    (hchars : s.mVisualModel.mCharactersToGlyph.Count < UINT_RANGE)
    (hglyphs : s.mVisualModel.mGlyphs.Count < UINT_RANGE) :
    clearShapedText startIndex endIndex s =
      some { s with
        mVisualModel :=
          withoutRange startIndex (endIndex + 1) s.mTextUpdateInfo.mStartGlyphIndex glyphEnd
            s.mVisualModel } := by
  unfold Buffer.Count at hend hgl h1 h2 h3 h4 hchars hglyphs
  have hplus : uadd endIndex 1 = endIndex + 1 := uadd_of_lt (by omega)
  have hchr : usub (endIndex + 1) startIndex = endIndex + 1 - startIndex :=
    usub_of_le (by omega) (by omega)
  have hgr : usub glyphEnd s.mTextUpdateInfo.mStartGlyphIndex =
      glyphEnd - s.mTextUpdateInfo.mStartGlyphIndex := usub_of_le hg (by omega)
  unfold clearShapedText
  dsimp only
  rw [hge, hplus, hchr, hgr]
  rw [← Option.bind_assoc, subtractFrom_Erase _ _ (by omega) (by omega), Option.some_bind,
    Buffer.Erase_of_le _ (by omega) (by omega), Option.some_bind,
    Buffer.Erase_of_le _ hg (by omega), Option.some_bind]
  rw [← Option.bind_assoc, subtractFrom_Erase _ _ hg (by omega), Option.some_bind,
    Buffer.Erase_of_le _ hg (by omega), Option.some_bind,
    Buffer.Erase_of_le _ hg (by omega), Option.some_bind]
  rfl

theorem read_erased_low {α : Type} (b : Buffer α) (f : α → α) {first last i : Nat}
    (hf : first ≤ last) (hl : last ≤ b.items.length) (hi : i < first) :
    Buffer.read { b with items := b.items.take first ++ (b.items.drop last).map f } i =
      b.read i := by
  apply Buffer.read_eq_of_items
  dsimp only
  rw [getElem?_take_append_map_drop _ _ _ _ _ hf hl, if_pos hi]
  exact Buffer.items_eq_read b (by omega)

theorem read_erased_high {α : Type} (b : Buffer α) (f : α → α) {first last i : Nat}
    (hf : first ≤ last) (hl : last ≤ b.items.length) (hi : first ≤ i)
    (hlt : i + (last - first) < b.items.length) :
    Buffer.read { b with items := b.items.take first ++ (b.items.drop last).map f } i =
      f (b.read (i + (last - first))) := by
  apply Buffer.read_eq_of_items
  dsimp only
  rw [getElem?_take_append_map_drop _ _ _ _ _ hf hl, if_neg (by omega),
    Buffer.items_eq_read b hlt]
  rfl

theorem count_erased {α : Type} (b : Buffer α) (f : α → α) {first last : Nat}
    (hf : first ≤ last) (hl : last ≤ b.items.length) :
    Buffer.Count { b with items := b.items.take first ++ (b.items.drop last).map f } +
      (last - first) = b.Count := by
  unfold Buffer.Count
  exact length_take_append_map_drop _ _ _ _ hf hl

/-- `ClearGlyphModelData` with `SHAPE_TEXT` returns, and its tables are the ones of
`withoutRange`. -/
theorem ClearGlyphModelData_eq (s : Impl) (startIndex endIndex glyphEnd : Nat)
    (operations : OperationsMask)
    (hshape : operations.SHAPE_TEXT = true)
    (hge : endGlyphIndexPlusOne endIndex s = glyphEnd)
    (hse : startIndex ≤ endIndex)
    (hend : endIndex < s.mVisualModel.mCharactersToGlyph.Count)
    (hg : s.mTextUpdateInfo.mStartGlyphIndex ≤ glyphEnd)
    (hgl : glyphEnd ≤ s.mVisualModel.mGlyphs.Count)
    (h1 : s.mVisualModel.mGlyphsPerCharacter.Count = s.mVisualModel.mCharactersToGlyph.Count)
    (h2 : s.mVisualModel.mGlyphsToCharacters.Count = s.mVisualModel.mGlyphs.Count)
    (h3 : s.mVisualModel.mCharactersPerGlyph.Count = s.mVisualModel.mGlyphs.Count)
    (h4 : s.mVisualModel.mGlyphPositions.Count = s.mVisualModel.mGlyphs.Count)
    (hchars : s.mVisualModel.mCharactersToGlyph.Count < UINT_RANGE)
    (hglyphs : s.mVisualModel.mGlyphs.Count < UINT_RANGE)
    (hlayout : operations.LAYOUT = true →
      (clearedLineRuns startIndex endIndex glyphEnd s).2.1 ≤
        (clearedLineRuns startIndex endIndex glyphEnd s).2.2 ∧
      (clearedLineRuns startIndex endIndex glyphEnd s).2.2 ≤
        (clearedLineRuns startIndex endIndex glyphEnd s).1.Count)
    (hcolor : operations.COLOR = true →
      s.mVisualModel.mColorIndices.Count = 0 ∨ glyphEnd ≤ s.mVisualModel.mColorIndices.Count) :
    ∃ t lines colorIndices, ClearGlyphModelData startIndex endIndex operations s = some t ∧
      t.mVisualModel =
        { withoutRange startIndex (endIndex + 1) s.mTextUpdateInfo.mStartGlyphIndex glyphEnd
            s.mVisualModel with mLines := lines, mColorIndices := colorIndices } := by
  unfold ClearGlyphModelData
  dsimp only
  rw [hshape, if_pos rfl, hge,
    clearShapedText_eq s startIndex endIndex glyphEnd hge hse hend hg hgl h1 h2 h3 h4 hchars
      hglyphs, Option.some_bind]
  have hlines : ∃ s2 lines, (if operations.LAYOUT = true then
        clearLines startIndex endIndex glyphEnd { s with
          mVisualModel :=
            withoutRange startIndex (endIndex + 1) s.mTextUpdateInfo.mStartGlyphIndex glyphEnd
              s.mVisualModel }
      else some { s with
          mVisualModel :=
            withoutRange startIndex (endIndex + 1) s.mTextUpdateInfo.mStartGlyphIndex glyphEnd
              s.mVisualModel }) = some s2 ∧
      s2.mVisualModel =
        { withoutRange startIndex (endIndex + 1) s.mTextUpdateInfo.mStartGlyphIndex glyphEnd
            s.mVisualModel with mLines := lines } ∧
      s2.mTextUpdateInfo.mStartGlyphIndex = s.mTextUpdateInfo.mStartGlyphIndex := by
    by_cases hl : operations.LAYOUT = true
    · rw [if_pos hl]
      obtain ⟨ha, hb⟩ := hlayout hl
      unfold clearLines
      dsimp only
      have hsame : clearedLineRuns startIndex endIndex glyphEnd { s with
          mVisualModel :=
            withoutRange startIndex (endIndex + 1) s.mTextUpdateInfo.mStartGlyphIndex glyphEnd
              s.mVisualModel } = clearedLineRuns startIndex endIndex glyphEnd s := rfl
      rw [hsame, Buffer.Erase_of_le _ ha hb, Option.some_bind]
      exact ⟨_, _, rfl, rfl, rfl⟩
    · rw [if_neg hl]
      exact ⟨_, s.mVisualModel.mLines, rfl, rfl, rfl⟩
  obtain ⟨s2, lines, hs2, hv2, hstart2⟩ := hlines
  rw [hs2, Option.some_bind]
  by_cases hc : operations.COLOR = true
  · rw [if_pos hc]
    unfold clearColorIndices
    have hcolors : s2.mVisualModel.mColorIndices = s.mVisualModel.mColorIndices := by
      rw [hv2]
      rfl
    by_cases h0 : s2.mVisualModel.mColorIndices.Count ≠ 0
    · rw [if_pos h0]
      rw [hcolors] at h0
      have hcount : glyphEnd ≤ s.mVisualModel.mColorIndices.Count := by
        rcases hcolor hc with h | h
        · exact absurd h h0
        · exact h
      rw [hstart2, hcolors, Buffer.Erase_of_le _ hg hcount, Option.some_bind]
      refine ⟨_, lines, { s.mVisualModel.mColorIndices with
        items := s.mVisualModel.mColorIndices.items.take s.mTextUpdateInfo.mStartGlyphIndex ++
          (s.mVisualModel.mColorIndices.items.drop glyphEnd).map id }, rfl, ?_⟩
      dsimp only
      rw [hv2]
    · rw [if_neg h0]
      refine ⟨s2, lines, s.mVisualModel.mColorIndices, rfl, ?_⟩
      rw [hv2]
      rfl
  · rw [if_neg hc]
    refine ⟨s2, lines, s.mVisualModel.mColorIndices, rfl, ?_⟩
    rw [hv2]
    rfl

/-- C26. Partial clear keeps the conversion tables consistent.  The tables are consistent,
`[startIndex, endIndex]` is a cluster-aligned range whose glyphs are the ones from
`glyphStart = charactersToGlyph[startIndex]` to
`glyphEnd = charactersToGlyph[endIndex] + glyphsPerCharacter[endIndex]`, and
`mStartGlyphIndex = glyphStart`.  Then `ClearGlyphModelData` with `SHAPE_TEXT` in the mask
returns (the erasures of the lines and of the colour indices being in range when `LAYOUT`
and `COLOR` are in the mask), and afterwards: the tables of the characters have lost
`endIndex - startIndex + 1` entries; the vectors of the glyphs have lost the glyphs of
`[glyphStart, glyphEnd)`; the entries before the ranges are as before and every entry
behind them is the one that stood `endIndex - startIndex + 1` characters (or
`glyphEnd - glyphStart` glyphs) further, moved down by the number of glyphs (or of
characters) removed, without wrap-around; every entry of the two conversion tables is an
index of the other table and `charactersToGlyph[glyphsToCharacters[g]] <= g` for every
glyph left. -/
theorem ClearGlyphModelData_consistent (s : Impl) (startIndex endIndex glyphStart glyphEnd : Nat)
    (operations : OperationsMask)
    (hshape : operations.SHAPE_TEXT = true)
    (hc : ConsistentConversion s.mVisualModel)
    (hgs : glyphStart = s.mVisualModel.mCharactersToGlyph.read startIndex)
    (hge : glyphEnd = s.mVisualModel.mCharactersToGlyph.read endIndex +
      s.mVisualModel.mGlyphsPerCharacter.read endIndex)
    (hstart : s.mTextUpdateInfo.mStartGlyphIndex = glyphStart)
    (ha : ClusterAligned startIndex endIndex glyphStart glyphEnd s.mVisualModel)
    (hchars : s.mVisualModel.mCharactersToGlyph.Count < UINT_RANGE)
    (hglyphs : s.mVisualModel.mGlyphs.Count < UINT_RANGE)
    (hlayout : operations.LAYOUT = true →
      (clearedLineRuns startIndex endIndex glyphEnd s).2.1 ≤
        (clearedLineRuns startIndex endIndex glyphEnd s).2.2 ∧
      (clearedLineRuns startIndex endIndex glyphEnd s).2.2 ≤
        (clearedLineRuns startIndex endIndex glyphEnd s).1.Count)
    (hcolor : operations.COLOR = true →
      s.mVisualModel.mColorIndices.Count = 0 ∨ glyphEnd ≤ s.mVisualModel.mColorIndices.Count) :
    ∃ t, ClearGlyphModelData startIndex endIndex operations s = some t ∧
      (t.mVisualModel.mCharactersToGlyph.Count + (endIndex + 1 - startIndex) =
          s.mVisualModel.mCharactersToGlyph.Count ∧
        t.mVisualModel.mGlyphsPerCharacter.Count + (endIndex + 1 - startIndex) =
          s.mVisualModel.mGlyphsPerCharacter.Count) ∧
      (t.mVisualModel.mGlyphs.items =
          s.mVisualModel.mGlyphs.items.take glyphStart ++
            s.mVisualModel.mGlyphs.items.drop glyphEnd ∧
        t.mVisualModel.mCharactersPerGlyph.items =
          s.mVisualModel.mCharactersPerGlyph.items.take glyphStart ++
            s.mVisualModel.mCharactersPerGlyph.items.drop glyphEnd ∧
        t.mVisualModel.mGlyphPositions.items =
          s.mVisualModel.mGlyphPositions.items.take glyphStart ++
            s.mVisualModel.mGlyphPositions.items.drop glyphEnd ∧
        t.mVisualModel.mGlyphsToCharacters.Count + (glyphEnd - glyphStart) =
          s.mVisualModel.mGlyphsToCharacters.Count) ∧
      ((∀ c < startIndex,
          t.mVisualModel.mCharactersToGlyph.read c = s.mVisualModel.mCharactersToGlyph.read c ∧
          t.mVisualModel.mGlyphsPerCharacter.read c =
            s.mVisualModel.mGlyphsPerCharacter.read c) ∧
        (∀ c < t.mVisualModel.mCharactersToGlyph.Count, startIndex ≤ c →
          t.mVisualModel.mCharactersToGlyph.read c + (glyphEnd - glyphStart) =
            s.mVisualModel.mCharactersToGlyph.read (c + (endIndex + 1 - startIndex)) ∧
          t.mVisualModel.mGlyphsPerCharacter.read c =
            s.mVisualModel.mGlyphsPerCharacter.read (c + (endIndex + 1 - startIndex))) ∧
        (∀ g < glyphStart,
          t.mVisualModel.mGlyphsToCharacters.read g =
            s.mVisualModel.mGlyphsToCharacters.read g) ∧
        (∀ g < t.mVisualModel.mGlyphs.Count, glyphStart ≤ g →
          t.mVisualModel.mGlyphsToCharacters.read g + (endIndex + 1 - startIndex) =
            s.mVisualModel.mGlyphsToCharacters.read (g + (glyphEnd - glyphStart)))) ∧
      ((∀ c < t.mVisualModel.mCharactersToGlyph.Count,
          t.mVisualModel.mCharactersToGlyph.read c < t.mVisualModel.mGlyphs.Count) ∧
        (∀ g < t.mVisualModel.mGlyphs.Count,
          t.mVisualModel.mGlyphsToCharacters.read g < t.mVisualModel.mCharactersToGlyph.Count ∧
          t.mVisualModel.mCharactersToGlyph.read (t.mVisualModel.mGlyphsToCharacters.read g)
            ≤ g)) := by
  obtain ⟨hse, hend, hg, hgl, a1, a2, a3, a4⟩ := ha
  obtain ⟨s1, s2, s3, s4, in1, in2, inv, _⟩ := hc
  have hge1 : endGlyphIndexPlusOne endIndex s = glyphEnd := by
    unfold endGlyphIndexPlusOne
    rw [hge]
    exact uadd_of_lt (by omega)
  subst hstart
  obtain ⟨t, lines, colorIndices, ht, hv⟩ := ClearGlyphModelData_eq s startIndex endIndex glyphEnd
    operations hshape hge1 hse hend hg hgl s1 s2 s3 s4 hchars hglyphs hlayout hcolor
  refine ⟨t, ht, ?_⟩
  unfold Buffer.Count at hend hgl s1 s2 s3 s4 hchars hglyphs
  -- the tables afterwards
  have e1 : t.mVisualModel.mCharactersToGlyph = { s.mVisualModel.mCharactersToGlyph with
      items := s.mVisualModel.mCharactersToGlyph.items.take startIndex ++
        (s.mVisualModel.mCharactersToGlyph.items.drop (endIndex + 1)).map fun index =>
          usub index (glyphEnd - s.mTextUpdateInfo.mStartGlyphIndex) } := by
    rw [hv]
    rfl
  have e2 : t.mVisualModel.mGlyphsPerCharacter = { s.mVisualModel.mGlyphsPerCharacter with
      items := s.mVisualModel.mGlyphsPerCharacter.items.take startIndex ++
        (s.mVisualModel.mGlyphsPerCharacter.items.drop (endIndex + 1)).map id } := by
    rw [hv]
    rfl
  have e3 : t.mVisualModel.mGlyphs = { s.mVisualModel.mGlyphs with
      items := s.mVisualModel.mGlyphs.items.take s.mTextUpdateInfo.mStartGlyphIndex ++
        (s.mVisualModel.mGlyphs.items.drop glyphEnd).map id } := by
    rw [hv]
    rfl
  have e4 : t.mVisualModel.mGlyphsToCharacters = { s.mVisualModel.mGlyphsToCharacters with
      items := s.mVisualModel.mGlyphsToCharacters.items.take s.mTextUpdateInfo.mStartGlyphIndex ++
        (s.mVisualModel.mGlyphsToCharacters.items.drop glyphEnd).map fun index =>
          usub index (endIndex + 1 - startIndex) } := by
    rw [hv]
    rfl
  have e5 : t.mVisualModel.mCharactersPerGlyph = { s.mVisualModel.mCharactersPerGlyph with
      items := s.mVisualModel.mCharactersPerGlyph.items.take s.mTextUpdateInfo.mStartGlyphIndex ++
        (s.mVisualModel.mCharactersPerGlyph.items.drop glyphEnd).map id } := by
    rw [hv]
    rfl
  have e6 : t.mVisualModel.mGlyphPositions = { s.mVisualModel.mGlyphPositions with
      items := s.mVisualModel.mGlyphPositions.items.take s.mTextUpdateInfo.mStartGlyphIndex ++
        (s.mVisualModel.mGlyphPositions.items.drop glyphEnd).map id } := by
    rw [hv]
    rfl
  -- their lengths
  have n1 := count_erased s.mVisualModel.mCharactersToGlyph
    (fun index => usub index (glyphEnd - s.mTextUpdateInfo.mStartGlyphIndex))
    (show startIndex ≤ endIndex + 1 by omega) (show endIndex + 1 ≤ _ by omega)
  have n2 := count_erased s.mVisualModel.mGlyphsPerCharacter id
    (show startIndex ≤ endIndex + 1 by omega) (show endIndex + 1 ≤ _ by omega)
  have n3 := count_erased s.mVisualModel.mGlyphs id hg hgl
  have n4 := count_erased s.mVisualModel.mGlyphsToCharacters
    (fun index => usub index (endIndex + 1 - startIndex)) hg (show glyphEnd ≤ _ by omega)
  rw [← e1] at n1
  rw [← e2] at n2
  rw [← e3] at n3
  rw [← e4] at n4
  unfold Buffer.Count at n1 n2 n3 n4 ⊢
  -- the entries before and behind the ranges
  have r1 : ∀ c < startIndex, t.mVisualModel.mCharactersToGlyph.read c =
      s.mVisualModel.mCharactersToGlyph.read c := by
    intro c hc
    rw [e1]
    exact read_erased_low _ _ (by omega) (by omega) hc
  have r2 : ∀ c < t.mVisualModel.mCharactersToGlyph.items.length, startIndex ≤ c →
      t.mVisualModel.mCharactersToGlyph.read c + (glyphEnd - s.mTextUpdateInfo.mStartGlyphIndex) =
        s.mVisualModel.mCharactersToGlyph.read (c + (endIndex + 1 - startIndex)) := by
    intro c hc hsc
    have hlt : c + (endIndex + 1 - startIndex) < s.mVisualModel.mCharactersToGlyph.items.length := by
      omega
    have hin := in1 _ hlt
    have hbehind := a3 _ hlt (by omega)
    rw [e1, read_erased_high _ _ (by omega) (by omega) hsc hlt]
    rw [usub_of_le (by omega) (by unfold Buffer.Count at hin; omega)]
    omega
  have r3 : ∀ g < s.mTextUpdateInfo.mStartGlyphIndex, t.mVisualModel.mGlyphsToCharacters.read g =
      s.mVisualModel.mGlyphsToCharacters.read g := by
    intro g hg1
    rw [e4]
    exact read_erased_low _ _ hg (by omega) hg1
  have r4 : ∀ g < t.mVisualModel.mGlyphs.items.length, s.mTextUpdateInfo.mStartGlyphIndex ≤ g →
      t.mVisualModel.mGlyphsToCharacters.read g + (endIndex + 1 - startIndex) =
        s.mVisualModel.mGlyphsToCharacters.read (g + (glyphEnd - s.mTextUpdateInfo.mStartGlyphIndex)) := by
    intro g hg1 hsg
    have hlt : g + (glyphEnd - s.mTextUpdateInfo.mStartGlyphIndex) <
        s.mVisualModel.mGlyphs.items.length := by omega
    have hin := in2 _ hlt
    have hbehind := a4 _ hlt (by omega)
    rw [e4, read_erased_high _ _ hg (by omega) hsg (by omega)]
    rw [usub_of_le (by omega) (by unfold Buffer.Count at hin; omega)]
    omega
  refine ⟨⟨n1, n2⟩, ⟨?_, ?_, ?_, n4⟩, ⟨?_, ?_, r3, r4⟩, ?_, ?_⟩
  · rw [e3, List.map_id]
  · rw [e5, List.map_id]
  · rw [e6, List.map_id]
  · intro c hc
    refine ⟨r1 c hc, ?_⟩
    rw [e2]
    exact read_erased_low _ _ (by omega) (by omega) hc
  · intro c hc hsc
    refine ⟨r2 c hc hsc, ?_⟩
    rw [e2, read_erased_high _ _ (by omega) (by omega) hsc (by omega)]
    rfl
  · intro c hc
    by_cases hsc : c < startIndex
    · rw [r1 c hsc]
      have := a1 c hsc
      omega
    · have hlt : c + (endIndex + 1 - startIndex) < s.mVisualModel.mCharactersToGlyph.items.length := by
        omega
      have hin := in1 _ hlt
      have := r2 c hc (by omega)
      unfold Buffer.Count at hin
      omega
  · intro g hg1
    by_cases hsg : g < s.mTextUpdateInfo.mStartGlyphIndex
    · have hbefore := a2 g hsg
      have hinv := inv g (by unfold Buffer.Count; omega)
      rw [r3 g hsg, r1 _ hbefore]
      exact ⟨by omega, hinv⟩
    · have hlt : g + (glyphEnd - s.mTextUpdateInfo.mStartGlyphIndex) <
          s.mVisualModel.mGlyphs.items.length := by omega
      have hin := in2 _ hlt
      have hbehind := a4 _ hlt (by omega)
      have hinv := inv _ hlt
      have hmoved := r4 g hg1 (by omega)
      unfold Buffer.Count at hin
      have hnew : t.mVisualModel.mGlyphsToCharacters.read g <
          t.mVisualModel.mCharactersToGlyph.items.length := by omega
      have hback := r2 _ hnew (by omega)
      rw [hmoved] at hback
      exact ⟨hnew, by omega⟩

/-- C26, witness.  The tables of "hello" are consistent and the characters 1 and 2 are a
cluster-aligned range with the glyphs 1 and 2; clearing them with every stage in the mask
leaves three characters and three glyphs, the last two of each moved down by two. -/
theorem ClearGlyphModelData_consistent_witness :
    ConsistentConversion clearingHello.mVisualModel ∧
    ClusterAligned 1 2 1 3 clearingHello.mVisualModel ∧
    (ClearGlyphModelData 1 2 { SHAPE_TEXT := true, LAYOUT := true, COLOR := true }
      clearingHello).map (fun t => (t.mVisualModel.mCharactersToGlyph.items,
        t.mVisualModel.mGlyphsToCharacters.items)) = some ([0, 1, 2], [0, 1, 2]) ∧
    ∃ t, ClearGlyphModelData 1 2 { SHAPE_TEXT := true, LAYOUT := true, COLOR := true }
        clearingHello = some t ∧
      t.mVisualModel.mCharactersToGlyph.Count + (2 + 1 - 1) = 5 ∧
      ∀ g < t.mVisualModel.mGlyphs.Count,
        t.mVisualModel.mGlyphsToCharacters.read g < t.mVisualModel.mCharactersToGlyph.Count ∧
        t.mVisualModel.mCharactersToGlyph.read (t.mVisualModel.mGlyphsToCharacters.read g) ≤ g := by
  have hc : ConsistentConversion clearingHello.mVisualModel := by
    unfold ConsistentConversion
    decide
  have ha : ClusterAligned 1 2 1 3 clearingHello.mVisualModel := by
    unfold ClusterAligned
    decide
  obtain ⟨t, ht, hcount, _, _, _, hinv⟩ :=
    ClearGlyphModelData_consistent clearingHello 1 2 1 3
      { SHAPE_TEXT := true, LAYOUT := true, COLOR := true } rfl hc (by decide) (by decide) rfl ha
      (by decide) (by decide) (fun _ => by decide) (fun _ => Or.inl (by decide))
  exact ⟨hc, ha, by decide, t, ht, hcount.1, hinv⟩


/-! ## The event data during the dispatch of the events -/

theorem updateEventData_isSome {f : EventData → EventData} {s t : Impl}
    (h : updateEventData f s = some t) : t.mEventData.isSome = true := by
  obtain ⟨e, _, rfl⟩ := updateEventData_some h
  rfl

theorem bind_updateEventData_isSome {f : EventData → EventData} {x : Option Impl} {t : Impl}
    (h : x.bind (updateEventData f) = some t) : t.mEventData.isSome = true := by
  obtain ⟨m, _, h2⟩ := Option.bind_eq_some.mp h
  exact updateEventData_isSome h2

theorem ite_some_isSome {b : Prop} [Decidable b] {a c t : Impl}
    (h : (if b then some a else some c) = some t)
    (ha : a.mEventData.isSome = true) (hc : c.mEventData.isSome = true) :
    t.mEventData.isSome = true := by
  split at h <;> cases h <;> assumption

theorem OnCursorKeyEvent_isSome {event : Event} {s t : Impl}
    (h : OnCursorKeyEvent event s = some t) (hs : s.mEventData.isSome = true) :
    t.mEventData.isSome = true := by
  unfold OnCursorKeyEvent at h
  split at h
  · cases h
    exact hs
  · exact bind_updateEventData_isSome h

theorem OnTapEvent_isSome {event : Event} {s t : Impl}
    (h : OnTapEvent event s = some t) (hs : s.mEventData.isSome = true) :
    t.mEventData.isSome = true := by
  unfold OnTapEvent at h
  split at h
  · cases h
    exact hs
  · split at h
    · exact ite_some_isSome h rfl rfl
    · cases h
      exact hs

theorem OnPanEvent_isSome {event : Event} {s t : Impl}
    (h : OnPanEvent event s = some t) (hs : s.mEventData.isSome = true) :
    t.mEventData.isSome = true := by
  unfold OnPanEvent at h
  split at h
  · cases h
    exact hs
  · dsimp only at h
    split at h
    · obtain ⟨s1, _, h⟩ := Option.bind_eq_some.mp h
      obtain ⟨s2, _, h⟩ := Option.bind_eq_some.mp h
      exact updateEventData_isSome h
    · cases h
      exact hs

theorem OnLongPressEvent_isSome {event : Event} {s t : Impl}
    (h : OnLongPressEvent event s = some t) (hs : s.mEventData.isSome = true) :
    t.mEventData.isSome = true := by
  unfold OnLongPressEvent at h
  split at h
  · cases h
  · split at h
    · exact updateEventData_isSome h
    · cases h
      exact hs

theorem handlePressed_isSome {event : Event} {smooth : Bool} {s t : Impl}
    (h : handlePressed event smooth s = some t) (hs : s.mEventData.isSome = true) :
    t.mEventData.isSome = true := by
  unfold handlePressed at h
  dsimp only at h
  split at h
  · exact updateEventData_isSome h
  · exact updateEventData_isSome h
  · exact updateEventData_isSome h
  · cases h
    exact hs

theorem OnHandleEvent_isSome {event : Event} {s t : Impl}
    (h : OnHandleEvent event s = some t) (hs : s.mEventData.isSome = true) :
    t.mEventData.isSome = true := by
  unfold OnHandleEvent at h
  split at h
  · cases h
    exact hs
  · dsimp only at h
    split at h
    · exact handlePressed_isSome h hs
    · split at h
      · unfold handleReleased at h
        exact bind_updateEventData_isSome h
      · split at h
        · unfold handleScrolling at h
          obtain ⟨s1, _, h⟩ := Option.bind_eq_some.mp h
          obtain ⟨s2, _, h⟩ := Option.bind_eq_some.mp h
          obtain ⟨s3, _, h⟩ := Option.bind_eq_some.mp h
          exact bind_updateEventData_isSome h
        · cases h
          exact hs

theorem OnSelectEvent_isSome {event : Event} {s t : Impl}
    (h : OnSelectEvent event s = some t) (hs : s.mEventData.isSome = true) :
    t.mEventData.isSome = true := by
  unfold OnSelectEvent at h
  split at h
  · cases h
    exact hs
  · split at h
    · unfold RepositionSelectionHandlesAt at h
      split at h
      · cases h
        exact hs
      · split at h
        · cases h
          exact hs
        · split at h
          · cases h
            exact hs
          · dsimp only at h
            split at h <;> exact updateEventData_isSome h
    · cases h
      exact hs

theorem OnSelectAllEvent_isSome {s t : Impl}
    (h : OnSelectAllEvent s = some t) (hs : s.mEventData.isSome = true) :
    t.mEventData.isSome = true := by
  unfold OnSelectAllEvent at h
  split at h
  · cases h
    exact hs
  · split at h
    · exact updateEventData_isSome h
    · cases h
      exact hs

/-- No handler of an input event takes the event data away. -/
theorem dispatchEvent_isSome {event : Event} {s t : Impl}
    (h : dispatchEvent event s = some t) (hs : s.mEventData.isSome = true) :
    t.mEventData.isSome = true := by
  unfold dispatchEvent at h
  split at h
  · exact OnCursorKeyEvent_isSome h hs
  · exact OnTapEvent_isSome h hs
  · exact OnLongPressEvent_isSome h hs
  · exact OnPanEvent_isSome h hs
  · exact OnHandleEvent_isSome h hs
  · exact OnHandleEvent_isSome h hs
  · exact OnHandleEvent_isSome h hs
  · exact OnSelectEvent_isSome h hs
  · exact OnSelectAllEvent_isSome h hs

/-- The states met by the loop of `ProcessInputEvents` over the queue have event data
when the first one has. -/
theorem dispatchEvents_isSome (queue : List Event) {s t : Impl}
    (h : dispatchEvents queue s = some t) (hs : s.mEventData.isSome = true) :
    t.mEventData.isSome = true := by
  induction queue generalizing s with
  | nil =>
    cases h
    exact hs
  | cons event rest ih =>
    unfold dispatchEvents at h
    obtain ⟨m, h1, h⟩ := Option.bind_eq_some.mp h
    exact ih h (dispatchEvent_isSome h1 hs)

theorem ChangeState_isSome (newState : State) {s : Impl} (hs : s.mEventData.isSome = true) :
    (ChangeState newState s).mEventData.isSome = true := by
  unfold ChangeState
  split
  · rename_i h
    rw [h] at hs
    cases hs
  · split
    · dsimp only
      split
      · rw [HideClipboard_mEventData]
        rfl
      · rfl
    · exact hs

/-! ## Handlers without event data -/

theorem float.lt_iff (a b : float) : a < b ↔ float.lt a b = true := Iff.rfl

theorem float.le_iff (a b : float) : a ≤ b ↔ float.le a b = true := Iff.rfl

theorem float.zero_eq : (0 : float) = .finite 0 := by
  decide!

theorem float.neg_eq (a : float) : -a = float.neg a := rfl

theorem float.sub_eq (a b : float) : a - b = float.add a (float.neg b) := rfl

theorem float.add_eq (a b : float) : a + b = float.add a b := rfl

/-- The magnitude a positive rational is rounded to is not negative. -/
theorem roundMagnitude_nonneg {a d : Nat} {r : ℚ} (h : roundMagnitude a d = some r) :
    0 ≤ r := by
  simp only [roundMagnitude] at h
  split_ifs at h <;> first | (cases h; done) | (cases h; positivity)

/-- Rounding keeps the sign: a rational that is not negative is rounded to a finite number
that is not negative or to the positive infinity. -/
theorem float.ofRat_nonneg {q : ℚ} (hq : 0 ≤ q) : (0 : float) ≤ float.ofRat q := by
  rw [float.zero_eq, float.le_iff]
  unfold float.ofRat
  split
  · simp [float.le]
  · split
    · rename_i r hr
      have := roundMagnitude_nonneg hr
      rw [if_neg (not_lt.2 hq)]
      simpa [float.le] using this
    · simp [float.le, not_lt.2 hq]

theorem float.le_of_not_lt {a b : float} (ha : a.isNaN = false) (hb : b.isNaN = false)
    (h : ¬ a < b) : b ≤ a := by
  rw [float.lt_iff] at h
  rw [float.le_iff]
  rcases a with x | na | _ <;> rcases b with y | nb | _ <;>
    simp_all [float.lt, float.le, float.isNaN] <;>
    (try cases na) <;> (try cases nb) <;> simp_all

theorem float.not_lt_of_le {a b : float} (h : a ≤ b) : ¬ b < a := by
  rw [float.lt_iff]
  rw [float.le_iff] at h
  rcases a with x | na | _ <;> rcases b with y | nb | _ <;>
    simp_all [float.lt, float.le] <;>
    (try cases na) <;> (try cases nb) <;> simp_all

theorem float.le_of_lt {a b : float} (h : a < b) : a ≤ b := by
  rw [float.lt_iff] at h
  rw [float.le_iff]
  rcases a with x | na | _ <;> rcases b with y | nb | _ <;>
    simp_all [float.lt, float.le] <;>
    first | exact h.le | ((try cases na) <;> (try cases nb) <;> simp_all)

theorem float.le_refl {a : float} (ha : a.isNaN = false) : a ≤ a := by
  rw [float.le_iff]
  rcases a with x | na | _ <;> simp_all [float.le, float.isNaN]

theorem float.le_trans {a b c : float} (h1 : a ≤ b) (h2 : b ≤ c) : a ≤ c := by
  rw [float.le_iff] at h1 h2 ⊢
  rcases a with x | na | _ <;> rcases b with y | nb | _ <;> rcases c with z | nc | _ <;>
    simp_all [float.le] <;>
    first | exact h1.trans h2
          | ((try cases na) <;> (try cases nb) <;> (try cases nc) <;> simp_all)

theorem float.isNaN_of_le {a b : float} (h : a ≤ b) : a.isNaN = false ∧ b.isNaN = false := by
  rw [float.le_iff] at h
  rcases a with x | na | _ <;> rcases b with y | nb | _ <;>
    simp_all [float.le, float.isNaN]

theorem float.neg_nonpos {a : float} (h : 0 ≤ a) : -a ≤ 0 := by
  rw [float.zero_eq, float.le_iff] at h
  rw [float.zero_eq, float.le_iff, float.neg_eq]
  rcases a with x | na | _ <;> simp_all [float.le, float.neg]

/-- A difference of `float`s is not negative when the first one is the greater. -/
theorem float.sub_nonneg_of_lt {a b : float} (h : b < a) : 0 ≤ a - b := by
  rw [float.lt_iff] at h
  rw [float.sub_eq]
  rcases a with x | na | _ <;> rcases b with y | nb | _ <;>
    simp_all [float.lt, float.neg, float.add]
  · exact float.ofRat_nonneg (by linarith)
  all_goals (rw [float.zero_eq, float.le_iff]; simp [float.le])

/-! ## Scrolling -/

/-- The two tests that clamp an offset that is not a NaN between a bound `m <= 0` and 0. -/
theorem clamp_range {x m : float} (hx : x.isNaN = false) (hm : m ≤ 0) :
    m ≤ (if (if x < m then m else x) > 0 then 0 else (if x < m then m else x)) ∧
    (if (if x < m then m else x) > 0 then 0 else (if x < m then m else x)) ≤ 0 ∧
    (m ≤ x → x ≤ 0 →
      (if (if x < m then m else x) > 0 then 0 else (if x < m then m else x)) = x) := by
  have hmn := (float.isNaN_of_le hm).1
  have h0n := (float.isNaN_of_le hm).2
  by_cases h1 : x < m
  · rw [if_pos h1, if_neg (float.not_lt_of_le hm)]
    exact ⟨float.le_refl hmn, hm, fun hle => absurd h1 (float.not_lt_of_le hle)⟩
  · rw [if_neg h1]
    by_cases h2 : x > 0
    · rw [if_pos h2]
      exact ⟨hm, float.le_refl h0n, fun _ hle => absurd h2 (float.not_lt_of_le hle)⟩
    · rw [if_neg h2]
      exact ⟨float.le_of_not_lt hx hmn h1, float.le_of_not_lt h0n hx h2, fun _ _ => rfl⟩

/-- One axis of `ScrollToMakePositionVisible` when its arithmetic is exact: the new offset
is a finite number, it is the old one when the rectangle already lies inside the control,
and a rectangle no larger than the control lies inside the control afterwards. -/
theorem nudge_axis {position size offset control : float}
    (h : exactAxis position size offset control = true) :
    (if position + offset < 0 then -position
      else if position + size + offset > control then control - (position + size)
      else offset).isFinite = true ∧
    (0 ≤ position.toRat + offset.toRat →
      position.toRat + size.toRat + offset.toRat ≤ control.toRat →
      (if position + offset < 0 then -position
        else if position + size + offset > control then control - (position + size)
        else offset) = offset) ∧
    (size.toRat ≤ control.toRat →
      0 ≤ position.toRat +
        (if position + offset < 0 then -position
          else if position + size + offset > control then control - (position + size)
          else offset).toRat ∧
      position.toRat + size.toRat +
        (if position + offset < 0 then -position
          else if position + size + offset > control then control - (position + size)
          else offset).toRat ≤ control.toRat) := by
  rcases position with p | _ | _ <;> rcases size with d | _ | _ <;>
    rcases offset with o | _ | _ <;> rcases control with c | _ | _ <;>
    simp only [exactAxis, Bool.false_eq_true] at h
  simp only [Bool.and_eq_true, decide_eq_true_eq] at h
  obtain ⟨⟨⟨h1, h2⟩, h3⟩, h4⟩ := h
  simp only [h1, h2, h3, h4, gt_iff_lt, float.zero_eq, float.lt_iff, float.lt, float.neg_eq,
    float.neg, decide_eq_true_eq, float.toRat]
  refine ⟨?_, ?_, ?_⟩
  · split_ifs <;> rfl
  · intro ha hb
    split_ifs <;> first | rfl | (exfalso; linarith)
  · intro ha
    split_ifs <;> simp only [float.toRat] <;> constructor <;> linarith

/-- C17 as stated fails.  The control is 100 by 20, the cursor 1 wide, the scroll offset
(0, 0) and the position (16777216, 0), with a line height of 20.  The rectangle is no
larger than the control.  `ScrollToMakePositionVisible` sets the x offset to -16777116, so
the rectangle ends at 16777216 + 1 - 16777116 = 101, past the width 100 of the control: in
binary32 `position.x + cursorWidth` is rounded to 16777216.  And with the scroll offset
(-16777119, 0) and the position (16777218, 0) the rectangle translated by the offset runs
from 99 to 100, inside the control, yet the x offset is changed to -16777120: in binary32
`position.x + cursorWidth` is rounded to 16777220. -/
theorem ScrollToMakePositionVisible_past_the_edge :
    thinCursorControl.mEventData.map (fun e => e.mDecorator.cursorWidth) = some 1 ∧
    thinCursorControl.mVisualModel.mControlSize = ⟨.finite 100, .finite 20⟩ ∧
    thinCursorControl.mScrollPosition = ⟨.finite 0, .finite 0⟩ ∧
    (ScrollToMakePositionVisible ⟨.finite 16777216, .finite 0⟩ (.finite 20)
      thinCursorControl).map (fun t => t.mScrollPosition) =
      some ⟨.finite (-16777116), .finite 0⟩ ∧
    (100 : ℚ) < 16777216 + 1 + (-16777116) ∧
    (ScrollToMakePositionVisible ⟨.finite 16777218, .finite 0⟩ (.finite 20)
      { thinCursorControl with mScrollPosition := ⟨.finite (-16777119), .finite 0⟩ }).map
        (fun t => t.mScrollPosition) =
      some ⟨.finite (-16777120), .finite 0⟩ ∧
    (0 : ℚ) ≤ 16777218 + (-16777119) ∧ (16777218 : ℚ) + 1 + (-16777119) ≤ 100 := by
  decide!

/-- C17, amended.  `ScrollToMakePositionVisible` nudges minimally, for every position, line
height and scroll offset for which the binary32 arithmetic of the function is exact: the
values are finite numbers, the conversion of the cursor width to a `float` and, on each
axis, `position + size`, `position + offset`, `( position + size ) + offset` and
`control - ( position + size )` are not rounded.  The scroll offset of an axis is then left
unchanged when the rectangle (`position`, cursor width by line height) translated by the
current offset already lies inside the control on that axis; and after the call a rectangle
no larger than the control lies inside `[0, control width]` by `[0, control height]` in
decorator coordinates. -/
theorem ScrollToMakePositionVisible_minimal (s : Impl) (e : EventData) (position : Vector2)
    (lineHeight : float) (h : s.mEventData = some e)
    (hc : ((e.mDecorator.cursorWidth : Int) : float) = .finite e.mDecorator.cursorWidth)
    (hx : exactAxis position.x (e.mDecorator.cursorWidth : float) s.mScrollPosition.x
      s.mVisualModel.mControlSize.width = true)
    (hy : exactAxis position.y lineHeight s.mScrollPosition.y
      s.mVisualModel.mControlSize.height = true) :
    ∃ s1, ScrollToMakePositionVisible position lineHeight s = some s1 ∧
      s1.mScrollPosition.x.isFinite = true ∧ s1.mScrollPosition.y.isFinite = true ∧
      (0 ≤ position.x.toRat + s.mScrollPosition.x.toRat →
        position.x.toRat + e.mDecorator.cursorWidth + s.mScrollPosition.x.toRat
          ≤ s.mVisualModel.mControlSize.width.toRat →
        s1.mScrollPosition.x = s.mScrollPosition.x) ∧
      (0 ≤ position.y.toRat + s.mScrollPosition.y.toRat →
        position.y.toRat + lineHeight.toRat + s.mScrollPosition.y.toRat
          ≤ s.mVisualModel.mControlSize.height.toRat →
        s1.mScrollPosition.y = s.mScrollPosition.y) ∧
      ((e.mDecorator.cursorWidth : ℚ) ≤ s.mVisualModel.mControlSize.width.toRat →
        0 ≤ position.x.toRat + s1.mScrollPosition.x.toRat ∧
        position.x.toRat + e.mDecorator.cursorWidth + s1.mScrollPosition.x.toRat
          ≤ s.mVisualModel.mControlSize.width.toRat) ∧
      (lineHeight.toRat ≤ s.mVisualModel.mControlSize.height.toRat →
        0 ≤ position.y.toRat + s1.mScrollPosition.y.toRat ∧
        position.y.toRat + lineHeight.toRat + s1.mScrollPosition.y.toRat
          ≤ s.mVisualModel.mControlSize.height.toRat) := by
  have hcw : ((e.mDecorator.cursorWidth : Int) : float).toRat = e.mDecorator.cursorWidth := by
    rw [hc]; rfl
  obtain ⟨x1, x2, x3⟩ := nudge_axis hx
  obtain ⟨y1, y2, y3⟩ := nudge_axis hy
  rw [hcw] at x2 x3
  simp only [ScrollToMakePositionVisible, h, Option.some.injEq, exists_eq_left']
  exact ⟨x1, y1, x2, y2, x3, y3⟩

/-- C17, witness.  The control showing "hello", 100 by 20, with a cursor 1 wide at
x = 130, outside the control: the arithmetic is exact, and the x offset becomes -31, which
puts the cursor at the right edge. -/
theorem ScrollToMakePositionVisible_minimal_witness :
    thinCursorControl.mEventData =
      some { newEventData with mDecorator := { idleDecorator with cursorWidth := 1 } } ∧
    exactAxis (.finite 130) ((1 : Int) : float) thinCursorControl.mScrollPosition.x
      thinCursorControl.mVisualModel.mControlSize.width = true ∧
    exactAxis (.finite 0) (.finite 20) thinCursorControl.mScrollPosition.y
      thinCursorControl.mVisualModel.mControlSize.height = true ∧
    (ScrollToMakePositionVisible ⟨.finite 130, .finite 0⟩ (.finite 20)
      thinCursorControl).map (fun t => t.mScrollPosition) =
      some ⟨.finite (-31), .finite 0⟩ ∧
    ∃ s1, ScrollToMakePositionVisible ⟨.finite 130, .finite 0⟩ (.finite 20)
        thinCursorControl = some s1 ∧
      s1.mScrollPosition.x.isFinite = true ∧ s1.mScrollPosition.y.isFinite = true ∧
      (0 ≤ (130 : ℚ) + thinCursorControl.mScrollPosition.x.toRat →
        (130 : ℚ) + (1 : Int) + thinCursorControl.mScrollPosition.x.toRat
          ≤ thinCursorControl.mVisualModel.mControlSize.width.toRat →
        s1.mScrollPosition.x = thinCursorControl.mScrollPosition.x) ∧
      (0 ≤ (0 : ℚ) + thinCursorControl.mScrollPosition.y.toRat →
        (0 : ℚ) + 20 + thinCursorControl.mScrollPosition.y.toRat
          ≤ thinCursorControl.mVisualModel.mControlSize.height.toRat →
        s1.mScrollPosition.y = thinCursorControl.mScrollPosition.y) ∧
      (((1 : Int) : ℚ) ≤ thinCursorControl.mVisualModel.mControlSize.width.toRat →
        0 ≤ (130 : ℚ) + s1.mScrollPosition.x.toRat ∧
        (130 : ℚ) + (1 : Int) + s1.mScrollPosition.x.toRat
          ≤ thinCursorControl.mVisualModel.mControlSize.width.toRat) ∧
      ((20 : ℚ) ≤ thinCursorControl.mVisualModel.mControlSize.height.toRat →
        0 ≤ (0 : ℚ) + s1.mScrollPosition.y.toRat ∧
        (0 : ℚ) + 20 + s1.mScrollPosition.y.toRat
          ≤ thinCursorControl.mVisualModel.mControlSize.height.toRat) :=
  ⟨rfl, by decide!, by decide!, by decide!,
    ScrollToMakePositionVisible_minimal thinCursorControl
      { newEventData with mDecorator := { idleDecorator with cursorWidth := 1 } }
      ⟨.finite 130, .finite 0⟩ (.finite 20) rfl (by decide!) (by decide!) (by decide!)⟩

/-! ## The clamp of the cursor position -/

/-- A `float` less a finite `float` that is not greater is not negative. -/
theorem float.sub_nonneg_of_le {a b : float} (hb : b.isFinite = true) (h : b ≤ a) :
    0 ≤ a - b := by
  rw [float.le_iff] at h
  rw [float.sub_eq]
  rcases a with x | na | _ <;> rcases b with y | nb | _ <;>
    simp_all [float.le, float.neg, float.add, float.isFinite]
  · exact float.ofRat_nonneg (by linarith)
  · rw [float.zero_eq, float.le_iff]; simp [float.le]

/-- The two tests that clamp an x-coordinate that is not a NaN between 0 and an edge that
is not negative. -/
theorem clamp_cursor {x edge : float} (hx : x.isNaN = false) (hedge : 0 ≤ edge) :
    0 ≤ (if (if 0 > x then 0 else x) > edge then edge else (if 0 > x then 0 else x)) ∧
    (if (if 0 > x then 0 else x) > edge then edge else (if 0 > x then 0 else x)) ≤ edge ∧
    (x < 0 →
      (if (if 0 > x then 0 else x) > edge then edge else (if 0 > x then 0 else x)) = 0) ∧
    (edge < x →
      (if (if 0 > x then 0 else x) > edge then edge else (if 0 > x then 0 else x)) = edge) ∧
    (0 ≤ x → x ≤ edge →
      (if (if 0 > x then 0 else x) > edge then edge else (if 0 > x then 0 else x)) = x) := by
  have h0n := (float.isNaN_of_le hedge).1
  have hen := (float.isNaN_of_le hedge).2
  by_cases h1 : 0 > x
  · rw [if_pos h1, if_neg (float.not_lt_of_le hedge)]
    exact ⟨float.le_refl h0n, hedge, fun _ => rfl,
      fun h2 => absurd h1 (float.not_lt_of_le (float.le_trans hedge (float.le_of_lt h2))),
      fun h2 => absurd h1 (float.not_lt_of_le h2)⟩
  · rw [if_neg h1]
    have hx0 : 0 ≤ x := float.le_of_not_lt hx h0n h1
    by_cases h2 : x > edge
    · rw [if_pos h2]
      exact ⟨hedge, float.le_refl hen, fun h3 => absurd h3 h1, fun _ => rfl,
        fun _ h3 => absurd h2 (float.not_lt_of_le h3)⟩
    · rw [if_neg h2]
      exact ⟨hx0, float.le_of_not_lt hen hx h2, fun h3 => absurd h3 h1,
        fun h3 => absurd h3 h2, fun _ _ => rfl⟩

/-- C23 as stated fails.  The layout is multi-line, real text is shown, the control is
16777220 wide, the cursor 1 wide, and the layout engine places the cursor at
x = 16777220.  `GetCursorPosition` returns x = 16777220, above
`controlWidth - cursorWidth = 16777219`: the edge `mControlSize.width - cursorWidth` is
computed in binary32, where 16777219 is rounded to 16777220.  And an x-coordinate that is
a NaN is returned as it is: a NaN fails both comparisons. -/
theorem GetCursorPosition_above_exact_edge :
    IsShowingRealText wideMultiLineControl = true ∧
    wideMultiLineControl.multiLineLayout = true ∧
    wideMultiLineControl.mVisualModel.mControlSize.width = .finite 16777220 ∧
    wideMultiLineControl.mEventData.map (fun e => e.mDecorator.cursorWidth) = some 1 ∧
    (wideMultiLineControl.services.GetCursorPosition 5).primaryPosition.x =
      .finite 16777220 ∧
    (GetCursorPosition 5 wideMultiLineControl).map (fun r => r.1.primaryPosition.x) =
      some (.finite 16777220) ∧
    (16777220 : ℚ) - 1 < 16777220 ∧
    (GetCursorPosition 5
      { wideMultiLineControl with
        services := { twoLineServices with
          GetCursorPosition := fun _ =>
            ⟨⟨.NaN, .finite 20⟩, ⟨.finite 0, .finite 0⟩, .finite 20, .finite 20, .finite 20,
              .finite 0, false⟩ } }).map (fun r => r.1.primaryPosition.x) = some .NaN := by
  decide!

/-- C23, amended.  Cursor x clamp.  When real text is shown, `GetCursorPosition` returns
for a single-line layout the cursor info computed by the layout engine, unchanged; for a
multi-line layout it returns that info with the x-coordinate clamped: the line offset, the
line height, the heights of the cursors, the secondary cursor and the y-coordinate are
those of the layout engine, and when the x-coordinate of the layout engine is not a NaN
and the control is at least as wide as the cursor, the x-coordinate returned lies in
`[0, edgeWidth]`, where `edgeWidth` is the `float` `controlWidth - cursorWidth` the code
computes (the difference rounded to binary32): it is the one of the layout engine when
that one lies in the interval, 0 when it is negative and `edgeWidth` when it is greater.
The call changes nothing of the controller but the record of the calls: the logical index
and the cursor positions are as before. -/
theorem GetCursorPosition_clamp (s : Impl) (e : EventData) (logical : Nat)
    (he : s.mEventData = some e) (hreal : IsShowingRealText s = true) :
    ∃ c, GetCursorPosition logical s =
        some (c, { s with cursorPositionCalls := s.cursorPositionCalls ++ [logical] }) ∧
      (s.multiLineLayout = false → c = s.services.GetCursorPosition logical) ∧
      (s.multiLineLayout = true →
        (c.lineOffset = (s.services.GetCursorPosition logical).lineOffset ∧
          c.lineHeight = (s.services.GetCursorPosition logical).lineHeight ∧
          c.primaryCursorHeight = (s.services.GetCursorPosition logical).primaryCursorHeight ∧
          c.primaryPosition.y = (s.services.GetCursorPosition logical).primaryPosition.y ∧
          c.secondaryPosition = (s.services.GetCursorPosition logical).secondaryPosition ∧
          c.secondaryCursorHeight =
            (s.services.GetCursorPosition logical).secondaryCursorHeight ∧
          c.isSecondaryCursor = (s.services.GetCursorPosition logical).isSecondaryCursor) ∧
        ((s.services.GetCursorPosition logical).primaryPosition.x.isNaN = false →
          ((e.mDecorator.cursorWidth : Int) : float).isFinite = true →
          ((e.mDecorator.cursorWidth : Int) : float) ≤ s.mVisualModel.mControlSize.width →
          0 ≤ c.primaryPosition.x ∧
          c.primaryPosition.x ≤
            s.mVisualModel.mControlSize.width - ((e.mDecorator.cursorWidth : Int) : float) ∧
          ((s.services.GetCursorPosition logical).primaryPosition.x < 0 →
            c.primaryPosition.x = 0) ∧
          (s.mVisualModel.mControlSize.width - ((e.mDecorator.cursorWidth : Int) : float) <
              (s.services.GetCursorPosition logical).primaryPosition.x →
            c.primaryPosition.x =
              s.mVisualModel.mControlSize.width - ((e.mDecorator.cursorWidth : Int) : float)) ∧
          (0 ≤ (s.services.GetCursorPosition logical).primaryPosition.x →
            (s.services.GetCursorPosition logical).primaryPosition.x ≤
              s.mVisualModel.mControlSize.width - ((e.mDecorator.cursorWidth : Int) : float) →
            c.primaryPosition.x = (s.services.GetCursorPosition logical).primaryPosition.x))) := by
  rcases Bool.eq_false_or_eq_true s.multiLineLayout with hm | hm
  · refine ⟨{ s.services.GetCursorPosition logical with
        primaryPosition :=
          ⟨if (if 0 > (s.services.GetCursorPosition logical).primaryPosition.x then 0
                else (s.services.GetCursorPosition logical).primaryPosition.x) >
              s.mVisualModel.mControlSize.width - ((e.mDecorator.cursorWidth : Int) : float)
            then s.mVisualModel.mControlSize.width - ((e.mDecorator.cursorWidth : Int) : float)
            else (if 0 > (s.services.GetCursorPosition logical).primaryPosition.x then 0
                else (s.services.GetCursorPosition logical).primaryPosition.x),
           (s.services.GetCursorPosition logical).primaryPosition.y⟩ },
      ?_, fun h => ?_, fun _ => ⟨⟨rfl, rfl, rfl, rfl, rfl, rfl, rfl⟩, fun hx hfin hw => ?_⟩⟩
    · simp [GetCursorPosition, cursorInfoAt, hreal, hm, he]
    · rw [hm] at h
      cases h
    · exact clamp_cursor hx (float.sub_nonneg_of_le hfin hw)
  · refine ⟨s.services.GetCursorPosition logical, ?_, fun _ => rfl, fun h => ?_⟩
    · simp [GetCursorPosition, cursorInfoAt, hreal, hm]
    · rw [hm] at h
      cases h

/-- C23, witness.  In the multi-line control over two lines of text, 100 wide with a
cursor 1 wide, the cursor after the last character is the one of the layout engine, on the
second line, and its x-coordinate lies between 0 and 99, the width of the control less the
width of the cursor. -/
theorem GetCursorPosition_clamp_witness :
    thinCursorMultiLine.mEventData = some thinCursorSelectionData ∧
    IsShowingRealText thinCursorMultiLine = true ∧
    thinCursorMultiLine.multiLineLayout = true ∧
    (thinCursorMultiLine.services.GetCursorPosition 5).primaryPosition.x.isNaN = false ∧
    ((thinCursorSelectionData.mDecorator.cursorWidth : Int) : float).isFinite = true ∧
    ((thinCursorSelectionData.mDecorator.cursorWidth : Int) : float) ≤
      thinCursorMultiLine.mVisualModel.mControlSize.width ∧
    thinCursorMultiLine.mVisualModel.mControlSize.width -
      ((thinCursorSelectionData.mDecorator.cursorWidth : Int) : float) = .finite 99 ∧
    ∃ c, (GetCursorPosition 5 thinCursorMultiLine).map Prod.fst = some c ∧
      c.lineOffset = (thinCursorMultiLine.services.GetCursorPosition 5).lineOffset ∧
      c.primaryPosition.y =
        (thinCursorMultiLine.services.GetCursorPosition 5).primaryPosition.y ∧
      0 ≤ c.primaryPosition.x ∧
      c.primaryPosition.x ≤ thinCursorMultiLine.mVisualModel.mControlSize.width -
        ((thinCursorSelectionData.mDecorator.cursorWidth : Int) : float) := by
  refine ⟨rfl, by decide!, rfl, by decide!, by decide!, by decide!, by decide!, ?_⟩
  obtain ⟨c, hc, _, hmulti⟩ :=
    GetCursorPosition_clamp thinCursorMultiLine thinCursorSelectionData 5 rfl (by decide!)
  obtain ⟨⟨h1, _, _, h4, _⟩, hx⟩ := hmulti rfl
  obtain ⟨h5, h6, _⟩ := hx (by decide!) (by decide!) (by decide!)
  exact ⟨c, by rw [hc]; rfl, h1, h4, h5, h6⟩

end Text
